import Mathlib

/-!
# celsius: request parsing and response rendering

A shallow embedding of `src/celsius.cpp` (the primary variant) and of
`src/temperature.cpp` (the PIR variant).

Conventions of the embedding.

* A byte is a natural number below 256; a C string is the list of its bytes
  (without the terminator), written `cbytes "..."` for a literal.
* The client of one connection is the finite list of the results that
  `client.read()` returns while `client.connected()` is true (a negative
  result means that no byte is available yet); once the list is used up
  `client.connected()` is false.
* `size_t` is the 16-bit unsigned integer of avr-gcc (both files include
  `<avr/wdt.h>`), so the position counter of `read_until` wraps at `2 ^ 16`.
* The memory that starts at the global `buffer` is a function from offsets
  to bytes: offsets below `BUFFER_SIZE` are the buffer, the others are the
  memory next to it.
* The effects of a function are the list of `Event`s it performs, in order. The
  echo of the request and of the response on `Serial` (debug log) is left out.
-/

set_option maxRecDepth 100000

namespace Celsius

/-! ## Bytes and C strings -/

/-- Bytes of a string literal (ASCII), without the terminating NUL. -/
def cbytes (s : String) : List Nat := s.toList.map Char.toNat

/-- The cast `(char) data` of a non-negative result of `client.read()`. -/
def toChar (data : Int) : Nat := (data % 256).toNat

/-- `#define BUFFER_SIZE 30`. -/
def BUFFER_SIZE : Nat := 30

/-- Number of values of `size_t` on the target (avr-gcc: 16 bits). -/
def SIZE_MOD : Nat := 2 ^ 16

/-- Memory addressed by offset from the global `buffer`. -/
abbrev Mem := Nat → Nat

/-- `memset(buffer, v, n)`. -/
def memset (mem : Mem) (v n : Nat) : Mem := fun i => if i < n then v else mem i

/-- The assignment `buffer[pos] = c`. -/
def store (mem : Mem) (pos c : Nat) : Mem := fun i => if i = pos then c else mem i

/-- The `BUFFER_SIZE` bytes of the buffer. -/
def bufferOf (mem : Mem) : List Nat := (List.range BUFFER_SIZE).map mem

/-- `strncmp_P(s1, s2, n)` from offset `i` on: `s1` is read from memory, `s2` is a
NUL-terminated flash string given by its bytes; bytes compare as `unsigned char`. -/
def strncmp_P (s1 : Mem) (s2 : List Nat) : Nat → Nat → Int
  | 0, _ => 0
  | n + 1, i =>
    if s1 i ≠ s2.getD i 0 then (s1 i : Int) - (s2.getD i 0 : Int)
    else if s1 i = 0 then 0
    else strncmp_P s1 s2 n (i + 1)

/-! ## `read_until` (celsius.cpp 79-116, temperature.cpp 67-102) -/

/-- The `while (client.connected())` loop of `read_until`: returns the final `pos`,
the memory and the unread rest of the client stream. -/
def read_until_loop (terminator : Nat) : List Int → Nat → Mem → Nat × Mem × List Int
  | [], pos, mem => (pos, mem, [])
  | data :: rest, pos, mem =>
    if data < 0 then read_until_loop terminator rest pos mem
    else if toChar data = 13 then read_until_loop terminator rest pos mem
    else if toChar data = terminator then (pos, mem, rest)
    else
      read_until_loop terminator rest ((pos + 1) % SIZE_MOD)
        (if pos < BUFFER_SIZE then store mem pos (toChar data) else mem)

/-- `size_t read_until(EthernetClient & client, const char terminator)`. -/
def read_until (client : List Int) (mem : Mem) (terminator : Nat) : Nat × Mem × List Int :=
  read_until_loop terminator client 0 (memset mem 0 BUFFER_SIZE)

/-! ## Effects -/

/-- The argument of one `send_data(client, data)` call, by its C++ type. -/
inductive Data (D : Type) where
  /-- a `const __FlashStringHelper *`: the bytes of the flash string. -/
  | flash (s : List Nat)
  /-- a `const char *`: all the bytes of the array it points to. -/
  | cstr (a : List Nat)
  /-- a `uint16_t`. -/
  | uint (n : Nat)
  /-- a `bool`. -/
  | bool (b : Bool)
  /-- a `double`. -/
  | double (t : D)
  deriving DecidableEq

/-- One observable effect. -/
inductive Event (D : Type) where
  /-- `send_data(client, d)`, that is `client.print(d)`. -/
  | send (d : Data D)
  /-- `sensor[i].request_temperature()`. -/
  | request_temperature (i : Nat)
  /-- `sensor[i].read()`. -/
  | read (i : Nat)
  /-- `delay(ms)`. -/
  | delay (ms : Nat)
  /-- `client.flush()`. -/
  | flush
  /-- `client.stop()`. -/
  | stop
  deriving DecidableEq

/-- What the build takes from outside `src/`: `html.h`, `sensor.h`, `sensor_names.h`,
and the two library operations applied to a `double` (`isnan` and `Print::print`). -/
structure Config (D : Type) where
  /-- `INDEX_HTML` of `html.h`, as the argument handed to `send_data`. -/
  INDEX_HTML : Data D
  /-- `DS18B20_CONVERSION_DELAY_MS` of `sensor.h`. -/
  DS18B20_CONVERSION_DELAY_MS : Nat
  /-- `sensor_count`, the number of entries of `sensor[]`. -/
  sensor_count : Nat
  /-- The C string `sensor_names[i]`: its bytes up to the terminator. -/
  sensor_names : Nat → List Nat
  /-- `isnan(t)`. -/
  isnan : D → Bool
  /-- The text `Print::print(double)` writes. -/
  print_double : D → List Nat

/-- `send_data(client, data)`. -/
def send_data {D : Type} (data : Data D) : List (Event D) := [Event.send data]

/-- `send_data(client, F(s))` for a string literal `s`. -/
def send_F {D : Type} (s : String) : List (Event D) := send_data (Data.flash (cbytes s))

/-- The arguments of the `send_data` calls of a run, in order. -/
def sent {D : Type} : List (Event D) → List (Data D)
  | [] => []
  | Event.send d :: es => d :: sent es
  | _ :: es => sent es

/-- The bytes `client.print(d)` writes; printing a `const char *` is defined only when
the array holds a terminator. -/
def Data.text {D : Type} (print_double : D → List Nat) : Data D → Option (List Nat)
  | Data.flash s => some s
  | Data.cstr a => if 0 ∈ a then some (a.takeWhile (fun c => c ≠ 0)) else none
  | Data.uint n => some (cbytes (toString n))
  | Data.bool b => some (cbytes (if b then "1" else "0"))
  | Data.double t => some (print_double t)

/-- The bytes written by a sequence of `client.print` calls. -/
def textOf {D : Type} (print_double : D → List Nat) : List (Data D) → Option (List Nat)
  | [] => some []
  | d :: ds =>
    match d.text print_double, textOf print_double ds with
    | some a, some b => some (a ++ b)
    | _, _ => none

/-- The bytes a run writes to the client. -/
def written {D : Type} (cfg : Config D) (es : List (Event D)) : Option (List Nat) :=
  textOf cfg.print_double (sent es)

/-- Unsigned 32-bit subtraction `a - b` of two `unsigned long` values. -/
def sub32 (a b : Nat) : Nat := (a % 2 ^ 32 + 2 ^ 32 - b % 2 ^ 32) % 2 ^ 32

/-! ## Response producers shared by both files -/

/-- `send_headers(client, code, content_type)` (celsius.cpp 126-139,
temperature.cpp 110-123); `SERVER_NAME` is `server_name`, a null `content_type`
is `none`. -/
def send_headers {D : Type} (server_name : String) (code : Nat)
    (content_type : Option (List Nat)) : List (Event D) :=
  send_F "HTTP/1.1 " ++
  send_data (Data.uint code) ++
  (if code < 300 then send_F " OK" else send_F " Error") ++
  send_F ("\r\nServer: " ++ server_name ++ "\r\n") ++
  (match content_type with
   | some ct => send_F "Content-Type: " ++ send_data (Data.flash ct) ++ send_F "; charset=utf-8\r\n"
   | none => []) ++
  send_F "\r\n"

/-- `serve_html(client)`. -/
def serve_html {D : Type} (cfg : Config D) (server_name : String) : List (Event D) :=
  send_headers server_name 200 (some (cbytes "text/html")) ++ send_data cfg.INDEX_HTML

/-- The loop `while (read_until(client, (char) 10)) {}` run for at most `fuel` rounds. -/
def consume_loop : Nat → List Int → Mem → Mem × List Int
  | 0, client, mem => (mem, client)
  | fuel + 1, client, mem =>
    let r := read_until client mem 10
    if r.1 ≠ 0 then consume_loop fuel r.2.2 r.2.1 else (r.2.1, r.2.2)

/-- The header-consumption loop at the label `consume:`. Every round that goes on
has taken at least one element of the stream, so `client.length + 1` rounds are
enough (`consume_unfold`). -/
def consume (client : List Int) (mem : Mem) : Mem × List Int :=
  consume_loop (client.length + 1) client mem

/-- The tail of `handle_http` after the response: flush, `delay(1)`, stop. -/
def close {D : Type} : List (Event D) := [Event.flush, Event.delay 1, Event.stop]

/-- Result of one `handle_http` call. -/
structure Handled (D : Type) where
  /-- the returned `bool`. -/
  ret : Bool
  /-- the effects, in order. -/
  events : List (Event D)
  /-- the memory at `buffer` afterwards. -/
  mem : Mem
  /-- the unread rest of the client stream. -/
  client : List Int

/-! ## The primary variant: `src/celsius.cpp` -/

namespace Primary

/-- `#define SERVER_NAME "celsius"`. -/
def SERVER_NAME : String := "celsius"

/-- The local `enum {reply_index, reply_json, reply_error}` of `handle_http`. -/
inductive Reply where
  | reply_index
  | reply_json
  | reply_error
  deriving DecidableEq, Repr

/-- One round of the rendering loop of `serve_measurements_json` (celsius.cpp 161-174). -/
def json_entry {D : Type} (cfg : Config D) (read : Nat → D) (i : Nat) : List (Event D) :=
  (if i > 0 then send_F "," else []) ++
  [Event.read i] ++
  send_F "\"" ++
  send_data (Data.flash (cfg.sensor_names i)) ++
  send_data (Data.cstr (cbytes "\":" ++ [0])) ++
  (if ¬ cfg.isnan (read i) then send_data (Data.double (read i)) else send_F "null")

/-- `serve_measurements_json(client)` (celsius.cpp 146-176): `now` is the value of
`millis()` at line 154, `read i` the value `sensor[i].read()` returns. -/
def serve_measurements_json {D : Type} (cfg : Config D) (now last_reading_update : Nat)
    (read : Nat → D) : List (Event D) :=
  send_headers SERVER_NAME 200 (some (cbytes "application/json")) ++
  send_F "\x7b" ++
  (if sub32 now last_reading_update < cfg.DS18B20_CONVERSION_DELAY_MS
   then [Event.delay (cfg.DS18B20_CONVERSION_DELAY_MS - sub32 now last_reading_update)]
   else []) ++
  (List.range cfg.sensor_count).flatMap (json_entry cfg read) ++
  send_F "\x7d"

/-- Lines 186-204 of `handle_http`: the state at the label `consume:`, as
`(reply, code, buffer memory, unread stream)`. -/
def parse_request (client : List Int) (mem : Mem) : Reply × Nat × Mem × List Int :=
  let verb := read_until client mem 32
  if strncmp_P verb.2.1 (cbytes "GET") BUFFER_SIZE 0 ≠ 0 then
    (Reply.reply_error, 400, verb.2.1, verb.2.2)
  else
    let uri := read_until verb.2.2 verb.2.1 32
    if strncmp_P uri.2.1 (cbytes "/temperature.json") BUFFER_SIZE 0 = 0 then
      (Reply.reply_json, 200, uri.2.1, uri.2.2)
    else if strncmp_P uri.2.1 (cbytes "/") BUFFER_SIZE 0 = 0 then
      (Reply.reply_index, 200, uri.2.1, uri.2.2)
    else
      (Reply.reply_error, 404, uri.2.1, uri.2.2)

/-- The `switch (reply)` of `handle_http` (celsius.cpp 213-222). -/
def respond {D : Type} (cfg : Config D) (now last_reading_update : Nat) (read : Nat → D)
    (reply : Reply) (code : Nat) : List (Event D) :=
  match reply with
  | Reply.reply_index => serve_html cfg SERVER_NAME
  | Reply.reply_json => serve_measurements_json cfg now last_reading_update read
  | Reply.reply_error => send_headers SERVER_NAME code none

/-- `bool handle_http()` (celsius.cpp 178-234): `available` is the result of
`server.available()`, `none` when no client is pending. -/
def handle_http {D : Type} (cfg : Config D) (now last_reading_update : Nat) (read : Nat → D)
    (available : Option (List Int)) (mem : Mem) : Handled D :=
  match available with
  | none => ⟨false, [], mem, []⟩
  | some client =>
    let p := parse_request client mem
    let c := consume p.2.2.2 p.2.2.1
    ⟨true, respond cfg now last_reading_update read p.1 p.2.1 ++ close, c.1, c.2⟩

end Primary

/-! ## The PIR variant: `src/temperature.cpp` -/

namespace Pir

/-- `#define SERVER_NAME "Celsius"`. -/
def SERVER_NAME : String := "Celsius"

/-- The local `enum {reply_index, reply_json, reply_prometheus, reply_error}`. -/
inductive Reply where
  | reply_index
  | reply_json
  | reply_prometheus
  | reply_error
  deriving DecidableEq, Repr

/-- The array `dest` after `strncpy_P(dest, src, n)`: the first `n` bytes of the C
string `src`, then NUL bytes up to `n` when `src` is shorter. -/
def strncpy_P (src : List Nat) (n : Nat) : List Nat :=
  src.take n ++ List.replicate (n - src.length) 0

/-- One round of the rendering loop of `serve_measurements` (temperature.cpp 155-168). -/
def entry {D : Type} (cfg : Config D) (read : Nat → D)
    (temperature_name_start temperature_name_end temperature_separator : List Nat)
    (i : Nat) : List (Event D) :=
  (if i > 0 then send_data (Data.flash temperature_separator) else []) ++
  [Event.read i] ++
  send_data (Data.flash temperature_name_start) ++
  send_data (Data.cstr (strncpy_P (cfg.sensor_names i) 16)) ++
  send_data (Data.flash temperature_name_end) ++
  send_data (Data.double (read i))

/-- The template `serve_measurements` (temperature.cpp 130-170), with `T` a flash string. -/
def serve_measurements {D : Type} (cfg : Config D) (pir_status : Bool) (read : Nat → D)
    (content_type presence_header temperature_header temperature_name_start
      temperature_name_end temperature_separator temperature_footer : List Nat) :
    List (Event D) :=
  send_headers SERVER_NAME 200 (some content_type) ++
  send_data (Data.flash presence_header) ++
  send_data (Data.bool pir_status) ++
  send_data (Data.flash temperature_header) ++
  (List.range cfg.sensor_count).map Event.request_temperature ++
  [Event.delay cfg.DS18B20_CONVERSION_DELAY_MS] ++
  (List.range cfg.sensor_count).flatMap
    (entry cfg read temperature_name_start temperature_name_end temperature_separator) ++
  send_data (Data.flash temperature_footer)

/-- `serve_measurements_prometheus(client)` (temperature.cpp 172-182). -/
def serve_measurements_prometheus {D : Type} (cfg : Config D) (pir_status : Bool)
    (read : Nat → D) : List (Event D) :=
  serve_measurements cfg pir_status read
    (cbytes "text/plain")
    (cbytes "# HELP presence PIR presence sensor activated\n# TYPE presence gauge\npresence ")
    (cbytes "\n# HELP temperature Temperature in degrees Celsius\n# TYPE temperature gauge\n")
    (cbytes "temperature\x7bsensor=\"")
    (cbytes "\"\x7d ")
    (cbytes "\n")
    (cbytes "\n")

/-- `serve_measurements_json(client)` (temperature.cpp 184-194). -/
def serve_measurements_json {D : Type} (cfg : Config D) (pir_status : Bool)
    (read : Nat → D) : List (Event D) :=
  serve_measurements cfg pir_status read
    (cbytes "application/json")
    (cbytes "\x7b\"presence\":")
    (cbytes ",\"temperature\":\x7b")
    (cbytes "\"")
    (cbytes "\":")
    (cbytes ",")
    (cbytes "\x7d\x7d")

/-- Lines 203-223 of `handle_http`: the state at the label `consume:`. -/
def parse_request (client : List Int) (mem : Mem) : Reply × Nat × Mem × List Int :=
  let verb := read_until client mem 32
  if strncmp_P verb.2.1 (cbytes "GET") BUFFER_SIZE 0 ≠ 0 then
    (Reply.reply_error, 400, verb.2.1, verb.2.2)
  else
    let uri := read_until verb.2.2 verb.2.1 32
    if strncmp_P uri.2.1 (cbytes "/measurements.json") BUFFER_SIZE 0 = 0 then
      (Reply.reply_json, 200, uri.2.1, uri.2.2)
    else if strncmp_P uri.2.1 (cbytes "/metrics") BUFFER_SIZE 0 = 0 then
      (Reply.reply_prometheus, 200, uri.2.1, uri.2.2)
    else if strncmp_P uri.2.1 (cbytes "/") BUFFER_SIZE 0 = 0 then
      (Reply.reply_index, 200, uri.2.1, uri.2.2)
    else
      (Reply.reply_error, 404, uri.2.1, uri.2.2)

/-- The `switch (reply)` of `handle_http` (temperature.cpp 232-244). -/
def respond {D : Type} (cfg : Config D) (pir_status : Bool) (read : Nat → D)
    (reply : Reply) (code : Nat) : List (Event D) :=
  match reply with
  | Reply.reply_index => serve_html cfg SERVER_NAME
  | Reply.reply_json => serve_measurements_json cfg pir_status read
  | Reply.reply_prometheus => serve_measurements_prometheus cfg pir_status read
  | Reply.reply_error => send_headers SERVER_NAME code none

/-- `bool handle_http()` (temperature.cpp 196-256). -/
def handle_http {D : Type} (cfg : Config D) (pir_status : Bool) (read : Nat → D)
    (available : Option (List Int)) (mem : Mem) : Handled D :=
  match available with
  | none => ⟨false, [], mem, []⟩
  | some client =>
    let p := parse_request client mem
    let c := consume p.2.2.2 p.2.2.1
    ⟨true, respond cfg pir_status read p.1 p.2.1 ++ close, c.1, c.2⟩

end Pir

/-! ## Reference descriptions of the request stream -/

/-- The token in front of the terminator: the bytes the stream delivers, carriage
returns left out, up to the first one equal to `terminator` (or to the end of the
stream when the connection closes first). -/
def tokenOf (terminator : Nat) : List Int → List Nat
  | [] => []
  | data :: rest =>
    if data < 0 then tokenOf terminator rest
    else if toChar data = 13 then tokenOf terminator rest
    else if toChar data = terminator then []
    else toChar data :: tokenOf terminator rest

/-- The stream behind the first byte that is not a carriage return and equals
`terminator`; empty when the connection closes first. -/
def behind (terminator : Nat) : List Int → List Int
  | [] => []
  | data :: rest =>
    if data < 0 then behind terminator rest
    else if toChar data = 13 then behind terminator rest
    else if toChar data = terminator then rest
    else behind terminator rest

/-- The stream behind the line feed of the first line that holds no byte other than
carriage returns; `seen` tells whether the current line already holds such a byte. -/
def drained : Bool → List Int → List Int
  | _, [] => []
  | seen, data :: rest =>
    if data < 0 then drained seen rest
    else if toChar data = 13 then drained seen rest
    else if toChar data = 10 then (if seen then drained false rest else rest)
    else drained true rest

/-- The header block in bytes: status line, `Server` header, the `Content-Type`
header when a content type is given, and the blank line. -/
def headerText (server_name : String) (code : Nat) (content_type : Option (List Nat)) :
    List Nat :=
  cbytes "HTTP/1.1 " ++ cbytes (toString code) ++
    (if code < 300 then cbytes " OK" else cbytes " Error") ++ cbytes "\r\n" ++
    (cbytes "Server: " ++ cbytes server_name ++ cbytes "\r\n") ++
    (match content_type with
     | some ct => cbytes "Content-Type: " ++ ct ++ cbytes "; charset=utf-8\r\n"
     | none => []) ++
    cbytes "\r\n"

/-- The `send_data` arguments of entry `i` of the primary JSON body: quote, display
name, quote and colon, then the reading, or `null` for a NaN reading. -/
def Primary.entryData {D : Type} (cfg : Config D) (read : Nat → D) (i : Nat) : List (Data D) :=
  [Data.flash (cbytes "\""), Data.flash (cfg.sensor_names i), Data.cstr (cbytes "\":" ++ [0]),
    if cfg.isnan (read i) then Data.flash (cbytes "null") else Data.double (read i)]

/-- The bytes of entry `i` of the primary JSON body. -/
def Primary.entryText {D : Type} (cfg : Config D) (read : Nat → D) (i : Nat) : List Nat :=
  cbytes "\"" ++ cfg.sensor_names i ++ cbytes "\":" ++
    (if cfg.isnan (read i) then cbytes "null" else cfg.print_double (read i))

/-- The `send_data` arguments of entry `i` of a PIR measurement body. -/
def Pir.entryData {D : Type} (cfg : Config D) (read : Nat → D)
    (temperature_name_start temperature_name_end : List Nat) (i : Nat) : List (Data D) :=
  [Data.flash temperature_name_start, Data.cstr (Pir.strncpy_P (cfg.sensor_names i) 16),
    Data.flash temperature_name_end, Data.double (read i)]

/-- The bytes of entry `i` of a PIR measurement body, `value` being the text of the
reading. -/
def Pir.entryText {D : Type} (cfg : Config D) (value : Nat → List Nat)
    (temperature_name_start temperature_name_end : List Nat) (i : Nat) : List Nat :=
  temperature_name_start ++ cfg.sensor_names i ++ temperature_name_end ++ value i

/-! ## Sample data for the concrete evaluations -/

/-- The results of `client.read()` for a peer that sends the text `s` at once. -/
def request (s : String) : List Int := s.toList.map (fun c => (c.toNat : Int))

/-- A sample reading: not-a-number, or a temperature in hundredths of a degree. -/
inductive Reading where
  | nan
  | centi (n : Nat)
  deriving DecidableEq, Repr

/-- Text of a sample reading, in the Arduino format (two decimals; `nan`). -/
def Reading.print : Reading → List Nat
  | Reading.nan => cbytes "nan"
  | Reading.centi n =>
    cbytes (toString (n / 100) ++ "." ++ toString (n % 100 / 10) ++ toString (n % 10))

/-- A sample configuration with the given sensor names. -/
def sampleConfig (names : List String) : Config Reading where
  INDEX_HTML := Data.flash (cbytes "<html></html>")
  DS18B20_CONVERSION_DELAY_MS := 750
  sensor_count := names.length
  sensor_names := fun i => cbytes (names.getD i "")
  isnan := fun t => t = Reading.nan
  print_double := Reading.print

/-- Sample readings given as a list. -/
def sampleRead (rs : List Reading) : Nat → Reading := fun i => rs.getD i Reading.nan

/-- Memory that holds the byte 255 everywhere. -/
def dirty : Mem := fun _ => 255

/-! ## The run loop: `setup`, `loop` and `src/ethernet.cpp` -/

/-- One observable effect of `setup` and `loop`. -/
inductive Effect (D : Type) where
  /-- `Serial.println(F(s))`. -/
  | log (s : String)
  /-- `print_ip()`, which logs the address. -/
  | print_ip
  /-- `pinMode(PIR_PIN, INPUT_PULLUP)`. -/
  | pinMode
  /-- `server.begin()`. -/
  | server_begin
  /-- `wdt_enable(WDTO_8S)`. -/
  | wdt_enable
  /-- `wdt_reset()`. -/
  | wdt_reset
  /-- a sensor operation or a delay of `setup` or `loop` themselves. -/
  | ev (e : Event D)
  /-- an effect of `handle_http`. -/
  | http (e : Event D)
  /-- `udp.beginPacket(ip, port)`. -/
  | udp_beginPacket (ip : List Nat) (port : Nat)
  /-- `udp.write((uint8_t) b)`. -/
  | udp_write (b : Nat)
  /-- `udp.print(d)`. -/
  | udp_print (d : Data D)
  /-- `udp.endPacket()`. -/
  | udp_endPacket
  /-- `reset()`, the call of the null function pointer: the device restarts. -/
  | reset
  /-- `while (1);`, the wait for the watchdog. -/
  | spin
  deriving DecidableEq

/-- How a step of the program ends: it goes on, the device restarts, or the program
spins until the watchdog fires. -/
inductive Outcome where
  | running
  | restarted
  | spinning
  deriving DecidableEq, Repr

/-- The value `millis()` returns at `t` milliseconds after the start: an
`unsigned long` of 32 bits. -/
def millis (t : Nat) : Nat := t % 2 ^ 32

/-- `check_link()` (ethernet.cpp 10-15): `link_on` tells whether
`Ethernet.linkStatus()` is `LinkON`. -/
def check_link {D : Type} (link_on : Bool) : List (Effect D) × Outcome :=
  if link_on = false then ([Effect.log "Conn lost", Effect.reset], Outcome.restarted)
  else ([], Outcome.running)

/-- `handle_dhcp()` (ethernet.cpp 17-45): `maintain` is the result of
`Ethernet.maintain()`. -/
def handle_dhcp {D : Type} (maintain : Int) : List (Effect D) × Outcome :=
  if maintain = 1 then ([Effect.log "Renew fail", Effect.reset], Outcome.restarted)
  else if maintain = 2 then ([Effect.print_ip], Outcome.running)
  else if maintain = 3 then ([Effect.log "Rebind fail", Effect.reset], Outcome.restarted)
  else if maintain = 4 then ([Effect.print_ip], Outcome.running)
  else ([], Outcome.running)

/-- `setup_ethernet(mac)` (ethernet.cpp 47-56): `begin_result` is the result of
`Ethernet.begin(mac)`. -/
def setup_ethernet {D : Type} (begin_result : Int) : List (Effect D) × Outcome :=
  if begin_result = 0 then
    ([Effect.log "DHCP...", Effect.log "Fail", Effect.ev (Event.delay (10 * 1000)),
      Effect.reset], Outcome.restarted)
  else ([Effect.log "DHCP...", Effect.print_ip], Outcome.running)

/-- Result of `setup`, of one `loop` iteration or of a run, over the state `S`. -/
structure Step (S D : Type) where
  /-- the static and global variables afterwards. -/
  state : S
  /-- the effects, in order. -/
  effects : List (Effect D)
  /-- how the step ended. -/
  outcome : Outcome

namespace Primary

/-- `#define READING_UPDATE_INTERVAL (60 * 1000l)`. -/
def READING_UPDATE_INTERVAL : Nat := 60 * 1000

/-- `#define READING_PUBLISH_INTERVAL (3 * 1000l)`. -/
def READING_PUBLISH_INTERVAL : Nat := 3 * 1000

/-- `#define PICOMQ_TOPIC_PREFIX "celsius/" SERVER_NAME "/"`. -/
def PICOMQ_TOPIC_PREFIX : String := "celsius/" ++ SERVER_NAME ++ "/"

/-- `#define PICOMQ_TOPIC_SUFFIX "/temperature"`. -/
def PICOMQ_TOPIC_SUFFIX : String := "/temperature"

/-- The global and static variables of celsius.cpp. -/
structure State where
  /-- the global `last_reading_update`. -/
  last_reading_update : Nat
  /-- the static `last_publish` of `loop`; `none` until its initialisation in the
  first iteration. -/
  last_publish : Option Nat
  /-- the static `idx` of `loop`. -/
  idx : Nat
  /-- the memory at the global `buffer`. -/
  buffer : Mem

/-- What one iteration of `loop` gets from outside: the time, in milliseconds since
the start, of each `millis()` call, the link, the lease, the pending client and the
sensors. -/
structure Tick (D : Type) where
  /-- time of `millis()` at line 239. -/
  millis_update : Nat
  /-- time of `millis()` at line 64, in `request_temperatures`. -/
  millis_request : Nat
  /-- time of `millis()` at line 245, the initialisation of `last_publish`. -/
  millis_init : Nat
  /-- time of `millis()` at line 246. -/
  millis_interval : Nat
  /-- time of `millis()` at line 247. -/
  millis_conversion : Nat
  /-- time of `millis()` at line 260. -/
  millis_published : Nat
  /-- time of `millis()` at line 154, in `serve_measurements_json`. -/
  millis_json : Nat
  /-- whether `Ethernet.linkStatus()` is `LinkON`. -/
  link_on : Bool
  /-- result of `Ethernet.maintain()`. -/
  maintain : Int
  /-- result of `server.available()`. -/
  available : Option (List Int)
  /-- value of `sensor[i].read()` at line 256. -/
  read_publish : Nat → D
  /-- value of `sensor[i].read()` at line 165. -/
  read : Nat → D

/-- `request_temperatures()` (celsius.cpp 59-65), `t` being the time of its
`millis()` call. -/
def request_temperatures {D : Type} (cfg : Config D) (t : Nat) (s : State) :
    State × List (Effect D) :=
  ({ s with last_reading_update := millis t },
    [Effect.log "Updating readings..."] ++
      (List.range cfg.sensor_count).map (fun i => Effect.ev (Event.request_temperature i)))

/-- The datagram of celsius.cpp 250-257 for the cursor `idx` and the reading `t`. -/
def datagram {D : Type} (cfg : Config D) (idx : Nat) (t : D) : List (Effect D) :=
  [Effect.udp_beginPacket [224, 0, 1, 80] 1880,
    Effect.udp_write 80,
    Effect.udp_print (Data.flash (cbytes PICOMQ_TOPIC_PREFIX)),
    Effect.udp_print (Data.flash (cfg.sensor_names idx)),
    Effect.udp_print (Data.flash (cbytes PICOMQ_TOPIC_SUFFIX)),
    Effect.udp_write 0,
    Effect.ev (Event.read idx),
    Effect.udp_print (Data.double t),
    Effect.udp_endPacket]

/-- The telemetry block of `loop` (celsius.cpp 243-263). -/
def publish {D : Type} (cfg : Config D) (k : Tick D) (s : State) : State × List (Effect D) :=
  let last_publish := s.last_publish.getD (millis k.millis_init)
  if READING_PUBLISH_INTERVAL / cfg.sensor_count ≤ sub32 (millis k.millis_interval) last_publish
      ∧ cfg.DS18B20_CONVERSION_DELAY_MS ≤
        sub32 (millis k.millis_conversion) s.last_reading_update then
    ({ s with last_publish := some (millis k.millis_published),
              idx := (s.idx + 1) % cfg.sensor_count },
      datagram cfg s.idx (k.read_publish s.idx))
  else ({ s with last_publish := some last_publish }, [])

/-- The update block of `loop` (celsius.cpp 239-241). -/
def update {D : Type} (cfg : Config D) (k : Tick D) (s : State) : State × List (Effect D) :=
  if READING_UPDATE_INTERVAL ≤ sub32 (millis k.millis_update) s.last_reading_update then
    request_temperatures cfg k.millis_request s
  else (s, [])

/-- `loop()` of celsius.cpp (236-284). `REBOOT_TIMEOUT` is not defined in this file,
so lines 270-283 are not compiled. -/
def loop {D : Type} (cfg : Config D) (k : Tick D) (s : State) : Step State D :=
  let u := update cfg k s
  let p := publish cfg k u.1
  let l : List (Effect D) × Outcome := check_link k.link_on
  if l.2 ≠ Outcome.running then
    ⟨p.1, [Effect.wdt_reset] ++ u.2 ++ p.2 ++ l.1, l.2⟩
  else
    let d : List (Effect D) × Outcome := handle_dhcp k.maintain
    if d.2 ≠ Outcome.running then
      ⟨p.1, [Effect.wdt_reset] ++ u.2 ++ p.2 ++ l.1 ++ d.1, d.2⟩
    else
      let h := handle_http cfg k.millis_json p.1.last_reading_update k.read k.available
        p.1.buffer
      ⟨{ p.1 with buffer := h.mem },
        [Effect.wdt_reset] ++ u.2 ++ p.2 ++ l.1 ++ d.1 ++ h.events.map Effect.http,
        Outcome.running⟩

/-- `setup()` of celsius.cpp (67-77): `mem` is the memory at `buffer`, `begin_result`
the result of `Ethernet.begin`, `t` the time of the `millis()` call of
`request_temperatures`. -/
def setup {D : Type} (cfg : Config D) (mem : Mem) (begin_result : Int) (t : Nat) :
    Step State D :=
  let s0 : State := ⟨0, none, 0, mem⟩
  let e : List (Effect D) × Outcome := setup_ethernet begin_result
  if e.2 ≠ Outcome.running then
    ⟨s0, [Effect.log (SERVER_NAME ++ " __DATE__ __TIME__\n")] ++ e.1, e.2⟩
  else
    let r := request_temperatures cfg t s0
    ⟨r.1, [Effect.log (SERVER_NAME ++ " __DATE__ __TIME__\n")] ++ e.1 ++
      [Effect.server_begin] ++ r.2 ++ [Effect.wdt_enable], Outcome.running⟩

/-- The iterations of `loop` for the given ticks, as long as the program goes on. -/
def run {D : Type} (cfg : Config D) : State → List (Tick D) → Step State D
  | s, [] => ⟨s, [], Outcome.running⟩
  | s, k :: ks =>
    if (loop cfg k s).outcome = Outcome.running then
      ⟨(run cfg (loop cfg k s).state ks).state,
        (loop cfg k s).effects ++ (run cfg (loop cfg k s).state ks).effects,
        (run cfg (loop cfg k s).state ks).outcome⟩
    else loop cfg k s

/-- An execution: `setup`, then the iterations of `loop`. -/
def execution {D : Type} (cfg : Config D) (mem : Mem) (begin_result : Int) (t : Nat)
    (ticks : List (Tick D)) : Step State D :=
  if (setup cfg mem begin_result t).outcome = Outcome.running then
    ⟨(run cfg (setup cfg mem begin_result t).state ticks).state,
      (setup cfg mem begin_result t).effects ++
        (run cfg (setup cfg mem begin_result t).state ticks).effects,
      (run cfg (setup cfg mem begin_result t).state ticks).outcome⟩
  else setup cfg mem begin_result t

end Primary

namespace Pir

/-- `#define REBOOT_TIMEOUT (15 * 60 * 1000l)`. -/
def REBOOT_TIMEOUT : Nat := 15 * 60 * 1000

/-- `#define PIR_HOLD_TIME (60l * 1000)`. -/
def PIR_HOLD_TIME : Nat := 60 * 1000

/-- The global and static variables of temperature.cpp. -/
structure State where
  /-- the global `pir_status`. -/
  pir_status : Bool
  /-- the static `last_pir_active_time` of `loop`. -/
  last_pir_active_time : Nat
  /-- the static `last_http_client` of `loop`; `none` until its initialisation in the
  first iteration that reaches it. -/
  last_http_client : Option Nat
  /-- the memory at the global `buffer`. -/
  buffer : Mem

/-- What one iteration of `loop` gets from outside. -/
structure Tick (D : Type) where
  /-- whether `digitalRead(PIR_PIN)` is `LOW`. -/
  pir_low : Bool
  /-- time of `millis()` at line 266. -/
  millis_active : Nat
  /-- time of `millis()` at line 267. -/
  millis_hold : Nat
  /-- whether `Ethernet.linkStatus()` is `LinkON`. -/
  link_on : Bool
  /-- result of `Ethernet.maintain()`. -/
  maintain : Int
  /-- result of `server.available()`. -/
  available : Option (List Int)
  /-- value of `sensor[i].read()` at line 159. -/
  read : Nat → D
  /-- time of `millis()` at line 280, the initialisation of `last_http_client`. -/
  millis_init : Nat
  /-- time of `millis()` at line 283. -/
  millis_handled : Nat
  /-- time of `millis()` at line 284. -/
  millis_check : Nat

/-- The presence block of `loop` (temperature.cpp 261-270). -/
def presence {D : Type} (k : Tick D) (s : State) : State :=
  if k.pir_low then
    { s with pir_status := true, last_pir_active_time := millis k.millis_active }
  else if s.pir_status = true ∧
      PIR_HOLD_TIME < sub32 (millis k.millis_hold) s.last_pir_active_time then
    { s with pir_status := false }
  else s

/-- The liveness block of `loop` (temperature.cpp 276-289; the same text is in
celsius.cpp 270-283): the new `last_http_client` and whether the program spins. -/
def liveness {D : Type} (k : Tick D) (http_client_handled : Bool)
    (last_http_client : Option Nat) : Option Nat × Outcome :=
  let last := last_http_client.getD (millis k.millis_init)
  if http_client_handled then (some (millis k.millis_handled), Outcome.running)
  else if REBOOT_TIMEOUT < sub32 (millis k.millis_check) last then
    (some last, Outcome.spinning)
  else (some last, Outcome.running)

/-- `loop()` of temperature.cpp (258-290). -/
def loop {D : Type} (cfg : Config D) (k : Tick D) (s : State) : Step State D :=
  let p := presence k s
  let l : List (Effect D) × Outcome := check_link k.link_on
  if l.2 ≠ Outcome.running then
    ⟨p, [Effect.wdt_reset] ++ l.1, l.2⟩
  else
    let d : List (Effect D) × Outcome := handle_dhcp k.maintain
    if d.2 ≠ Outcome.running then
      ⟨p, [Effect.wdt_reset] ++ l.1 ++ d.1, d.2⟩
    else
      let h := handle_http cfg p.pir_status k.read k.available p.buffer
      let v := liveness k h.ret p.last_http_client
      ⟨{ p with buffer := h.mem, last_http_client := v.1 },
        [Effect.wdt_reset] ++ l.1 ++ d.1 ++ h.events.map Effect.http ++
          (if v.2 = Outcome.spinning then [Effect.spin] else []),
        v.2⟩

/-- `setup()` of temperature.cpp (56-65). -/
def setup {D : Type} (mem : Mem) (begin_result : Int) : Step State D :=
  let s0 : State := ⟨false, 0, none, mem⟩
  let e : List (Effect D) × Outcome := setup_ethernet begin_result
  if e.2 ≠ Outcome.running then
    ⟨s0, [Effect.log (SERVER_NAME ++ " __DATE__ __TIME__\n"), Effect.pinMode] ++ e.1, e.2⟩
  else
    ⟨s0, [Effect.log (SERVER_NAME ++ " __DATE__ __TIME__\n"), Effect.pinMode] ++ e.1 ++
      [Effect.server_begin, Effect.wdt_enable], Outcome.running⟩

/-- The iterations of `loop` for the given ticks, as long as the program goes on. -/
def run {D : Type} (cfg : Config D) : State → List (Tick D) → Step State D
  | s, [] => ⟨s, [], Outcome.running⟩
  | s, k :: ks =>
    if (loop cfg k s).outcome = Outcome.running then
      ⟨(run cfg (loop cfg k s).state ks).state,
        (loop cfg k s).effects ++ (run cfg (loop cfg k s).state ks).effects,
        (run cfg (loop cfg k s).state ks).outcome⟩
    else loop cfg k s

/-- An execution: `setup`, then the iterations of `loop`. -/
def execution {D : Type} (cfg : Config D) (mem : Mem) (begin_result : Int)
    (ticks : List (Tick D)) : Step State D :=
  if (setup mem begin_result : Step State D).outcome = Outcome.running then
    ⟨(run cfg (setup mem begin_result : Step State D).state ticks).state,
      (setup mem begin_result : Step State D).effects ++
        (run cfg (setup mem begin_result : Step State D).state ticks).effects,
      (run cfg (setup mem begin_result : Step State D).state ticks).outcome⟩
  else setup mem begin_result

end Pir

/-! ## Reference descriptions of the traces of `loop` -/

/-- The sensors whose reading a trace publishes: the indices of the reads of `loop`
itself (celsius.cpp 256), in order. -/
def published {D : Type} : List (Effect D) → List Nat
  | [] => []
  | Effect.ev (Event.read i) :: es => i :: published es
  | _ :: es => published es

/-- The round-robin order: `m` sensor indices starting at `c`, each followed by its
successor modulo `n`. -/
def roundRobin (n : Nat) : Nat → Nat → List Nat
  | _, 0 => []
  | c, m + 1 => c :: roundRobin n ((c + 1) % n) m

/-- A sample tick of the primary variant: every `millis()` call of the iteration at
time `t`, the link up, no lease event, the given pending client. -/
def Primary.sampleTick (t : Nat) (available : Option (List Int)) : Primary.Tick Reading where
  millis_update := t
  millis_request := t
  millis_init := t
  millis_interval := t
  millis_conversion := t
  millis_published := t
  millis_json := t
  link_on := true
  maintain := 0
  available := available
  read_publish := sampleRead [Reading.centi 2150, Reading.nan]
  read := sampleRead [Reading.centi 2150, Reading.nan]

/-- A sample tick of the PIR variant, every `millis()` call at time `t`. -/
def Pir.sampleTick (t : Nat) (pir_low : Bool) (available : Option (List Int)) :
    Pir.Tick Reading where
  pir_low := pir_low
  millis_active := t
  millis_hold := t
  link_on := true
  maintain := 0
  available := available
  read := sampleRead [Reading.centi 2150, Reading.nan]
  millis_init := t
  millis_handled := t
  millis_check := t

/-- The number of datagrams a trace sends: its `udp.endPacket()` calls. -/
def datagrams {D : Type} : List (Effect D) → Nat
  | [] => 0
  | Effect.udp_endPacket :: es => datagrams es + 1
  | _ :: es => datagrams es

/-- The payload of the datagrams of a trace: the bytes given to `udp.write` and the
text of what is given to `udp.print`, in order. -/
def payload {D : Type} (print_double : D → List Nat) : List (Effect D) → Option (List Nat)
  | [] => some []
  | Effect.udp_write b :: es =>
    match payload print_double es with
    | some r => some (b :: r)
    | none => none
  | Effect.udp_print d :: es =>
    match d.text print_double, payload print_double es with
    | some a, some r => some (a ++ r)
    | _, _ => none
  | _ :: es => payload print_double es

/-- The destinations of the datagrams of a trace: the arguments of its
`udp.beginPacket` calls. -/
def destinations {D : Type} : List (Effect D) → List (List Nat × Nat)
  | [] => []
  | Effect.udp_beginPacket ip port :: es => (ip, port) :: destinations es
  | _ :: es => destinations es

/-- The number of restarts a trace invokes: its `reset()` calls. -/
def restarts {D : Type} : List (Effect D) → Nat
  | [] => 0
  | Effect.reset :: es => restarts es + 1
  | _ :: es => restarts es

/-- The delays a trace of `handle_http` requests: the arguments of its `delay` calls,
in order. -/
def delays {D : Type} : List (Event D) → List Nat
  | [] => []
  | Event.delay ms :: es => ms :: delays es
  | _ :: es => delays es

/-- The sensors a trace of `handle_http` reads, in order. -/
def reads {D : Type} : List (Event D) → List Nat
  | [] => []
  | Event.read i :: es => i :: reads es
  | _ :: es => reads es

/-- The ticks of a run of the PIR variant whose iteration was executed: all of them up
to and including the first one that ends in a restart or in the spin. -/
def Pir.executed {D : Type} (cfg : Config D) : Pir.State → List (Pir.Tick D) → List (Pir.Tick D)
  | _, [] => []
  | s, k :: ks =>
    if (Pir.loop cfg k s).outcome = Outcome.running then
      k :: Pir.executed cfg (Pir.loop cfg k s).state ks
    else [k]


/-- The sensor operation or delay behind an effect, of `setup` and `loop` themselves
or of `handle_http`. -/
def sensorOp {D : Type} : Effect D → Option (Event D)
  | Effect.ev e => some e
  | Effect.http e => some e
  | _ => none

/-- Every read of a sensor in the trace is of a sensor in `R` or comes after a
conversion request of the trace for the same sensor. -/
def readsPrecededFrom {D : Type} (R : Nat → Prop) (es : List (Effect D)) : Prop :=
  ∀ pre post e i, es = pre ++ e :: post → sensorOp e = some (Event.read i) →
    R i ∨ ∃ r ∈ pre, sensorOp r = some (Event.request_temperature i)

/-- Every read of a sensor in the trace comes after a conversion request of the
trace for the same sensor. -/
def readsPreceded {D : Type} (es : List (Effect D)) : Prop :=
  ∀ pre post e i, es = pre ++ e :: post → sensorOp e = some (Event.read i) →
    ∃ r ∈ pre, sensorOp r = some (Event.request_temperature i)

/-- The number of `request_temperatures` calls of a trace of the primary variant: its
log lines `Updating readings...`, which only `request_temperatures` writes. -/
def rounds {D : Type} : List (Effect D) → Nat
  | [] => 0
  | Effect.log s :: es => (if s = "Updating readings..." then 1 else 0) + rounds es
  | _ :: es => rounds es

/-- The time of the `millis()` call of the latest `request_temperatures` call of a run
of the primary variant: the one of the last executed iteration whose trace holds such
a call, `started` when there is none. -/
def Primary.roundStart {D : Type} (cfg : Config D) :
    Primary.State → Nat → List (Primary.Tick D) → Nat
  | _, started, [] => started
  | s, started, k :: ks =>
    if (Primary.loop cfg k s).outcome = Outcome.running then
      Primary.roundStart cfg (Primary.loop cfg k s).state
        (if rounds (Primary.loop cfg k s).effects = 0 then started else k.millis_request) ks
    else if rounds (Primary.loop cfg k s).effects = 0 then started else k.millis_request

/-! ## Facts about `read_until` -/

theorem read_until_loop_rest (t : Nat) (client : List Int) (pos : Nat) (mem : Mem) :
    (read_until_loop t client pos mem).2.2 = behind t client := by
  induction client generalizing pos mem with
  | nil => rfl
  | cons d r ih =>
    simp only [read_until_loop, behind]
    split_ifs <;> first | rfl | exact ih _ _

theorem read_until_loop_far (t : Nat) (client : List Int) (pos : Nat) (mem : Mem)
    (i : Nat) (hi : BUFFER_SIZE ≤ i) :
    (read_until_loop t client pos mem).2.1 i = mem i := by
  induction client generalizing pos mem with
  | nil => rfl
  | cons d r ih =>
    simp only [read_until_loop]
    split_ifs with h1 h2 h3 h4
    · exact ih _ _
    · exact ih _ _
    · rfl
    · rw [ih]
      have : i ≠ pos := by omega
      simp [store, this]
    · exact ih _ _

theorem read_until_loop_pos (t : Nat) (client : List Int) (pos : Nat) (mem : Mem)
    (h : pos + (tokenOf t client).length < SIZE_MOD) :
    (read_until_loop t client pos mem).1 = pos + (tokenOf t client).length := by
  induction client generalizing pos mem with
  | nil => rfl
  | cons d r ih =>
    simp only [read_until_loop, tokenOf] at h ⊢
    split_ifs at h ⊢ with h1 h2 h3 h4
    · exact ih _ _ h
    · exact ih _ _ h
    · rfl
    · simp only [List.length_cons] at h ⊢
      have e : (pos + 1) % SIZE_MOD = pos + 1 := Nat.mod_eq_of_lt (by omega)
      rw [e, ih _ _ (by omega)]; omega
    · simp only [List.length_cons] at h ⊢
      have e : (pos + 1) % SIZE_MOD = pos + 1 := Nat.mod_eq_of_lt (by omega)
      rw [e, ih _ _ (by omega)]; omega

theorem read_until_loop_mem (t : Nat) (client : List Int) (pos : Nat) (mem : Mem)
    (h : pos + (tokenOf t client).length < SIZE_MOD) (i : Nat) :
    (read_until_loop t client pos mem).2.1 i =
      if pos ≤ i ∧ i < pos + (tokenOf t client).length ∧ i < BUFFER_SIZE
      then (tokenOf t client).getD (i - pos) 0 else mem i := by
  induction client generalizing pos mem with
  | nil =>
    have : ¬ (pos ≤ i ∧ i < pos + (tokenOf t []).length ∧ i < BUFFER_SIZE) := by
      simp [tokenOf]; omega
    rw [if_neg this]; rfl
  | cons d r ih =>
    by_cases h1 : d < 0
    · simp only [read_until_loop, tokenOf, if_pos h1] at h ⊢
      exact ih _ _ h
    by_cases h2 : toChar d = 13
    · simp only [read_until_loop, tokenOf, if_neg h1, if_pos h2] at h ⊢
      exact ih _ _ h
    by_cases h3 : toChar d = t
    · simp only [read_until_loop, tokenOf, if_neg h1, if_neg h2, if_pos h3] at h ⊢
      have : ¬ (pos ≤ i ∧ i < pos + ([] : List Nat).length ∧ i < BUFFER_SIZE) := by
        simp; omega
      rw [if_neg this]
    simp only [read_until_loop, tokenOf, if_neg h1, if_neg h2, if_neg h3, List.length_cons] at h ⊢
    have e : (pos + 1) % SIZE_MOD = pos + 1 := Nat.mod_eq_of_lt (by omega)
    rw [e, ih _ _ (by omega)]
    by_cases hip : i = pos
    · subst hip
      have a : ¬ (i + 1 ≤ i ∧ i < i + 1 + (tokenOf t r).length ∧ i < BUFFER_SIZE) := by omega
      rw [if_neg a]
      by_cases hb : i < BUFFER_SIZE
      · have b : (i ≤ i ∧ i < i + ((tokenOf t r).length + 1) ∧ i < BUFFER_SIZE) := by omega
        rw [if_pos b, if_pos hb]
        simp [store]
      · have b : ¬ (i ≤ i ∧ i < i + ((tokenOf t r).length + 1) ∧ i < BUFFER_SIZE) := by omega
        rw [if_neg b, if_neg hb]
    · by_cases hc : pos + 1 ≤ i ∧ i < pos + 1 + (tokenOf t r).length ∧ i < BUFFER_SIZE
      · have b : (pos ≤ i ∧ i < pos + ((tokenOf t r).length + 1) ∧ i < BUFFER_SIZE) := by omega
        rw [if_pos hc, if_pos b]
        have e2 : i - pos = (i - (pos + 1)) + 1 := by omega
        rw [e2, List.getD_cons_succ]
      · have b : ¬ (pos ≤ i ∧ i < pos + ((tokenOf t r).length + 1) ∧ i < BUFFER_SIZE) := by omega
        rw [if_neg hc, if_neg b]
        by_cases hb : pos < BUFFER_SIZE
        · rw [if_pos hb]; simp [store, hip]
        · rw [if_neg hb]

theorem read_until_loop_keep (t : Nat) (client : List Int) (pos : Nat) (mem : Mem)
    (h0 : 0 ∉ tokenOf t client) (i : Nat) (hi : mem i ≠ 0) :
    (read_until_loop t client pos mem).2.1 i ≠ 0 := by
  induction client generalizing pos mem with
  | nil => exact hi
  | cons d r ih =>
    by_cases h1 : d < 0
    · simp only [read_until_loop, tokenOf, if_pos h1] at h0 ⊢
      exact ih _ _ h0 hi
    by_cases h2 : toChar d = 13
    · simp only [read_until_loop, tokenOf, if_neg h1, if_pos h2] at h0 ⊢
      exact ih _ _ h0 hi
    by_cases h3 : toChar d = t
    · simp only [read_until_loop, if_neg h1, if_neg h2, if_pos h3]
      exact hi
    simp only [read_until_loop, tokenOf, if_neg h1, if_neg h2, if_neg h3,
      List.mem_cons, not_or] at h0 ⊢
    apply ih _ _ h0.2
    by_cases hb : pos < BUFFER_SIZE
    · rw [if_pos hb]
      by_cases hip : i = pos
      · simp only [store, if_pos hip]; exact fun e => h0.1 e.symm
      · simp only [store, if_neg hip]; exact hi
    · rw [if_neg hb]; exact hi

theorem read_until_loop_nonzero (t : Nat) (client : List Int) (pos : Nat) (mem : Mem)
    (h0 : 0 ∉ tokenOf t client) (i : Nat) (h1 : pos ≤ i)
    (h2 : i < pos + (tokenOf t client).length) (h3 : i < BUFFER_SIZE) :
    (read_until_loop t client pos mem).2.1 i ≠ 0 := by
  induction client generalizing pos mem with
  | nil => simp only [tokenOf, List.length_nil] at h2; omega
  | cons d r ih =>
    by_cases c1 : d < 0
    · simp only [read_until_loop, tokenOf, if_pos c1] at h0 h2 ⊢
      exact ih _ _ h0 h1 h2
    by_cases c2 : toChar d = 13
    · simp only [read_until_loop, tokenOf, if_neg c1, if_pos c2] at h0 h2 ⊢
      exact ih _ _ h0 h1 h2
    by_cases c3 : toChar d = t
    · simp only [tokenOf, if_neg c1, if_neg c2, if_pos c3, List.length_nil] at h2; omega
    simp only [read_until_loop, tokenOf, if_neg c1, if_neg c2, if_neg c3,
      List.mem_cons, not_or, List.length_cons] at h0 h2 ⊢
    have hp : pos < BUFFER_SIZE := by omega
    have hs : pos < SIZE_MOD := by
      have : BUFFER_SIZE < SIZE_MOD := by decide
      omega
    have e : (pos + 1) % SIZE_MOD = pos + 1 := by
      by_cases hq : pos + 1 < SIZE_MOD
      · exact Nat.mod_eq_of_lt hq
      · exfalso
        have : BUFFER_SIZE + 1 < SIZE_MOD := by decide
        omega
    rw [e, if_pos hp]
    by_cases hip : i = pos
    · apply read_until_loop_keep _ _ _ _ h0.2
      simp only [store, if_pos hip]; exact fun e => h0.1 e.symm
    · exact ih _ _ h0.2 (by omega) (by omega)

/-- After `read_until` the unread stream starts behind the terminator. -/
theorem read_until_rest (client : List Int) (mem : Mem) (t : Nat) :
    (read_until client mem t).2.2 = behind t client :=
  read_until_loop_rest _ _ _ _

/-- The memory next to the buffer is not touched by `read_until`. -/
theorem read_until_far (client : List Int) (mem : Mem) (t : Nat) (i : Nat)
    (hi : BUFFER_SIZE ≤ i) : (read_until client mem t).2.1 i = mem i := by
  unfold read_until
  rw [read_until_loop_far _ _ _ _ _ hi]
  simp only [memset, if_neg (Nat.not_lt.mpr hi)]

/-- A token shorter than `2 ^ 16` bytes is counted in full. -/
theorem read_until_pos (client : List Int) (mem : Mem) (t : Nat)
    (h : (tokenOf t client).length < SIZE_MOD) :
    (read_until client mem t).1 = (tokenOf t client).length := by
  unfold read_until
  rw [read_until_loop_pos _ _ _ _ (by omega)]; omega

/-- A token shorter than `2 ^ 16` bytes leaves its first bytes in the buffer, the
rest of the buffer being zero. -/
theorem read_until_mem (client : List Int) (mem : Mem) (t : Nat)
    (h : (tokenOf t client).length < SIZE_MOD) (i : Nat) (hi : i < BUFFER_SIZE) :
    (read_until client mem t).2.1 i = (tokenOf t client).getD i 0 := by
  unfold read_until
  rw [read_until_loop_mem _ _ _ _ (by omega)]
  by_cases hl : i < (tokenOf t client).length
  · rw [if_pos (by omega)]; simp
  · rw [if_neg (by omega)]
    simp only [memset, if_pos hi]
    rw [List.getD_eq_default _ _ (by omega)]

/-- A token without NUL byte fills the buffer cells it reaches with non-zero bytes,
whatever its length. -/
theorem read_until_nonzero (client : List Int) (mem : Mem) (t : Nat)
    (h0 : 0 ∉ tokenOf t client) (i : Nat) (h2 : i < (tokenOf t client).length)
    (h3 : i < BUFFER_SIZE) : (read_until client mem t).2.1 i ≠ 0 := by
  unfold read_until
  exact read_until_loop_nonzero _ _ _ _ h0 i (Nat.zero_le _) (by omega) h3

/-! ## Facts about `strncmp_P` -/

theorem strncmp_P_eq_zero (mem : Mem) (s : List Nat) (h0 : 0 ∉ s) (n i : Nat)
    (hi : i ≤ s.length) (hn : s.length < i + n) :
    strncmp_P mem s n i = 0 ↔ ∀ j, i ≤ j → j ≤ s.length → mem j = s.getD j 0 := by
  induction n generalizing i with
  | zero => omega
  | succ n ih =>
    unfold strncmp_P
    by_cases c1 : mem i ≠ s.getD i 0
    · rw [if_pos c1]
      constructor
      · intro h
        exfalso
        apply c1
        have : (mem i : Int) = (s.getD i 0 : Int) := by omega
        exact_mod_cast this
      · intro h
        exact absurd (h i (Nat.le_refl _) hi) c1
    · rw [if_neg c1]
      have c1 : mem i = s.getD i 0 := not_not.mp c1
      by_cases c2 : mem i = 0
      · rw [if_pos c2]
        have hlen : i = s.length := by
          by_contra hne
          have hlt : i < s.length := by omega
          rw [List.getD_eq_getElem _ _ hlt] at c1
          exact h0 (by rw [← c2, c1]; exact List.getElem_mem hlt)
        constructor
        · intro _ j hj1 hj2
          have : j = i := by omega
          rw [this]; exact c1
        · intro _; rfl
      · rw [if_neg c2]
        have hlt : i < s.length := by
          by_contra hge
          rw [List.getD_eq_default _ _ (by omega)] at c1
          exact c2 c1
        rw [ih (i + 1) hlt (by omega)]
        constructor
        · intro h j hj1 hj2
          by_cases e : j = i
          · rw [e]; exact c1
          · exact h j (by omega) hj2
        · intro h j hj1 hj2
          exact h j (by omega) hj2

theorem eq_of_getD_eq (a b : List Nat) (hb : 0 ∉ b) (hab : a.length ≤ b.length)
    (h : ∀ j, j ≤ b.length → a.getD j 0 = b.getD j 0) : a = b := by
  have hl : a.length = b.length := by
    by_contra hne
    have hlt : a.length < b.length := by omega
    have e := h a.length (by omega)
    rw [List.getD_eq_default _ _ (Nat.le_refl _), List.getD_eq_getElem _ _ hlt] at e
    exact hb (by rw [e]; exact List.getElem_mem hlt)
  apply List.ext_getElem hl
  intro j h1 h2
  have e := h j (by omega)
  rw [List.getD_eq_getElem _ _ h1, List.getD_eq_getElem _ _ h2] at e
  exact e

/-- The comparison of the buffer with a table entry succeeds exactly when the token
just read, if it holds no NUL byte, is the entry. -/
theorem buffer_matches (client : List Int) (mem : Mem) (t : Nat) (e : List Nat)
    (he0 : 0 ∉ e) (hel : e.length < BUFFER_SIZE) (h0 : 0 ∉ tokenOf t client) :
    strncmp_P (read_until client mem t).2.1 e BUFFER_SIZE 0 = 0 ↔ tokenOf t client = e := by
  rw [strncmp_P_eq_zero _ _ he0 _ _ (Nat.zero_le _) (by omega)]
  have hbs : BUFFER_SIZE < SIZE_MOD := by decide
  constructor
  · intro h
    have hz : (read_until client mem t).2.1 e.length = 0 := by
      rw [h e.length (Nat.zero_le _) (Nat.le_refl _)]
      exact List.getD_eq_default _ _ (Nat.le_refl _)
    have hle : (tokenOf t client).length ≤ e.length := by
      by_contra hgt
      exact read_until_nonzero client mem t h0 e.length (by omega) hel hz
    apply eq_of_getD_eq _ _ he0 hle
    intro j hj
    rw [← read_until_mem client mem t (by omega) j (by omega)]
    exact h j (Nat.zero_le _) hj
  · intro h j _ hj
    rw [read_until_mem client mem t (by rw [h]; omega) j (by omega), h]

/-! ## Route selection -/

theorem verb_matches (client : List Int) (mem : Mem) (h0 : 0 ∉ tokenOf 32 client) :
    strncmp_P (read_until client mem 32).2.1 (cbytes "GET") BUFFER_SIZE 0 = 0 ↔
      tokenOf 32 client = cbytes "GET" :=
  buffer_matches client mem 32 _ (by decide) (by decide) h0

theorem uri_matches (client : List Int) (mem : Mem) (e : List Nat) (he0 : 0 ∉ e)
    (hel : e.length < BUFFER_SIZE) (h0 : 0 ∉ tokenOf 32 (behind 32 client)) :
    strncmp_P (read_until (read_until client mem 32).2.2 (read_until client mem 32).2.1 32).2.1
      e BUFFER_SIZE 0 = 0 ↔ tokenOf 32 (behind 32 client) = e := by
  rw [read_until_rest]
  exact buffer_matches _ _ 32 e he0 hel h0

theorem primary_parse_request_get (client : List Int) (mem : Mem)
    (hget : tokenOf 32 client = cbytes "GET")
    (hnul : 0 ∉ tokenOf 32 (behind 32 client)) :
    ((Primary.parse_request client mem).1, (Primary.parse_request client mem).2.1) =
      (if tokenOf 32 (behind 32 client) = cbytes "/temperature.json"
        then (Primary.Reply.reply_json, 200)
       else if tokenOf 32 (behind 32 client) = cbytes "/" then (Primary.Reply.reply_index, 200)
       else (Primary.Reply.reply_error, 404)) := by
  have hv := (verb_matches client mem (by rw [hget]; decide)).mpr hget
  have h1 := uri_matches client mem (cbytes "/temperature.json") (by decide) (by decide) hnul
  have h2 := uri_matches client mem (cbytes "/") (by decide) (by decide) hnul
  simp only [Primary.parse_request, if_neg (not_not.mpr hv)]
  by_cases c1 : tokenOf 32 (behind 32 client) = cbytes "/temperature.json"
  · rw [if_pos (h1.mpr c1), if_pos c1]
  · have n1 := fun h => c1 (h1.mp h)
    rw [if_neg n1, if_neg c1]
    by_cases c2 : tokenOf 32 (behind 32 client) = cbytes "/"
    · rw [if_pos (h2.mpr c2), if_pos c2]
    · have n2 := fun h => c2 (h2.mp h)
      rw [if_neg n2, if_neg c2]

theorem pir_parse_request_get (client : List Int) (mem : Mem)
    (hget : tokenOf 32 client = cbytes "GET")
    (hnul : 0 ∉ tokenOf 32 (behind 32 client)) :
    ((Pir.parse_request client mem).1, (Pir.parse_request client mem).2.1) =
      (if tokenOf 32 (behind 32 client) = cbytes "/measurements.json"
        then (Pir.Reply.reply_json, 200)
       else if tokenOf 32 (behind 32 client) = cbytes "/metrics"
        then (Pir.Reply.reply_prometheus, 200)
       else if tokenOf 32 (behind 32 client) = cbytes "/" then (Pir.Reply.reply_index, 200)
       else (Pir.Reply.reply_error, 404)) := by
  have hv := (verb_matches client mem (by rw [hget]; decide)).mpr hget
  have h1 := uri_matches client mem (cbytes "/measurements.json") (by decide) (by decide) hnul
  have h2 := uri_matches client mem (cbytes "/metrics") (by decide) (by decide) hnul
  have h3 := uri_matches client mem (cbytes "/") (by decide) (by decide) hnul
  simp only [Pir.parse_request, if_neg (not_not.mpr hv)]
  by_cases c1 : tokenOf 32 (behind 32 client) = cbytes "/measurements.json"
  · rw [if_pos (h1.mpr c1), if_pos c1]
  · have n1 := fun h => c1 (h1.mp h)
    rw [if_neg n1, if_neg c1]
    by_cases c2 : tokenOf 32 (behind 32 client) = cbytes "/metrics"
    · rw [if_pos (h2.mpr c2), if_pos c2]
    · have n2 := fun h => c2 (h2.mp h)
      rw [if_neg n2, if_neg c2]
      by_cases c3 : tokenOf 32 (behind 32 client) = cbytes "/"
      · rw [if_pos (h3.mpr c3), if_pos c3]
      · have n3 := fun h => c3 (h3.mp h)
        rw [if_neg n3, if_neg c3]

theorem primary_respond_of_pair {D : Type} (cfg : Config D) (now last : Nat) (read : Nat → D)
    (client : List Int) (mem : Mem) (r : Primary.Reply) (c : Nat)
    (h : ((Primary.parse_request client mem).1, (Primary.parse_request client mem).2.1) = (r, c)) :
    (Primary.handle_http cfg now last read (some client) mem).events =
      Primary.respond cfg now last read r c ++ close := by
  have h1 : (Primary.parse_request client mem).1 = r := congrArg Prod.fst h
  have h2 : (Primary.parse_request client mem).2.1 = c := congrArg Prod.snd h
  simp only [Primary.handle_http, h1, h2]

theorem pir_respond_of_pair {D : Type} (cfg : Config D) (pir_status : Bool) (read : Nat → D)
    (client : List Int) (mem : Mem) (r : Pir.Reply) (c : Nat)
    (h : ((Pir.parse_request client mem).1, (Pir.parse_request client mem).2.1) = (r, c)) :
    (Pir.handle_http cfg pir_status read (some client) mem).events =
      Pir.respond cfg pir_status read r c ++ close := by
  have h1 : (Pir.parse_request client mem).1 = r := congrArg Prod.fst h
  have h2 : (Pir.parse_request client mem).2.1 = c := congrArg Prod.snd h
  simp only [Pir.handle_http, h1, h2]

/-! ## C1: route selection by exact match -/

/-- C1, as amended: for a request whose method token is `GET` and whose path token
holds no NUL byte, both variants select the route by equality of the whole path token
with an entry of their route table, and every other path token gives code 404 and the
response that consists of headers only. -/
theorem handle_http_route_exact {D : Type} (cfg : Config D) (now last : Nat)
    (pir_status : Bool) (read : Nat → D) (client : List Int) (mem : Mem)
    (hget : tokenOf 32 client = cbytes "GET")
    (hnul : 0 ∉ tokenOf 32 (behind 32 client)) :
    (((Primary.parse_request client mem).1, (Primary.parse_request client mem).2.1) =
        (if tokenOf 32 (behind 32 client) = cbytes "/temperature.json"
          then (Primary.Reply.reply_json, 200)
         else if tokenOf 32 (behind 32 client) = cbytes "/"
          then (Primary.Reply.reply_index, 200)
         else (Primary.Reply.reply_error, 404))) ∧
    ((Primary.handle_http cfg now last read (some client) mem).events =
        (if tokenOf 32 (behind 32 client) = cbytes "/temperature.json"
          then Primary.serve_measurements_json cfg now last read
         else if tokenOf 32 (behind 32 client) = cbytes "/"
          then serve_html cfg Primary.SERVER_NAME
         else send_headers Primary.SERVER_NAME 404 none) ++ close) ∧
    (((Pir.parse_request client mem).1, (Pir.parse_request client mem).2.1) =
        (if tokenOf 32 (behind 32 client) = cbytes "/measurements.json"
          then (Pir.Reply.reply_json, 200)
         else if tokenOf 32 (behind 32 client) = cbytes "/metrics"
          then (Pir.Reply.reply_prometheus, 200)
         else if tokenOf 32 (behind 32 client) = cbytes "/"
          then (Pir.Reply.reply_index, 200)
         else (Pir.Reply.reply_error, 404))) ∧
    ((Pir.handle_http cfg pir_status read (some client) mem).events =
        (if tokenOf 32 (behind 32 client) = cbytes "/measurements.json"
          then Pir.serve_measurements_json cfg pir_status read
         else if tokenOf 32 (behind 32 client) = cbytes "/metrics"
          then Pir.serve_measurements_prometheus cfg pir_status read
         else if tokenOf 32 (behind 32 client) = cbytes "/"
          then serve_html cfg Pir.SERVER_NAME
         else send_headers Pir.SERVER_NAME 404 none) ++ close) := by
  have hp := primary_parse_request_get client mem hget hnul
  have hq := pir_parse_request_get client mem hget hnul
  refine ⟨hp, ?_, hq, ?_⟩
  · by_cases c1 : tokenOf 32 (behind 32 client) = cbytes "/temperature.json"
    · rw [if_pos c1] at hp ⊢
      exact primary_respond_of_pair cfg now last read client mem _ _ hp
    rw [if_neg c1] at hp ⊢
    by_cases c2 : tokenOf 32 (behind 32 client) = cbytes "/"
    · rw [if_pos c2] at hp ⊢
      exact primary_respond_of_pair cfg now last read client mem _ _ hp
    rw [if_neg c2] at hp ⊢
    exact primary_respond_of_pair cfg now last read client mem _ _ hp
  · by_cases c1 : tokenOf 32 (behind 32 client) = cbytes "/measurements.json"
    · rw [if_pos c1] at hq ⊢
      exact pir_respond_of_pair cfg pir_status read client mem _ _ hq
    rw [if_neg c1] at hq ⊢
    by_cases c2 : tokenOf 32 (behind 32 client) = cbytes "/metrics"
    · rw [if_pos c2] at hq ⊢
      exact pir_respond_of_pair cfg pir_status read client mem _ _ hq
    rw [if_neg c2] at hq ⊢
    by_cases c3 : tokenOf 32 (behind 32 client) = cbytes "/"
    · rw [if_pos c3] at hq ⊢
      exact pir_respond_of_pair cfg pir_status read client mem _ _ hq
    rw [if_neg c3] at hq ⊢
    exact pir_respond_of_pair cfg pir_status read client mem _ _ hq

/-- C1, witness: `GET /temperature.json.bak`, an extension of a table entry, is
answered with 404 by the primary variant. -/
theorem handle_http_route_exact_witness :
    tokenOf 32 (request "GET /temperature.json.bak HTTP/1.1\r\n\r\n") = cbytes "GET" ∧
    0 ∉ tokenOf 32 (behind 32 (request "GET /temperature.json.bak HTTP/1.1\r\n\r\n")) ∧
    ((Primary.parse_request (request "GET /temperature.json.bak HTTP/1.1\r\n\r\n") dirty).1,
      (Primary.parse_request (request "GET /temperature.json.bak HTTP/1.1\r\n\r\n") dirty).2.1) =
      (Primary.Reply.reply_error, 404) :=
  ⟨by decide, by decide,
    (handle_http_route_exact (sampleConfig []) 0 0 false (sampleRead [])
      (request "GET /temperature.json.bak HTTP/1.1\r\n\r\n") dirty
      (by decide) (by decide)).1.trans (by decide)⟩

/-- C1, counterexample: the path token `/`, NUL, `x` is not an entry of the route
table, yet the primary variant serves it as the index route with code 200, because
the comparison of C strings ends at the NUL byte. -/
theorem handle_http_route_nul_counterexample :
    tokenOf 32 (request "GET /\x00x HTTP/1.1\r\n\r\n") = cbytes "GET" ∧
    tokenOf 32 (behind 32 (request "GET /\x00x HTTP/1.1\r\n\r\n")) = [47, 0, 120] ∧
    [47, 0, 120] ≠ cbytes "/" ∧ [47, 0, 120] ≠ cbytes "/temperature.json" ∧
    (Primary.parse_request (request "GET /\x00x HTTP/1.1\r\n\r\n") dirty).1 =
      Primary.Reply.reply_index ∧
    (Primary.parse_request (request "GET /\x00x HTTP/1.1\r\n\r\n") dirty).2.1 = 200 ∧
    (Pir.parse_request (request "GET /\x00x HTTP/1.1\r\n\r\n") dirty).1 =
      Pir.Reply.reply_index := by
  decide

/-! ## C2: a method other than `GET` -/

theorem verb_mismatch (client : List Int) (mem : Mem) (hnul : 0 ∉ tokenOf 32 client)
    (hne : tokenOf 32 client ≠ cbytes "GET") :
    strncmp_P (read_until client mem 32).2.1 (cbytes "GET") BUFFER_SIZE 0 ≠ 0 :=
  fun h => hne ((verb_matches client mem hnul).mp h)

/-- C2, as amended: for a request whose method token holds no NUL byte and is not
`GET`, whatever follows it, both variants set the code to 400 without reading a path
token (the state at `consume:` is the one left by reading the method), run the
header-consumption loop once from there, and emit one response made of the status
line `HTTP/1.1 400 Error`, the `Server` header and the blank line only. -/
theorem handle_http_bad_method {D : Type} (cfg : Config D) (now last : Nat)
    (pir_status : Bool) (read : Nat → D) (client : List Int) (mem : Mem)
    (hnul : 0 ∉ tokenOf 32 client) (hne : tokenOf 32 client ≠ cbytes "GET") :
    (Primary.parse_request client mem =
        (Primary.Reply.reply_error, 400, (read_until client mem 32).2.1, behind 32 client) ∧
      (Primary.handle_http cfg now last read (some client) mem).ret = true ∧
      (Primary.handle_http cfg now last read (some client) mem).events =
        send_headers Primary.SERVER_NAME 400 none ++ close ∧
      (Primary.handle_http cfg now last read (some client) mem).client =
        (consume (behind 32 client) (read_until client mem 32).2.1).2 ∧
      sent (Primary.handle_http cfg now last read (some client) mem).events =
        [Data.flash (cbytes "HTTP/1.1 "), Data.uint 400, Data.flash (cbytes " Error"),
          Data.flash (cbytes "\r\nServer: celsius\r\n"), Data.flash (cbytes "\r\n")] ∧
      written cfg (Primary.handle_http cfg now last read (some client) mem).events =
        some (cbytes "HTTP/1.1 400 Error\r\nServer: celsius\r\n\r\n")) ∧
    (Pir.parse_request client mem =
        (Pir.Reply.reply_error, 400, (read_until client mem 32).2.1, behind 32 client) ∧
      (Pir.handle_http cfg pir_status read (some client) mem).ret = true ∧
      (Pir.handle_http cfg pir_status read (some client) mem).events =
        send_headers Pir.SERVER_NAME 400 none ++ close ∧
      (Pir.handle_http cfg pir_status read (some client) mem).client =
        (consume (behind 32 client) (read_until client mem 32).2.1).2 ∧
      sent (Pir.handle_http cfg pir_status read (some client) mem).events =
        [Data.flash (cbytes "HTTP/1.1 "), Data.uint 400, Data.flash (cbytes " Error"),
          Data.flash (cbytes "\r\nServer: Celsius\r\n"), Data.flash (cbytes "\r\n")] ∧
      written cfg (Pir.handle_http cfg pir_status read (some client) mem).events =
        some (cbytes "HTTP/1.1 400 Error\r\nServer: Celsius\r\n\r\n")) := by
  have hv := verb_mismatch client mem hnul hne
  have hp : Primary.parse_request client mem =
      (Primary.Reply.reply_error, 400, (read_until client mem 32).2.1, behind 32 client) := by
    simp only [Primary.parse_request, if_pos hv, read_until_rest]
  have hq : Pir.parse_request client mem =
      (Pir.Reply.reply_error, 400, (read_until client mem 32).2.1, behind 32 client) := by
    simp only [Pir.parse_request, if_pos hv, read_until_rest]
  have ep : (Primary.handle_http cfg now last read (some client) mem).events =
      send_headers Primary.SERVER_NAME 400 none ++ close := by
    simp only [Primary.handle_http, hp, Primary.respond]
  have eq : (Pir.handle_http cfg pir_status read (some client) mem).events =
      send_headers Pir.SERVER_NAME 400 none ++ close := by
    simp only [Pir.handle_http, hq, Pir.respond]
  refine ⟨⟨hp, rfl, ep, ?_, ?_, ?_⟩, ⟨hq, rfl, eq, ?_, ?_, ?_⟩⟩
  · simp only [Primary.handle_http, hp]
  · rw [ep]; rfl
  · rw [ep]; rfl
  · simp only [Pir.handle_http, hq]
  · rw [eq]; rfl
  · rw [eq]; rfl

/-- C2, witness: `POST /temperature.json` is answered with the bare 400 response. -/
theorem handle_http_bad_method_witness :
    0 ∉ tokenOf 32 (request "POST /temperature.json HTTP/1.1\r\n\r\n") ∧
    tokenOf 32 (request "POST /temperature.json HTTP/1.1\r\n\r\n") ≠ cbytes "GET" ∧
    written (sampleConfig [])
      (Primary.handle_http (sampleConfig []) 0 0 (sampleRead [])
        (some (request "POST /temperature.json HTTP/1.1\r\n\r\n")) dirty).events =
      some (cbytes "HTTP/1.1 400 Error\r\nServer: celsius\r\n\r\n") :=
  ⟨by decide, by decide,
    (handle_http_bad_method (sampleConfig []) 0 0 false (sampleRead [])
      (request "POST /temperature.json HTTP/1.1\r\n\r\n") dirty
      (by decide) (by decide)).1.2.2.2.2.2⟩

/-- C2, counterexample: the method token `GET`, NUL, `x` is not literally `GET`, yet
both variants accept it, read the path and answer `/` with code 200 and the index
page instead of the bare 400 response. -/
theorem handle_http_bad_method_nul_counterexample :
    tokenOf 32 (request "GET\x00x / HTTP/1.1\r\n\r\n") = [71, 69, 84, 0, 120] ∧
    [71, 69, 84, 0, 120] ≠ cbytes "GET" ∧
    (Primary.parse_request (request "GET\x00x / HTTP/1.1\r\n\r\n") dirty).1 =
      Primary.Reply.reply_index ∧
    (Primary.parse_request (request "GET\x00x / HTTP/1.1\r\n\r\n") dirty).2.1 = 200 ∧
    written (sampleConfig [])
      (Primary.handle_http (sampleConfig []) 0 0 (sampleRead [])
        (some (request "GET\x00x / HTTP/1.1\r\n\r\n")) dirty).events ≠
      some (cbytes "HTTP/1.1 400 Error\r\nServer: celsius\r\n\r\n") ∧
    (Pir.parse_request (request "GET\x00x / HTTP/1.1\r\n\r\n") dirty).1 =
      Pir.Reply.reply_index ∧
    (Pir.parse_request (request "GET\x00x / HTTP/1.1\r\n\r\n") dirty).2.1 = 200 := by
  decide

/-! ## C3: the response headers -/

theorem cbytes_append (a b : String) : cbytes (a ++ b) = cbytes a ++ cbytes b := by
  simp [cbytes, String.toList, String.data_append]

theorem sent_append {D : Type} (a b : List (Event D)) : sent (a ++ b) = sent a ++ sent b := by
  induction a with
  | nil => rfl
  | cons e es ih => cases e <;> simp [sent, ih]

theorem textOf_append {D : Type} (pd : D → List Nat) (a b : List (Data D)) (x y : List Nat)
    (ha : textOf pd a = some x) (hb : textOf pd b = some y) :
    textOf pd (a ++ b) = some (x ++ y) := by
  induction a generalizing x with
  | nil =>
    simp only [textOf, Option.some.injEq] at ha
    subst ha; simpa using hb
  | cons d ds ih =>
    simp only [textOf, List.cons_append] at ha ⊢
    cases hd : d.text pd with
    | none => simp [hd] at ha
    | some u =>
      cases hds : textOf pd ds with
      | none => simp [hd, hds] at ha
      | some v =>
        simp only [hd, hds, Option.some.injEq] at ha
        have e := ih v hds
        simp only [List.append_eq, hd, e, ← ha, List.append_assoc]

theorem sent_send_headers {D : Type} (server_name : String) (code : Nat)
    (content_type : Option (List Nat)) :
    sent (send_headers server_name code content_type : List (Event D)) =
      [Data.flash (cbytes "HTTP/1.1 "), Data.uint code,
        Data.flash (if code < 300 then cbytes " OK" else cbytes " Error"),
        Data.flash (cbytes ("\r\nServer: " ++ server_name ++ "\r\n"))] ++
      (match content_type with
       | some ct => [Data.flash (cbytes "Content-Type: "), Data.flash ct,
           Data.flash (cbytes "; charset=utf-8\r\n")]
       | none => []) ++
      [Data.flash (cbytes "\r\n")] := by
  cases content_type <;> by_cases h : code < 300 <;>
    simp [send_headers, send_F, send_data, sent, h]

theorem textOf_send_headers {D : Type} (pd : D → List Nat) (server_name : String) (code : Nat)
    (content_type : Option (List Nat)) :
    textOf pd (sent (send_headers server_name code content_type : List (Event D))) =
      some (headerText server_name code content_type) := by
  rw [sent_send_headers]
  have e : cbytes "\r\nServer: " = cbytes "\r\n" ++ cbytes "Server: " := by decide
  cases content_type <;> by_cases h : code < 300 <;>
    simp [textOf, Data.text, headerText, h, cbytes_append, e]

/-- C3: for every status code and every optional content type `send_headers` writes
the status line `HTTP/1.1 <code> OK` (code below 300) or `HTTP/1.1 <code> Error`, the
`Server` header, the `Content-Type` header with `; charset=utf-8` exactly when a
content type is given, and the blank line; the index, JSON and Prometheus responses
pass a content type and go on with a body, the error response passes none and has no
body. -/
theorem send_headers_written {D : Type} (cfg : Config D) (server_name : String) (code : Nat)
    (content_type : Option (List Nat)) (now last : Nat) (pir_status : Bool) (read : Nat → D) :
    written cfg (send_headers server_name code content_type) =
      some (cbytes "HTTP/1.1 " ++ cbytes (toString code) ++
        (if code < 300 then cbytes " OK" else cbytes " Error") ++ cbytes "\r\n" ++
        (cbytes "Server: " ++ cbytes server_name ++ cbytes "\r\n") ++
        (match content_type with
         | some ct => cbytes "Content-Type: " ++ ct ++ cbytes "; charset=utf-8\r\n"
         | none => []) ++
        cbytes "\r\n") ∧
    (Primary.respond cfg now last read Primary.Reply.reply_index code =
      send_headers Primary.SERVER_NAME 200 (some (cbytes "text/html")) ++
        send_data cfg.INDEX_HTML) ∧
    (∃ body, body ≠ [] ∧ Primary.respond cfg now last read Primary.Reply.reply_json code =
      send_headers Primary.SERVER_NAME 200 (some (cbytes "application/json")) ++ body) ∧
    (Primary.respond cfg now last read Primary.Reply.reply_error code =
      send_headers Primary.SERVER_NAME code none) ∧
    (Pir.respond cfg pir_status read Pir.Reply.reply_index code =
      send_headers Pir.SERVER_NAME 200 (some (cbytes "text/html")) ++
        send_data cfg.INDEX_HTML) ∧
    (∃ body, body ≠ [] ∧ Pir.respond cfg pir_status read Pir.Reply.reply_json code =
      send_headers Pir.SERVER_NAME 200 (some (cbytes "application/json")) ++ body) ∧
    (∃ body, body ≠ [] ∧ Pir.respond cfg pir_status read Pir.Reply.reply_prometheus code =
      send_headers Pir.SERVER_NAME 200 (some (cbytes "text/plain")) ++ body) ∧
    (Pir.respond cfg pir_status read Pir.Reply.reply_error code =
      send_headers Pir.SERVER_NAME code none) := by
  have hne : ∀ (a : List (Event D)) (d : Data D), a ++ send_data d ≠ [] := fun a d =>
    List.append_ne_nil_of_right_ne_nil _ (List.cons_ne_nil _ _)
  refine ⟨textOf_send_headers _ _ _ _, rfl, ?_, rfl, rfl, ?_, ?_, rfl⟩
  · refine ⟨send_F "\x7b" ++
      (if sub32 now last < cfg.DS18B20_CONVERSION_DELAY_MS
       then [Event.delay (cfg.DS18B20_CONVERSION_DELAY_MS - sub32 now last)] else []) ++
      (List.range cfg.sensor_count).flatMap (Primary.json_entry cfg read) ++ send_F "\x7d",
      hne _ _, ?_⟩
    simp only [Primary.respond, Primary.serve_measurements_json, List.append_assoc]
  · refine ⟨send_data (Data.flash (cbytes "\x7b\"presence\":")) ++
      send_data (Data.bool pir_status) ++
      send_data (Data.flash (cbytes ",\"temperature\":\x7b")) ++
      (List.range cfg.sensor_count).map Event.request_temperature ++
      [Event.delay cfg.DS18B20_CONVERSION_DELAY_MS] ++
      (List.range cfg.sensor_count).flatMap
        (Pir.entry cfg read (cbytes "\"") (cbytes "\":") (cbytes ",")) ++
      send_data (Data.flash (cbytes "\x7d\x7d")), hne _ _, ?_⟩
    simp only [Pir.respond, Pir.serve_measurements_json, Pir.serve_measurements,
      List.append_assoc]
  · refine ⟨send_data (Data.flash (cbytes
        "# HELP presence PIR presence sensor activated\n# TYPE presence gauge\npresence ")) ++
      send_data (Data.bool pir_status) ++
      send_data (Data.flash (cbytes
        "\n# HELP temperature Temperature in degrees Celsius\n# TYPE temperature gauge\n")) ++
      (List.range cfg.sensor_count).map Event.request_temperature ++
      [Event.delay cfg.DS18B20_CONVERSION_DELAY_MS] ++
      (List.range cfg.sensor_count).flatMap
        (Pir.entry cfg read (cbytes "temperature\x7bsensor=\"") (cbytes "\"\x7d ")
          (cbytes "\n")) ++
      send_data (Data.flash (cbytes "\n")), hne _ _, ?_⟩
    simp only [Pir.respond, Pir.serve_measurements_prometheus, Pir.serve_measurements,
      List.append_assoc]

/-! ## Rendering loops and separators -/

theorem intercalate_cons_cons {α : Type} (sep x y : List α) (ys : List (List α)) :
    List.intercalate sep (x :: y :: ys) = x ++ sep ++ List.intercalate sep (y :: ys) := by
  simp [List.intercalate, List.intersperse]

theorem intercalate_single {α : Type} (sep x : List α) : List.intercalate sep [x] = x := by
  simp [List.intercalate, List.intersperse]

theorem intercalate_snoc {α : Type} (sep : List α) (xs : List (List α)) (x : List α)
    (hx : xs ≠ []) :
    List.intercalate sep (xs ++ [x]) = List.intercalate sep xs ++ sep ++ x := by
  induction xs with
  | nil => exact absurd rfl hx
  | cons a as ih =>
    cases as with
    | nil => simp [List.intercalate, List.intersperse]
    | cons b bs =>
      have ih := ih (List.cons_ne_nil _ _)
      rw [List.cons_append, List.cons_append, intercalate_cons_cons, ← List.cons_append, ih,
        intercalate_cons_cons]
      simp only [List.append_assoc]

/-- A loop that emits `sep` at the start of every round but the first emits the
rounds intercalated with `sep`. -/
theorem flatMap_range_sep {α : Type} (sep : List α) (f : Nat → List α) (n : Nat) :
    (List.range n).flatMap (fun i => (if i > 0 then sep else []) ++ f i) =
      List.intercalate sep ((List.range n).map f) := by
  induction n with
  | zero => simp [List.intercalate, List.intersperse]
  | succ n ih =>
    rw [List.range_succ, List.flatMap_append, ih, List.map_append, List.map_singleton,
      List.flatMap_singleton]
    cases n with
    | zero => simp [List.intercalate, List.intersperse]
    | succ m =>
      have h1 : List.map f (List.range (m + 1)) ≠ [] := by simp
      rw [intercalate_snoc _ _ _ h1, if_pos (Nat.succ_pos m), List.append_assoc]

theorem sent_flatMap {D α : Type} (l : List α) (f : α → List (Event D)) :
    sent (l.flatMap f) = l.flatMap (fun a => sent (f a)) := by
  induction l with
  | nil => rfl
  | cons a as ih => simp only [List.flatMap_cons, sent_append, ih]

theorem length_intercalate_range {α : Type} (sep : List α) (f : Nat → List α) (n k : Nat)
    (hk : ∀ i, (f i).length = k) :
    (List.intercalate sep ((List.range n).map f)).length = k * n + sep.length * (n - 1) := by
  induction n with
  | zero => simp [List.intercalate, List.intersperse]
  | succ n ih =>
    rw [List.range_succ, List.map_append, List.map_singleton]
    cases n with
    | zero => simp [intercalate_single, hk]
    | succ m =>
      have h1 : List.map f (List.range (m + 1)) ≠ [] := by simp
      rw [intercalate_snoc _ _ _ h1, List.length_append, List.length_append, ih, hk]
      simp only [Nat.add_sub_cancel]
      ring

theorem textOf_intercalate_range {D : Type} (pd : D → List Nat) (sepD : List (Data D))
    (sepT : List Nat) (hs : textOf pd sepD = some sepT) (fD : Nat → List (Data D))
    (fT : Nat → List Nat) (n : Nat) (h : ∀ i, i < n → textOf pd (fD i) = some (fT i)) :
    textOf pd (List.intercalate sepD ((List.range n).map fD)) =
      some (List.intercalate sepT ((List.range n).map fT)) := by
  induction n with
  | zero => simp [List.intercalate, List.intersperse, textOf]
  | succ n ih =>
    have ih := ih (fun i hi => h i (Nat.lt_succ_of_lt hi))
    rw [List.range_succ, List.map_append, List.map_append, List.map_singleton,
      List.map_singleton]
    cases n with
    | zero => simpa [intercalate_single] using h 0 (Nat.succ_pos 0)
    | succ m =>
      have h1 : List.map fD (List.range (m + 1)) ≠ [] := by simp
      have h2 : List.map fT (List.range (m + 1)) ≠ [] := by simp
      rw [intercalate_snoc _ _ _ h1, intercalate_snoc _ _ _ h2]
      exact textOf_append pd _ _ _ _ (textOf_append pd _ _ _ _ ih hs)
        (h (m + 1) (Nat.lt_succ_self _))

theorem primary_sent_json_entry {D : Type} (cfg : Config D) (read : Nat → D) (i : Nat) :
    sent (Primary.json_entry cfg read i) =
      (if i > 0 then [Data.flash (cbytes ",")] else []) ++ Primary.entryData cfg read i := by
  by_cases h : i > 0 <;> by_cases c : cfg.isnan (read i) = true <;>
    simp [Primary.json_entry, Primary.entryData, send_F, send_data, sent, h, c]

theorem primary_sent_json_flat {D : Type} (cfg : Config D) (now last : Nat) (read : Nat → D) :
    sent (Primary.serve_measurements_json cfg now last read) =
      sent (send_headers Primary.SERVER_NAME 200 (some (cbytes "application/json")) :
        List (Event D)) ++
      [Data.flash (cbytes "\x7b")] ++
      (List.range cfg.sensor_count).flatMap
        (fun i => (if i > 0 then [Data.flash (cbytes ",")] else []) ++
          Primary.entryData cfg read i) ++
      [Data.flash (cbytes "\x7d")] := by
  have hd : sent (if sub32 now last < cfg.DS18B20_CONVERSION_DELAY_MS
      then [Event.delay (cfg.DS18B20_CONVERSION_DELAY_MS - sub32 now last)]
      else ([] : List (Event D))) = [] := by
    split_ifs <;> rfl
  simp only [Primary.serve_measurements_json, sent_append, hd, sent_flatMap,
    primary_sent_json_entry, List.append_nil]
  rfl

theorem primary_sent_json {D : Type} (cfg : Config D) (now last : Nat) (read : Nat → D) :
    sent (Primary.serve_measurements_json cfg now last read) =
      sent (send_headers Primary.SERVER_NAME 200 (some (cbytes "application/json")) :
        List (Event D)) ++
      [Data.flash (cbytes "\x7b")] ++
      List.intercalate [Data.flash (cbytes ",")]
        ((List.range cfg.sensor_count).map (Primary.entryData cfg read)) ++
      [Data.flash (cbytes "\x7d")] := by
  rw [primary_sent_json_flat, flatMap_range_sep]

theorem primary_entry_text {D : Type} (cfg : Config D) (read : Nat → D) (i : Nat) :
    textOf cfg.print_double (Primary.entryData cfg read i) =
      some (Primary.entryText cfg read i) := by
  have e : (0 ∈ cbytes "\":" ++ [0]) := by decide
  have t : List.takeWhile (fun c => !decide (c = 0)) (cbytes "\":" ++ [0]) = cbytes "\":" := by
    decide
  by_cases c : cfg.isnan (read i) = true <;>
    simp [Primary.entryData, Primary.entryText, textOf, Data.text, c, e, t]

/-! ## C4: the JSON body of the primary variant -/

/-- C4: in the primary variant, for every number of sensors, all display names and all
readings, what `serve_measurements_json` writes after the headers is an opening
brace, the entries `"name":value` in bank order joined by commas, and a closing
brace, where the value is the printed reading when it is a number and the token
`null` when it is NaN; a NaN reading is never handed to the printer. -/
theorem primary_json_body {D : Type} (cfg : Config D) (now last : Nat) (read : Nat → D) :
    written cfg (Primary.serve_measurements_json cfg now last read) =
      some (headerText Primary.SERVER_NAME 200 (some (cbytes "application/json")) ++
        (cbytes "\x7b" ++
          List.intercalate (cbytes ",")
            ((List.range cfg.sensor_count).map (fun i =>
              cbytes "\"" ++ cfg.sensor_names i ++ cbytes "\":" ++
                (if cfg.isnan (read i) then cbytes "null" else cfg.print_double (read i)))) ++
          cbytes "\x7d")) ∧
    ∀ t, cfg.isnan t = true →
      Data.double t ∉ sent (Primary.serve_measurements_json cfg now last read) := by
  constructor
  · unfold written
    rw [primary_sent_json]
    have h1 := textOf_send_headers cfg.print_double Primary.SERVER_NAME 200
      (some (cbytes "application/json"))
    have h2 : textOf cfg.print_double [Data.flash (cbytes "\x7b")] = some (cbytes "\x7b") := rfl
    have h3 := textOf_intercalate_range cfg.print_double [Data.flash (cbytes ",")] (cbytes ",")
      rfl (Primary.entryData cfg read) (Primary.entryText cfg read) cfg.sensor_count
      (fun i _ => primary_entry_text cfg read i)
    have h4 : textOf cfg.print_double [Data.flash (cbytes "\x7d")] = some (cbytes "\x7d") := rfl
    have h := textOf_append _ _ _ _ _ (textOf_append _ _ _ _ _ (textOf_append _ _ _ _ _ h1 h2) h3) h4
    have e : Primary.entryText cfg read = fun i =>
        cbytes "\"" ++ cfg.sensor_names i ++ cbytes "\":" ++
          (if cfg.isnan (read i) then cbytes "null" else cfg.print_double (read i)) := rfl
    rw [e] at h
    rw [h]
    simp only [List.append_assoc]
  · intro t ht hmem
    rw [primary_sent_json_flat, sent_send_headers] at hmem
    simp only [List.mem_append, List.mem_flatMap, List.mem_range] at hmem
    rcases hmem with ((h | h) | ⟨i, _, h | h⟩) | h
    · simp at h
    · simp at h
    · split_ifs at h <;> simp at h
    · simp only [Primary.entryData, List.mem_cons, List.not_mem_nil, or_false] at h
      rcases h with h | h | h | h
      · simp at h
      · simp at h
      · simp at h
      · split_ifs at h with c
        simp only [Data.double.injEq] at h
        exact c (h ▸ ht)
    · simp at h

/-! ## The measurement bodies of the PIR variant -/

theorem pir_sent_entry {D : Type} (cfg : Config D) (read : Nat → D)
    (name_start name_end sep : List Nat) (i : Nat) :
    sent (Pir.entry cfg read name_start name_end sep i) =
      (if i > 0 then [Data.flash sep] else []) ++
        Pir.entryData cfg read name_start name_end i := by
  by_cases h : i > 0 <;> simp [Pir.entry, Pir.entryData, send_data, sent, h]

theorem sent_request_temperature {D : Type} (l : List Nat) :
    sent (l.map Event.request_temperature : List (Event D)) = [] := by
  induction l with
  | nil => rfl
  | cons a as ih => simpa [sent] using ih

theorem pir_sent_measurements_flat {D : Type} (cfg : Config D) (pir_status : Bool)
    (read : Nat → D) (ct ph th name_start name_end sep footer : List Nat) :
    sent (Pir.serve_measurements cfg pir_status read ct ph th name_start name_end sep footer) =
      sent (send_headers Pir.SERVER_NAME 200 (some ct) : List (Event D)) ++
      [Data.flash ph, Data.bool pir_status, Data.flash th] ++
      (List.range cfg.sensor_count).flatMap
        (fun i => (if i > 0 then [Data.flash sep] else []) ++
          Pir.entryData cfg read name_start name_end i) ++
      [Data.flash footer] := by
  have hd : sent ([Event.delay cfg.DS18B20_CONVERSION_DELAY_MS] : List (Event D)) = [] := rfl
  simp only [Pir.serve_measurements, sent_append, hd, sent_flatMap, pir_sent_entry,
    sent_request_temperature, List.append_nil]
  simp [send_data, sent]

theorem pir_sent_measurements {D : Type} (cfg : Config D) (pir_status : Bool)
    (read : Nat → D) (ct ph th name_start name_end sep footer : List Nat) :
    sent (Pir.serve_measurements cfg pir_status read ct ph th name_start name_end sep footer) =
      sent (send_headers Pir.SERVER_NAME 200 (some ct) : List (Event D)) ++
      [Data.flash ph, Data.bool pir_status, Data.flash th] ++
      List.intercalate [Data.flash sep]
        ((List.range cfg.sensor_count).map (Pir.entryData cfg read name_start name_end)) ++
      [Data.flash footer] := by
  rw [pir_sent_measurements_flat, flatMap_range_sep]

theorem takeWhile_append_zeros (s : List Nat) (k : Nat) (h0 : 0 ∉ s) :
    List.takeWhile (fun c => decide (c ≠ 0)) (s ++ List.replicate k 0) = s := by
  induction s with
  | nil => cases k <;> simp [List.replicate]
  | cons a as ih =>
    simp only [List.mem_cons, not_or] at h0
    have ha : a ≠ 0 := fun e => h0.1 e.symm
    rw [List.cons_append, List.takeWhile_cons_of_pos (by simpa using ha), ih h0.2]

/-- A display name of at most 15 bytes passes through the 16-byte buffer unchanged. -/
theorem strncpy_P_text {D : Type} (pd : D → List Nat) (name : List Nat)
    (hlen : name.length ≤ 15) (h0 : 0 ∉ name) :
    (Data.cstr (Pir.strncpy_P name 16) : Data D).text pd = some name := by
  have ht : name.take 16 = name := List.take_of_length_le (by omega)
  have hm : 0 ∈ Pir.strncpy_P name 16 := by
    unfold Pir.strncpy_P
    apply List.mem_append_right
    have : 16 - name.length = (15 - name.length) + 1 := by omega
    rw [this, List.replicate_succ]
    exact List.mem_cons_self _ _
  simp only [Data.text, if_pos hm]
  unfold Pir.strncpy_P
  rw [ht, takeWhile_append_zeros _ _ h0]

/-- A display name of 16 bytes or more leaves the buffer without terminator. -/
theorem strncpy_P_no_text {D : Type} (pd : D → List Nat) (name : List Nat)
    (hlen : 16 ≤ name.length) (h0 : 0 ∉ name) :
    (Data.cstr (Pir.strncpy_P name 16) : Data D).text pd = none := by
  have hm : 0 ∉ Pir.strncpy_P name 16 := by
    unfold Pir.strncpy_P
    have : 16 - name.length = 0 := by omega
    rw [this]
    simp only [List.replicate_zero, List.append_nil]
    exact fun h => h0 (List.mem_of_mem_take h)
  simp only [Data.text, if_neg hm]

theorem pir_entry_text {D : Type} (cfg : Config D) (read : Nat → D)
    (name_start name_end : List Nat) (i : Nat)
    (hlen : (cfg.sensor_names i).length ≤ 15) (h0 : 0 ∉ cfg.sensor_names i) :
    textOf cfg.print_double (Pir.entryData cfg read name_start name_end i) =
      some (Pir.entryText cfg (fun j => cfg.print_double (read j)) name_start name_end i) := by
  have h := strncpy_P_text cfg.print_double (cfg.sensor_names i) hlen h0
  simp only [Pir.entryData, Pir.entryText, textOf]
  rw [h]
  simp only [Data.text, List.append_nil, List.append_assoc]

theorem pir_measurements_text {D : Type} (cfg : Config D) (pir_status : Bool)
    (read : Nat → D) (ct ph th name_start name_end sep footer : List Nat)
    (hlen : ∀ i, i < cfg.sensor_count → (cfg.sensor_names i).length ≤ 15)
    (h0 : ∀ i, i < cfg.sensor_count → 0 ∉ cfg.sensor_names i) :
    written cfg
        (Pir.serve_measurements cfg pir_status read ct ph th name_start name_end sep footer) =
      some (headerText Pir.SERVER_NAME 200 (some ct) ++
        (ph ++ cbytes (if pir_status then "1" else "0") ++ th ++
          List.intercalate sep ((List.range cfg.sensor_count).map
            (Pir.entryText cfg (fun j => cfg.print_double (read j)) name_start name_end)) ++
          footer)) := by
  unfold written
  rw [pir_sent_measurements]
  have h1 := textOf_send_headers cfg.print_double Pir.SERVER_NAME 200 (some ct)
  have h2 : textOf cfg.print_double [Data.flash ph, Data.bool pir_status, Data.flash th] =
      some (ph ++ cbytes (if pir_status then "1" else "0") ++ th) := by
    simp [textOf, Data.text]
  have h3 := textOf_intercalate_range cfg.print_double [Data.flash sep] sep
    (by simp [textOf, Data.text]) (Pir.entryData cfg read name_start name_end)
    (Pir.entryText cfg (fun j => cfg.print_double (read j)) name_start name_end)
    cfg.sensor_count
    (fun i hi => pir_entry_text cfg read name_start name_end i (hlen i hi) (h0 i hi))
  have h4 : textOf cfg.print_double [Data.flash footer] = some footer := by
    simp [textOf, Data.text]
  have h := textOf_append _ _ _ _ _ (textOf_append _ _ _ _ _ (textOf_append _ _ _ _ _ h1 h2) h3) h4
  rw [h]
  simp only [List.append_assoc]

/-! ## C5: the JSON body of the PIR variant -/

/-- C5, as amended: in the PIR variant, for every bank whose display names are C
strings of at most 15 bytes, every presence state and all readings, the JSON body is
the presence field, then the object `temperature` whose keys are the display names in
bank order, one entry `"name":value` per sensor joined by commas, closed by two
braces; the value of a reading that is a number is its printed text. -/
theorem pir_json_body {D : Type} (cfg : Config D) (pir_status : Bool) (read : Nat → D)
    (hlen : ∀ i, i < cfg.sensor_count → (cfg.sensor_names i).length ≤ 15)
    (h0 : ∀ i, i < cfg.sensor_count → 0 ∉ cfg.sensor_names i) :
    ∃ value : Nat → List Nat,
      (∀ i, cfg.isnan (read i) = false → value i = cfg.print_double (read i)) ∧
      written cfg (Pir.serve_measurements_json cfg pir_status read) =
        some (headerText Pir.SERVER_NAME 200 (some (cbytes "application/json")) ++
          (cbytes "\x7b\"presence\":" ++ cbytes (if pir_status then "1" else "0") ++
            cbytes ",\"temperature\":\x7b" ++
            List.intercalate (cbytes ",") ((List.range cfg.sensor_count).map (fun i =>
              cbytes "\"" ++ cfg.sensor_names i ++ cbytes "\":" ++ value i)) ++
            cbytes "\x7d\x7d")) :=
  ⟨fun j => cfg.print_double (read j), fun _ _ => rfl,
    pir_measurements_text cfg pir_status read _ _ _ _ _ _ _ hlen h0⟩

/-- C5, witness: sensors `A` and `B` with readings 21.5 and 22. -/
theorem pir_json_body_witness :
    ∃ value : Nat → List Nat,
      (∀ i, (sampleConfig ["A", "B"]).isnan
          (sampleRead [Reading.centi 2150, Reading.centi 2200] i) = false →
        value i = Reading.print (sampleRead [Reading.centi 2150, Reading.centi 2200] i)) ∧
      written (sampleConfig ["A", "B"])
          (Pir.serve_measurements_json (sampleConfig ["A", "B"]) true
            (sampleRead [Reading.centi 2150, Reading.centi 2200])) =
        some (headerText Pir.SERVER_NAME 200 (some (cbytes "application/json")) ++
          (cbytes "\x7b\"presence\":" ++ cbytes (if true then "1" else "0") ++
            cbytes ",\"temperature\":\x7b" ++
            List.intercalate (cbytes ",") ((List.range 2).map (fun i =>
              cbytes "\"" ++ (sampleConfig ["A", "B"]).sensor_names i ++ cbytes "\":" ++
                value i)) ++
            cbytes "\x7d\x7d")) :=
  pir_json_body (sampleConfig ["A", "B"]) true
    (sampleRead [Reading.centi 2150, Reading.centi 2200]) (by decide) (by decide)

/-- C5, counterexample: with sensors `A` reading 21.5 and `B` absent, the body the PIR
variant writes for `GET /measurements.json` is not the object with the keys `A` and
`B` alone: it opens with the presence field and nests the readings, and the NaN
reading is handed to the number printer, the token `null` never being sent. -/
theorem pir_json_null_counterexample :
    written (sampleConfig ["A", "B"])
        (Pir.handle_http (sampleConfig ["A", "B"]) false
          (sampleRead [Reading.centi 2150, Reading.nan])
          (some (request "GET /measurements.json HTTP/1.1\r\n\r\n")) dirty).events =
      some (headerText Pir.SERVER_NAME 200 (some (cbytes "application/json")) ++
        cbytes "\x7b\"presence\":0,\"temperature\":\x7b\"A\":21.50,\"B\":nan\x7d\x7d") ∧
    written (sampleConfig ["A", "B"])
        (Pir.handle_http (sampleConfig ["A", "B"]) false
          (sampleRead [Reading.centi 2150, Reading.nan])
          (some (request "GET /measurements.json HTTP/1.1\r\n\r\n")) dirty).events ≠
      some (headerText Pir.SERVER_NAME 200 (some (cbytes "application/json")) ++
        cbytes "\x7b\"A\":21.5,\"B\":null\x7d") ∧
    Data.double Reading.nan ∈
      sent (Pir.serve_measurements_json (sampleConfig ["A", "B"]) false
        (sampleRead [Reading.centi 2150, Reading.nan])) ∧
    Data.flash (cbytes "null") ∉
      sent (Pir.serve_measurements_json (sampleConfig ["A", "B"]) false
        (sampleRead [Reading.centi 2150, Reading.nan])) := by
  decide

/-! ## C6: the Prometheus body of the PIR variant -/

/-- C6, as amended: in the PIR variant, for every presence state and every bank whose
display names are C strings of at most 15 bytes, the body written for `/metrics` is
the presence HELP and TYPE lines, `presence ` with `1` or `0`, a line feed and the
temperature HELP and TYPE lines, one line `temperature{sensor="name"} value` per
sensor in bank order with single line feeds between them, and a final line feed. -/
theorem pir_prometheus_body {D : Type} (cfg : Config D) (pir_status : Bool) (read : Nat → D)
    (hlen : ∀ i, i < cfg.sensor_count → (cfg.sensor_names i).length ≤ 15)
    (h0 : ∀ i, i < cfg.sensor_count → 0 ∉ cfg.sensor_names i) :
    written cfg (Pir.serve_measurements_prometheus cfg pir_status read) =
      some (headerText Pir.SERVER_NAME 200 (some (cbytes "text/plain")) ++
        (cbytes "# HELP presence PIR presence sensor activated\n# TYPE presence gauge\npresence " ++
          cbytes (if pir_status then "1" else "0") ++
          cbytes "\n# HELP temperature Temperature in degrees Celsius\n# TYPE temperature gauge\n" ++
          List.intercalate (cbytes "\n") ((List.range cfg.sensor_count).map (fun i =>
            cbytes "temperature\x7bsensor=\"" ++ cfg.sensor_names i ++ cbytes "\"\x7d " ++
              cfg.print_double (read i))) ++
          cbytes "\n")) :=
  pir_measurements_text cfg pir_status read _ _ _ _ _ _ _ hlen h0

/-- C6, witness: presence true and one sensor `X` reading 19. -/
theorem pir_prometheus_body_witness :
    (∀ i, i < (sampleConfig ["X"]).sensor_count →
      ((sampleConfig ["X"]).sensor_names i).length ≤ 15) ∧
    (∀ i, i < (sampleConfig ["X"]).sensor_count → 0 ∉ (sampleConfig ["X"]).sensor_names i) ∧
    written (sampleConfig ["X"])
        (Pir.serve_measurements_prometheus (sampleConfig ["X"]) true
          (sampleRead [Reading.centi 1900])) =
      some (headerText Pir.SERVER_NAME 200 (some (cbytes "text/plain")) ++
        (cbytes "# HELP presence PIR presence sensor activated\n# TYPE presence gauge\n" ++
          cbytes "presence 1\n" ++
          cbytes "# HELP temperature Temperature in degrees Celsius\n" ++
          cbytes "# TYPE temperature gauge\n" ++
          cbytes "temperature\x7bsensor=\"X\"\x7d 19.00\n")) :=
  ⟨by decide, by decide,
    (pir_prometheus_body (sampleConfig ["X"]) true (sampleRead [Reading.centi 1900])
      (by decide) (by decide)).trans (by decide)⟩

/-- C6, counterexample: with a display name of 17 bytes the 16-byte name buffer holds
no terminator, so the bytes written for the name are not determined by the buffer and
the body is not the text with the configured name. -/
theorem pir_prometheus_long_name_counterexample :
    ((sampleConfig ["living-room-north"]).sensor_names 0).length = 17 ∧
    Pir.strncpy_P ((sampleConfig ["living-room-north"]).sensor_names 0) 16 =
      cbytes "living-room-nort" ∧
    written (sampleConfig ["living-room-north"])
        (Pir.serve_measurements_prometheus (sampleConfig ["living-room-north"]) true
          (sampleRead [Reading.centi 1900])) = none ∧
    written (sampleConfig ["living-room-north"])
        (Pir.serve_measurements_prometheus (sampleConfig ["living-room-north"]) true
          (sampleRead [Reading.centi 1900])) ≠
      some (headerText Pir.SERVER_NAME 200 (some (cbytes "text/plain")) ++
        (cbytes "# HELP presence PIR presence sensor activated\n# TYPE presence gauge\n" ++
          cbytes "presence 1\n" ++
          cbytes "# HELP temperature Temperature in degrees Celsius\n" ++
          cbytes "# TYPE temperature gauge\n" ++
          cbytes "temperature\x7bsensor=\"living-room-north\"\x7d 19.00\n")) := by
  decide

/-! ## C7: separators only between entries -/

/-- C7: for every bank size and all readings, the `send_data` calls of each
measurement renderer (the primary `serve_measurements_json`, the PIR
`serve_measurements` with the JSON and with the Prometheus delimiters) are the opening
part, the entries intercalated with the separator, and the footer; every entry is
four calls, so the entry section of `N` entries has `4 * N + (N - 1)` calls: the
separator is sent `N - 1` times, never before the first entry nor after the last. -/
theorem separators_between_entries {D : Type} (cfg : Config D) (now last : Nat)
    (pir_status : Bool) (read : Nat → D) :
    (sent (Primary.serve_measurements_json cfg now last read) =
        sent (send_headers Primary.SERVER_NAME 200 (some (cbytes "application/json")) :
          List (Event D)) ++
        [Data.flash (cbytes "\x7b")] ++
        List.intercalate [Data.flash (cbytes ",")]
          ((List.range cfg.sensor_count).map (Primary.entryData cfg read)) ++
        [Data.flash (cbytes "\x7d")] ∧
      (∀ i, (Primary.entryData cfg read i).length = 4) ∧
      (List.intercalate [Data.flash (cbytes ",")]
          ((List.range cfg.sensor_count).map (Primary.entryData cfg read))).length =
        4 * cfg.sensor_count + (cfg.sensor_count - 1)) ∧
    (sent (Pir.serve_measurements_json cfg pir_status read) =
        sent (send_headers Pir.SERVER_NAME 200 (some (cbytes "application/json")) :
          List (Event D)) ++
        [Data.flash (cbytes "\x7b\"presence\":"), Data.bool pir_status,
          Data.flash (cbytes ",\"temperature\":\x7b")] ++
        List.intercalate [Data.flash (cbytes ",")]
          ((List.range cfg.sensor_count).map
            (Pir.entryData cfg read (cbytes "\"") (cbytes "\":"))) ++
        [Data.flash (cbytes "\x7d\x7d")] ∧
      (∀ i, (Pir.entryData cfg read (cbytes "\"") (cbytes "\":") i).length = 4) ∧
      (List.intercalate [Data.flash (cbytes ",")]
          ((List.range cfg.sensor_count).map
            (Pir.entryData cfg read (cbytes "\"") (cbytes "\":")))).length =
        4 * cfg.sensor_count + (cfg.sensor_count - 1)) ∧
    (sent (Pir.serve_measurements_prometheus cfg pir_status read) =
        sent (send_headers Pir.SERVER_NAME 200 (some (cbytes "text/plain")) :
          List (Event D)) ++
        [Data.flash (cbytes
            "# HELP presence PIR presence sensor activated\n# TYPE presence gauge\npresence "),
          Data.bool pir_status,
          Data.flash (cbytes
            "\n# HELP temperature Temperature in degrees Celsius\n# TYPE temperature gauge\n")] ++
        List.intercalate [Data.flash (cbytes "\n")]
          ((List.range cfg.sensor_count).map
            (Pir.entryData cfg read (cbytes "temperature\x7bsensor=\"") (cbytes "\"\x7d "))) ++
        [Data.flash (cbytes "\n")] ∧
      (∀ i, (Pir.entryData cfg read (cbytes "temperature\x7bsensor=\"") (cbytes "\"\x7d ")
          i).length = 4) ∧
      (List.intercalate [Data.flash (cbytes "\n")]
          ((List.range cfg.sensor_count).map
            (Pir.entryData cfg read (cbytes "temperature\x7bsensor=\"")
              (cbytes "\"\x7d ")))).length =
        4 * cfg.sensor_count + (cfg.sensor_count - 1)) := by
  refine ⟨⟨primary_sent_json cfg now last read, fun _ => rfl, ?_⟩,
    ⟨pir_sent_measurements cfg pir_status read _ _ _ _ _ _ _, fun _ => rfl, ?_⟩,
    ⟨pir_sent_measurements cfg pir_status read _ _ _ _ _ _ _, fun _ => rfl, ?_⟩⟩
  · rw [length_intercalate_range _ (Primary.entryData cfg read) _ 4 (fun _ => rfl)]; simp
  · rw [length_intercalate_range _ (Pir.entryData cfg read _ _) _ 4 (fun _ => rfl)]; simp
  · rw [length_intercalate_range _ (Pir.entryData cfg read _ _) _ 4 (fun _ => rfl)]; simp

/-! ## The position counter and the header-consumption loop -/

theorem read_until_loop_pos_mod (t : Nat) (client : List Int) (pos : Nat) (mem : Mem)
    (hp : pos < SIZE_MOD) :
    (read_until_loop t client pos mem).1 = (pos + (tokenOf t client).length) % SIZE_MOD := by
  induction client generalizing pos mem with
  | nil => simp only [read_until_loop, tokenOf, List.length_nil, Nat.add_zero]
           exact (Nat.mod_eq_of_lt hp).symm
  | cons d r ih =>
    by_cases h1 : d < 0
    · simp only [read_until_loop, tokenOf, if_pos h1]
      exact ih _ _ hp
    by_cases h2 : toChar d = 13
    · simp only [read_until_loop, tokenOf, if_neg h1, if_pos h2]
      exact ih _ _ hp
    by_cases h3 : toChar d = t
    · simp only [read_until_loop, tokenOf, if_neg h1, if_neg h2, if_pos h3, List.length_nil,
        Nat.add_zero]
      exact (Nat.mod_eq_of_lt hp).symm
    simp only [read_until_loop, tokenOf, if_neg h1, if_neg h2, if_neg h3, List.length_cons]
    rw [ih _ _ (Nat.mod_lt _ (by decide))]
    rw [Nat.add_mod, Nat.mod_mod, ← Nat.add_mod]
    congr 1
    omega

/-- The value `read_until` returns is the number of bytes of the token modulo `2 ^ 16`. -/
theorem read_until_pos_mod (client : List Int) (mem : Mem) (t : Nat) :
    (read_until client mem t).1 = (tokenOf t client).length % SIZE_MOD := by
  unfold read_until
  rw [read_until_loop_pos_mod _ _ _ _ (by decide), Nat.zero_add]

theorem read_until_loop_append (t : Nat) (a b : List Int) (pos : Nat) (mem : Mem)
    (ha : ∀ d ∈ a, d < 0 ∨ toChar d = 13 ∨ toChar d ≠ t) :
    read_until_loop t (a ++ b) pos mem =
      read_until_loop t b (read_until_loop t a pos mem).1 (read_until_loop t a pos mem).2.1 := by
  induction a generalizing pos mem with
  | nil => rfl
  | cons d r ih =>
    have hr : ∀ d ∈ r, d < 0 ∨ toChar d = 13 ∨ toChar d ≠ t :=
      fun x hx => ha x (List.mem_cons_of_mem _ hx)
    by_cases h1 : d < 0
    · simp only [List.cons_append, read_until_loop, if_pos h1]
      exact ih _ _ hr
    by_cases h2 : toChar d = 13
    · simp only [List.cons_append, read_until_loop, if_neg h1, if_pos h2]
      exact ih _ _ hr
    have h3 : toChar d ≠ t := by
      rcases ha d (List.mem_cons_self _ _) with h | h | h
      · exact absurd h h1
      · exact absurd h h2
      · exact h
    simp only [List.cons_append, read_until_loop, if_neg h1, if_neg h2, if_neg h3]
    exact ih _ _ hr

theorem behind_length (t : Nat) (client : List Int) :
    (behind t client).length + (tokenOf t client).length ≤ client.length := by
  induction client with
  | nil => simp [behind, tokenOf]
  | cons d r ih =>
    simp only [behind, tokenOf]
    split_ifs <;> simp only [List.length_cons, List.length_nil] <;> omega

theorem consume_loop_fuel (f1 f2 : Nat) (client : List Int) (mem : Mem)
    (h1 : client.length < f1) (h2 : client.length < f2) :
    consume_loop f1 client mem = consume_loop f2 client mem := by
  induction f1 generalizing f2 client mem with
  | zero => omega
  | succ n ih =>
    cases f2 with
    | zero => omega
    | succ m =>
      simp only [consume_loop]
      by_cases hz : (read_until client mem 10).1 ≠ 0
      · rw [if_pos hz, if_pos hz]
        have hl := behind_length 10 client
        have ht : (tokenOf 10 client).length ≠ 0 := by
          intro e
          rw [read_until_pos_mod, e] at hz
          exact hz rfl
        rw [read_until_rest]
        exact ih m _ _ (by omega) (by omega)
      · rw [if_neg hz, if_neg hz]

/-- The loop equation of the header-consumption loop: the round bound of `consume`
is never reached. -/
theorem consume_unfold (client : List Int) (mem : Mem) :
    consume client mem =
      if (read_until client mem 10).1 ≠ 0
      then consume (read_until client mem 10).2.2 (read_until client mem 10).2.1
      else ((read_until client mem 10).2.1, (read_until client mem 10).2.2) := by
  have e : consume client mem =
      if (read_until client mem 10).1 ≠ 0
      then consume_loop client.length (read_until client mem 10).2.2 (read_until client mem 10).2.1
      else ((read_until client mem 10).2.1, (read_until client mem 10).2.2) := rfl
  rw [e]
  by_cases hz : (read_until client mem 10).1 ≠ 0
  · rw [if_pos hz, if_pos hz]
    have hl := behind_length 10 client
    have ht : (tokenOf 10 client).length ≠ 0 := by
      intro e
      rw [read_until_pos_mod, e] at hz
      exact hz rfl
    unfold consume
    apply consume_loop_fuel
    · rw [read_until_rest]; omega
    · omega
  · rw [if_neg hz, if_neg hz]

theorem drained_step (seen : Bool) (client : List Int) :
    drained seen client =
      if seen = true ∨ tokenOf 10 client ≠ [] then drained false (behind 10 client)
      else behind 10 client := by
  induction client generalizing seen with
  | nil => simp [drained, behind]
  | cons d r ih =>
    by_cases h1 : d < 0
    · simp only [drained, tokenOf, behind, if_pos h1]
      exact ih seen
    by_cases h2 : toChar d = 13
    · simp only [drained, tokenOf, behind, if_neg h1, if_pos h2]
      exact ih seen
    by_cases h3 : toChar d = 10
    · simp only [drained, tokenOf, behind, if_neg h1, if_neg h2, if_pos h3]
      cases seen <;> simp
    simp only [drained, tokenOf, behind, if_neg h1, if_neg h2, if_neg h3]
    rw [ih true]
    simp

theorem consume_drains_aux (n : Nat) (client : List Int) (mem : Mem) (hn : client.length ≤ n)
    (h : client.length < SIZE_MOD) : (consume client mem).2 = drained false client := by
  induction n generalizing client mem with
  | zero =>
    have hc : client = [] := List.length_eq_zero.mp (by omega)
    subst hc
    rfl
  | succ n ih =>
    have hl := behind_length 10 client
    rw [consume_unfold, read_until_pos_mod, Nat.mod_eq_of_lt (by omega), read_until_rest,
      drained_step]
    by_cases ht : (tokenOf 10 client).length ≠ 0
    · have hne : tokenOf 10 client ≠ [] := fun e => ht (by rw [e]; rfl)
      rw [if_pos ht, if_pos (Or.inr hne)]
      exact ih _ _ (by omega) (by omega)
    · have he : tokenOf 10 client = [] := List.length_eq_zero.mp (not_not.mp ht)
      rw [if_neg ht, if_neg (by simp [he])]

/-- On a stream of fewer than `2 ^ 16` elements the header-consumption loop stops
right behind the line feed of the first line without a byte other than CR. -/
theorem consume_drains (client : List Int) (mem : Mem) (h : client.length < SIZE_MOD) :
    (consume client mem).2 = drained false client :=
  consume_drains_aux client.length client mem (Nat.le_refl _) h

/-! ## Long tokens -/

theorem tokenOf_append (t : Nat) (a b : List Int)
    (ha : ∀ d ∈ a, d < 0 ∨ toChar d = 13 ∨ toChar d ≠ t) :
    tokenOf t (a ++ b) = tokenOf t a ++ tokenOf t b := by
  induction a with
  | nil => rfl
  | cons d r ih =>
    have hr : ∀ d ∈ r, d < 0 ∨ toChar d = 13 ∨ toChar d ≠ t :=
      fun x hx => ha x (List.mem_cons_of_mem _ hx)
    by_cases h1 : d < 0
    · simp only [List.cons_append, tokenOf, if_pos h1]; exact ih hr
    by_cases h2 : toChar d = 13
    · simp only [List.cons_append, tokenOf, if_neg h1, if_pos h2]; exact ih hr
    have h3 : toChar d ≠ t := by
      rcases ha d (List.mem_cons_self _ _) with h | h | h
      · exact absurd h h1
      · exact absurd h h2
      · exact h
    simp only [List.cons_append, tokenOf, if_neg h1, if_neg h2, if_neg h3]
    exact congrArg _ (ih hr)

theorem behind_append (t : Nat) (a b : List Int)
    (ha : ∀ d ∈ a, d < 0 ∨ toChar d = 13 ∨ toChar d ≠ t) :
    behind t (a ++ b) = behind t b := by
  induction a with
  | nil => rfl
  | cons d r ih =>
    have hr : ∀ d ∈ r, d < 0 ∨ toChar d = 13 ∨ toChar d ≠ t :=
      fun x hx => ha x (List.mem_cons_of_mem _ hx)
    by_cases h1 : d < 0
    · simp only [List.cons_append, behind, if_pos h1]; exact ih hr
    by_cases h2 : toChar d = 13
    · simp only [List.cons_append, behind, if_neg h1, if_pos h2]; exact ih hr
    have h3 : toChar d ≠ t := by
      rcases ha d (List.mem_cons_self _ _) with h | h | h
      · exact absurd h h1
      · exact absurd h h2
      · exact h
    simp only [List.cons_append, behind, if_neg h1, if_neg h2, if_neg h3]
    exact ih hr

theorem tokenOf_replicate (t : Nat) (d : Int) (k : Nat) (h1 : ¬ d < 0) (h2 : toChar d ≠ 13)
    (h3 : toChar d ≠ t) : tokenOf t (List.replicate k d) = List.replicate k (toChar d) := by
  induction k with
  | zero => rfl
  | succ n ih =>
    simp only [List.replicate_succ, tokenOf, if_neg h1, if_neg h2, if_neg h3, ih]

/-! ## C8: `read_until` and tokens of `2 ^ 16` bytes or more -/

/-- What `read_until` does for a token of fewer than `2 ^ 16` bytes: the memory next
to the buffer is untouched, the unread stream starts behind the terminator, the buffer
holds the first bytes of the token followed by zeros, and the length of the token is
returned. -/
theorem read_until_short_token (client : List Int) (mem : Mem) (t : Nat)
    (h : (tokenOf t client).length < SIZE_MOD) :
    (read_until client mem t).1 = (tokenOf t client).length ∧
    bufferOf (read_until client mem t).2.1 =
      (tokenOf t client).take BUFFER_SIZE ++
        List.replicate (BUFFER_SIZE - (tokenOf t client).length) 0 ∧
    (∀ i, BUFFER_SIZE ≤ i → (read_until client mem t).2.1 i = mem i) ∧
    (read_until client mem t).2.2 = behind t client := by
  refine ⟨read_until_pos client mem t h, ?_, fun i hi => read_until_far client mem t i hi,
    read_until_rest client mem t⟩
  apply List.ext_getElem
  · simp only [bufferOf, List.length_map, List.length_range, List.length_append,
      List.length_take, List.length_replicate]
    omega
  · intro i h1 h2
    simp only [bufferOf, List.length_map, List.length_range] at h1
    simp only [bufferOf, List.getElem_map, List.getElem_range]
    rw [read_until_mem client mem t h i h1]
    by_cases hl : i < (tokenOf t client).length
    · rw [List.getD_eq_getElem _ _ hl,
        List.getElem_append_left (by simp only [List.length_take]; omega)]
      simp
    · rw [List.getD_eq_default _ _ (by omega),
        List.getElem_append_right (by simp only [List.length_take]; omega)]
      simp

/-- An instance of `read_until_short_token`: the method token of a usual request. -/
theorem read_until_short_token_example :
    (read_until (request "GET / HTTP/1.1\r\n\r\n") dirty 32).1 = 3 ∧
    bufferOf (read_until (request "GET / HTTP/1.1\r\n\r\n") dirty 32).2.1 =
      cbytes "GET" ++ List.replicate 27 0 :=
  ⟨(read_until_short_token (request "GET / HTTP/1.1\r\n\r\n") dirty 32 (by decide)).1.trans
      (by decide),
    (read_until_short_token (request "GET / HTTP/1.1\r\n\r\n") dirty 32 (by decide)).2.1.trans
      (by decide)⟩

theorem plain_A : ∀ d ∈ List.replicate 65535 (65 : Int),
    d < 0 ∨ toChar d = 13 ∨ toChar d ≠ 32 := by
  intro d hd
  rw [List.eq_of_mem_replicate hd]
  exact Or.inr (Or.inr (by decide))

theorem wrap_tail (m : Mem) (p : Nat) (h : p = 65535) :
    read_until_loop 32 [65, 66, 32] p m = (1, store m 0 66, []) := by
  subst h
  rfl

theorem wrap_buffer (m : Mem) (hm : ∀ i, m i = if i < BUFFER_SIZE then 65 else dirty i) :
    bufferOf (store m 0 66) = 66 :: List.replicate 29 65 := by
  apply List.ext_getElem
  · simp only [bufferOf, List.length_map, List.length_range, List.length_cons,
      List.length_replicate]
    rfl
  · intro i h1 h2
    simp only [bufferOf, List.length_map, List.length_range] at h1
    simp only [bufferOf, List.getElem_map, List.getElem_range, store]
    cases i with
    | zero => rw [if_pos rfl]; rfl
    | succ j =>
      rw [if_neg (Nat.succ_ne_zero j), hm, if_pos h1, List.getElem_cons_succ,
        List.getElem_replicate]

/-- C8, at the failing input: a token of 65536 bytes `A` and one byte `B`, ended by a
space. 65537 bytes precede the terminator, yet `read_until` returns 1, because the
16-bit position counter has wrapped, and the buffer starts with the last byte `B`
instead of holding the first 30 bytes; the writes stay inside the buffer. -/
theorem read_until_wraps :
    (tokenOf 32 (List.replicate 65536 65 ++ [66, 32])).length = 65537 ∧
    (tokenOf 32 (List.replicate 65536 65 ++ [66, 32])).take BUFFER_SIZE =
      List.replicate 30 65 ∧
    (read_until (List.replicate 65536 65 ++ [66, 32]) dirty 32).1 = 1 ∧
    bufferOf (read_until (List.replicate 65536 65 ++ [66, 32]) dirty 32).2.1 =
      66 :: List.replicate 29 65 ∧
    (∀ i, BUFFER_SIZE ≤ i →
      (read_until (List.replicate 65536 65 ++ [66, 32]) dirty 32).2.1 i = dirty i) := by
  have hs : List.replicate 65536 (65 : Int) ++ [66, 32] =
      List.replicate 65535 65 ++ [65, 66, 32] := by
    rw [show (65536 : Nat) = 65535 + 1 from rfl, List.replicate_succ', List.append_assoc]
    rfl
  have ht : tokenOf 32 (List.replicate 65536 65 ++ [66, 32]) =
      List.replicate 65535 65 ++ [65, 66] := by
    rw [hs, tokenOf_append _ _ _ plain_A,
      tokenOf_replicate 32 65 65535 (by decide) (by decide) (by decide)]
    rfl
  have hl : (tokenOf 32 (List.replicate 65536 65 ++ [66, 32])).length = 65537 := by
    rw [ht, List.length_append, List.length_replicate]
    rfl
  have hA : tokenOf 32 (List.replicate 65535 65) = List.replicate 65535 65 :=
    tokenOf_replicate 32 65 65535 (by decide) (by decide) (by decide)
  have hb : 0 + (tokenOf 32 (List.replicate 65535 65)).length < SIZE_MOD := by
    rw [hA, List.length_replicate]
    decide
  have hp : (read_until_loop 32 (List.replicate 65535 65) 0 (memset dirty 0 BUFFER_SIZE)).1 =
      65535 := by
    rw [read_until_loop_pos _ _ _ _ hb, hA, List.length_replicate]
  have hm : ∀ i, (read_until_loop 32 (List.replicate 65535 65) 0
      (memset dirty 0 BUFFER_SIZE)).2.1 i = if i < BUFFER_SIZE then 65 else dirty i := by
    intro i
    rw [read_until_loop_mem _ _ _ _ hb, hA, List.length_replicate]
    by_cases hi : i < BUFFER_SIZE
    · have hi2 : i < 65535 := by
        have : BUFFER_SIZE = 30 := rfl
        omega
      rw [if_pos ⟨Nat.zero_le _, by omega, hi⟩, if_pos hi,
        List.getD_eq_getElem _ _ (by rw [List.length_replicate]; omega),
        List.getElem_replicate]
    · rw [if_neg (fun h => hi h.2.2), if_neg hi]
      simp only [memset, if_neg hi]
  have hr : read_until (List.replicate 65536 65 ++ [66, 32]) dirty 32 =
      (1, store (read_until_loop 32 (List.replicate 65535 65) 0
        (memset dirty 0 BUFFER_SIZE)).2.1 0 66, []) := by
    unfold read_until
    rw [hs, read_until_loop_append _ _ _ _ _ plain_A]
    exact wrap_tail _ _ hp
  refine ⟨hl, ?_, ?_, ?_, fun i hi => read_until_far _ _ _ i hi⟩
  · rw [ht]
    have : BUFFER_SIZE = 30 := rfl
    rw [this, List.take_append_of_le_length (by rw [List.length_replicate]; omega),
      List.take_replicate]
    rfl
  · rw [hr]
  · rw [hr]
    exact wrap_buffer _ hm

/-! ## C9: the header-consumption loop -/

theorem primary_parse_request_stream (client : List Int) (mem : Mem) :
    (Primary.parse_request client mem).2.2.2 =
      if strncmp_P (read_until client mem 32).2.1 (cbytes "GET") BUFFER_SIZE 0 ≠ 0
      then behind 32 client else behind 32 (behind 32 client) := by
  simp only [Primary.parse_request]
  split_ifs <;> simp only [read_until_rest]

theorem pir_parse_request_stream (client : List Int) (mem : Mem) :
    (Pir.parse_request client mem).2.2.2 =
      if strncmp_P (read_until client mem 32).2.1 (cbytes "GET") BUFFER_SIZE 0 ≠ 0
      then behind 32 client else behind 32 (behind 32 client) := by
  simp only [Pir.parse_request]
  split_ifs <;> simp only [read_until_rest]

theorem behind_length_le (t : Nat) (client : List Int) :
    (behind t client).length ≤ client.length := by
  have := behind_length t client
  omega

/-- For a request of fewer than `2 ^ 16` stream elements, whatever the route, both
variants leave the stream right behind the line feed of the first line, counted from
the label `consume:`, that holds no byte other than carriage returns. -/
theorem handle_http_drains_short {D : Type} (cfg : Config D) (now last : Nat)
    (pir_status : Bool) (read : Nat → D) (client : List Int) (mem : Mem)
    (h : client.length < SIZE_MOD) :
    (Primary.handle_http cfg now last read (some client) mem).client =
      drained false (Primary.parse_request client mem).2.2.2 ∧
    (Pir.handle_http cfg pir_status read (some client) mem).client =
      drained false (Pir.parse_request client mem).2.2.2 := by
  have h1 := behind_length_le 32 client
  have h2 := behind_length_le 32 (behind 32 client)
  constructor
  · apply consume_drains
    rw [primary_parse_request_stream]
    split_ifs <;> omega
  · apply consume_drains
    rw [pir_parse_request_stream]
    split_ifs <;> omega

/-- An instance of `handle_http_drains_short`: after a usual request with one header
line nothing but the bytes behind the empty line is left unread. -/
theorem handle_http_drains_short_example :
    (Primary.handle_http (sampleConfig []) 0 0 (sampleRead [])
      (some (request "GET / HTTP/1.1\r\nHost: x\r\n\r\nrest")) dirty).client =
      request "rest" :=
  (handle_http_drains_short (sampleConfig []) 0 0 false (sampleRead [])
    (request "GET / HTTP/1.1\r\nHost: x\r\n\r\nrest") dirty (by decide)).1.trans (by decide)

theorem primary_handle_http_client {D : Type} (cfg : Config D) (now last : Nat)
    (read : Nat → D) (client : List Int) (mem : Mem) :
    (Primary.handle_http cfg now last read (some client) mem).client =
      (consume (Primary.parse_request client mem).2.2.2
        (Primary.parse_request client mem).2.2.1).2 := rfl

theorem pir_handle_http_client {D : Type} (cfg : Config D) (pir_status : Bool)
    (read : Nat → D) (client : List Int) (mem : Mem) :
    (Pir.handle_http cfg pir_status read (some client) mem).client =
      (consume (Pir.parse_request client mem).2.2.2 (Pir.parse_request client mem).2.2.1).2 :=
  rfl

theorem long_line_token (Y : List Int) :
    tokenOf 32 (request "GET / HTTP/1.1\n" ++ Y) = cbytes "GET" := rfl

theorem long_line_behind (Y : List Int) :
    behind 32 (behind 32 (request "GET / HTTP/1.1\n" ++ Y)) = request "HTTP/1.1\n" ++ Y := rfl

theorem long_line_first_token (Y : List Int) :
    tokenOf 10 (request "HTTP/1.1\n" ++ Y) = cbytes "HTTP/1.1" := rfl

theorem long_line_first_behind (Y : List Int) : behind 10 (request "HTTP/1.1\n" ++ Y) = Y := rfl

theorem plain_a : ∀ d ∈ List.replicate 65536 (97 : Int),
    d < 0 ∨ toChar d = 13 ∨ toChar d ≠ 10 := by
  intro d hd
  rw [List.eq_of_mem_replicate hd]
  exact Or.inr (Or.inr (by decide))

theorem long_line_second_token (Z : List Int) :
    (tokenOf 10 (List.replicate 65536 97 ++ (10 :: Z))).length = 65536 := by
  rw [tokenOf_append _ _ _ plain_a,
    tokenOf_replicate 10 97 65536 (by decide) (by decide) (by decide)]
  have e : tokenOf 10 (10 :: Z) = [] := rfl
  rw [e, List.append_nil, List.length_replicate]

theorem long_line_second_behind (Z : List Int) :
    behind 10 (List.replicate 65536 97 ++ (10 :: Z)) = Z := by
  rw [behind_append _ _ _ plain_a]
  rfl

theorem long_line_consume (Y Z : List Int) (mem : Mem)
    (hY : Y = List.replicate 65536 97 ++ (10 :: Z)) :
    (consume (request "HTTP/1.1\n" ++ Y) mem).2 = Z := by
  have r1 : (read_until (request "HTTP/1.1\n" ++ Y) mem 10).1 ≠ 0 := by
    rw [read_until_pos_mod, long_line_first_token]
    decide
  have r2 : ¬ (read_until (read_until (request "HTTP/1.1\n" ++ Y) mem 10).2.2
      (read_until (request "HTTP/1.1\n" ++ Y) mem 10).2.1 10).1 ≠ 0 := by
    rw [read_until_pos_mod, read_until_rest, long_line_first_behind, hY,
      long_line_second_token]
    decide
  rw [consume_unfold, if_pos r1, consume_unfold, if_neg r2]
  show (read_until _ _ 10).2.2 = Z
  rw [read_until_rest, read_until_rest, long_line_first_behind, hY, long_line_second_behind]

theorem long_line_drained (Y Z : List Int) (hY : Y = List.replicate 65536 97 ++ (10 :: Z)) :
    drained false (request "HTTP/1.1\n" ++ Y) = drained false Z := by
  have n1 : tokenOf 10 (request "HTTP/1.1\n" ++ Y) ≠ [] := by
    rw [long_line_first_token]; decide
  have n2 : tokenOf 10 Y ≠ [] := by
    intro e
    have := long_line_second_token Z
    rw [← hY, e] at this
    exact absurd this (by decide)
  rw [drained_step, if_pos (Or.inr n1), long_line_first_behind, drained_step,
    if_pos (Or.inr n2), hY, long_line_second_behind]

theorem long_line_request :
    List.replicate 65536 (97 : Int) ++ request "\nX: y\n\n" =
      List.replicate 65536 97 ++ (10 :: request "X: y\n\n") := by
  have e : request "\nX: y\n\n" = 10 :: request "X: y\n\n" := by decide
  rw [e]

/-- C9, at the failing input: the request line `GET / HTTP/1.1`, then a header line of
65536 bytes `a`, then the header line `X: y` and the empty line. The 16-bit position
counter wraps to 0 on the long line, so both variants take it for the empty line and
stop there: the line `X: y` and the empty line stay unread, whereas draining up to
the first line without a byte other than CR would leave nothing unread. -/
theorem consume_stops_at_long_line :
    (Primary.handle_http (sampleConfig []) 0 0 (sampleRead [])
        (some (request "GET / HTTP/1.1\n" ++
          (List.replicate 65536 97 ++ request "\nX: y\n\n"))) dirty).client =
      request "X: y\n\n" ∧
    drained false (Primary.parse_request (request "GET / HTTP/1.1\n" ++
        (List.replicate 65536 97 ++ request "\nX: y\n\n")) dirty).2.2.2 = [] ∧
    (Pir.handle_http (sampleConfig []) false (sampleRead [])
        (some (request "GET / HTTP/1.1\n" ++
          (List.replicate 65536 97 ++ request "\nX: y\n\n"))) dirty).client =
      request "X: y\n\n" ∧
    drained false (Pir.parse_request (request "GET / HTTP/1.1\n" ++
        (List.replicate 65536 97 ++ request "\nX: y\n\n")) dirty).2.2.2 = [] := by
  have hv : ¬ strncmp_P (read_until (request "GET / HTTP/1.1\n" ++
      (List.replicate 65536 97 ++ request "\nX: y\n\n")) dirty 32).2.1 (cbytes "GET")
      BUFFER_SIZE 0 ≠ 0 := by
    apply not_not.mpr
    apply (verb_matches _ _ _).mpr (long_line_token _)
    rw [long_line_token]
    decide
  have hp := primary_parse_request_stream (request "GET / HTTP/1.1\n" ++
      (List.replicate 65536 97 ++ request "\nX: y\n\n")) dirty
  have hq := pir_parse_request_stream (request "GET / HTTP/1.1\n" ++
      (List.replicate 65536 97 ++ request "\nX: y\n\n")) dirty
  rw [if_neg hv, long_line_behind] at hp hq
  have hd : drained false (request "X: y\n\n") = [] := by decide
  refine ⟨?_, ?_, ?_, ?_⟩
  · rw [primary_handle_http_client, hp]
    exact long_line_consume _ _ _ long_line_request
  · rw [hp, long_line_drained _ _ long_line_request, hd]
  · rw [pir_handle_http_client, hq]
    exact long_line_consume _ _ _ long_line_request
  · rw [hq, long_line_drained _ _ long_line_request, hd]

/-! ## C10: a peer that disconnects before the end of the header block -/

theorem published_append {D : Type} (a b : List (Effect D)) :
    published (a ++ b) = published a ++ published b := by
  induction a with
  | nil => rfl
  | cons e es ih =>
    cases e with
    | ev x => cases x <;> simp [published, ih]
    | _ => simp [published, ih]

theorem published_http {D : Type} (l : List (Event D)) :
    published (l.map Effect.http) = [] := by
  induction l with
  | nil => rfl
  | cons e es ih => simpa [published] using ih

theorem published_requests {D : Type} (l : List Nat) :
    published (l.map (fun i => (Effect.ev (Event.request_temperature i) : Effect D))) = [] := by
  induction l with
  | nil => rfl
  | cons e es ih => simpa [published] using ih

theorem published_update {D : Type} (cfg : Config D) (k : Primary.Tick D) (s : Primary.State) :
    published (Primary.update cfg k s).2 = [] ∧ (Primary.update cfg k s).1.idx = s.idx := by
  unfold Primary.update
  split_ifs
  · simp [Primary.request_temperatures, published_append, published_requests, published]
  · exact ⟨rfl, rfl⟩

theorem published_check_link {D : Type} (link_on : Bool) :
    published (check_link link_on : List (Effect D) × Outcome).1 = [] := by
  cases link_on <;> rfl

theorem published_handle_dhcp {D : Type} (maintain : Int) :
    published (handle_dhcp maintain : List (Effect D) × Outcome).1 = [] := by
  unfold handle_dhcp
  split_ifs <;> rfl

theorem published_publish {D : Type} (cfg : Config D) (k : Primary.Tick D) (s : Primary.State) :
    (published (Primary.publish cfg k s).2 = [] ∧ (Primary.publish cfg k s).1.idx = s.idx) ∨
    (published (Primary.publish cfg k s).2 = [s.idx] ∧
      (Primary.publish cfg k s).1.idx = (s.idx + 1) % cfg.sensor_count) := by
  simp only [Primary.publish]
  split_ifs
  · exact Or.inr ⟨rfl, rfl⟩
  · exact Or.inl ⟨rfl, rfl⟩

theorem primary_loop_published {D : Type} (cfg : Config D) (k : Primary.Tick D)
    (s : Primary.State) :
    published (Primary.loop cfg k s).effects =
      published (Primary.publish cfg k (Primary.update cfg k s).1).2 ∧
    (Primary.loop cfg k s).state.idx = (Primary.publish cfg k (Primary.update cfg k s).1).1.idx := by
  have hu := (published_update cfg k s).1
  have hl := published_check_link (D := D) k.link_on
  have hd := published_handle_dhcp (D := D) k.maintain
  simp only [Primary.loop]
  split_ifs <;>
    simp [published_append, published_http, hu, hl, hd, published]

theorem roundRobin_length (n c m : Nat) : (roundRobin n c m).length = m := by
  induction m generalizing c with
  | zero => rfl
  | succ m ih => simp [roundRobin, ih]

theorem roundRobin_append (n c a b : Nat) (hc : c < n) :
    roundRobin n c (a + b) = roundRobin n c a ++ roundRobin n ((c + a) % n) b := by
  induction a generalizing c with
  | zero =>
    rw [Nat.zero_add, Nat.add_zero, Nat.mod_eq_of_lt hc]
    rfl
  | succ a ih =>
    have hn : 0 < n := Nat.lt_of_le_of_lt (Nat.zero_le _) hc
    rw [show a + 1 + b = (a + b) + 1 from by omega]
    simp only [roundRobin, List.cons_append]
    rw [ih _ (Nat.mod_lt _ hn), Nat.mod_add_mod]
    rw [show c + 1 + a = c + (a + 1) from by omega]

theorem roundRobin_eq_map (n c m : Nat) (hc : c < n) :
    roundRobin n c m = (List.range m).map (fun j => (c + j) % n) := by
  induction m generalizing c with
  | zero => rfl
  | succ m ih =>
    have hn : 0 < n := Nat.lt_of_le_of_lt (Nat.zero_le _) hc
    rw [List.range_succ_eq_map, List.map_cons, List.map_map]
    simp only [roundRobin]
    rw [ih _ (Nat.mod_lt _ hn)]
    have h0 : (c + 0) % n = c := Nat.mod_eq_of_lt hc
    rw [h0]
    congr 1
    apply List.map_congr_left
    intro j _
    simp only [Function.comp, Nat.mod_add_mod]
    congr 1
    omega

/-- One full round visits every index below `n` exactly once. -/
theorem roundRobin_perm (n c : Nat) (hc : c < n) : (roundRobin n c n).Perm (List.range n) := by
  have hn : 0 < n := Nat.lt_of_le_of_lt (Nat.zero_le _) hc
  rw [roundRobin_eq_map n c n hc]
  apply List.Subperm.perm_of_length_le
  · apply List.subperm_of_subset
    · apply List.Nodup.map_on _ (List.nodup_range n)
      intro x hx y hy h
      rw [List.mem_range] at hx hy
      have h1 : (c + x) % n = if c + x < n then c + x else c + x - n := by
        split_ifs with hlt
        · exact Nat.mod_eq_of_lt hlt
        · rw [Nat.mod_eq_sub_mod (by omega)]
          exact Nat.mod_eq_of_lt (by omega)
      have h2 : (c + y) % n = if c + y < n then c + y else c + y - n := by
        split_ifs with hlt
        · exact Nat.mod_eq_of_lt hlt
        · rw [Nat.mod_eq_sub_mod (by omega)]
          exact Nat.mod_eq_of_lt (by omega)
      rw [h1, h2] at h
      split_ifs at h <;> omega
    · intro x hx
      rw [List.mem_map] at hx
      obtain ⟨j, _, rfl⟩ := hx
      exact List.mem_range.mpr (Nat.mod_lt _ hn)
  · simp

/-- Every window of `n` consecutive indices of the round-robin order is a full round. -/
theorem roundRobin_window (n c m start : Nat) (hc : c < n) (hw : start + n ≤ m) :
    ((roundRobin n c m).drop start).take n = roundRobin n ((c + start) % n) n := by
  have hn : 0 < n := Nat.lt_of_le_of_lt (Nat.zero_le _) hc
  have hm : m = start + (n + (m - start - n)) := by omega
  rw [hm, roundRobin_append n c start _ hc,
    roundRobin_append n _ n _ (Nat.mod_lt _ hn)]
  have h1 : (roundRobin n c start).length = start := roundRobin_length _ _ _
  rw [List.drop_append_of_le_length (by omega), List.drop_of_length_le (by omega),
    List.nil_append, List.take_append_of_le_length (by rw [roundRobin_length]),
    List.take_of_length_le (by rw [roundRobin_length])]

theorem primary_loop_cursor {D : Type} (cfg : Config D) (k : Primary.Tick D)
    (s : Primary.State) :
    (published (Primary.loop cfg k s).effects = [] ∧ (Primary.loop cfg k s).state.idx = s.idx) ∨
    (published (Primary.loop cfg k s).effects = [s.idx] ∧
      (Primary.loop cfg k s).state.idx = (s.idx + 1) % cfg.sensor_count) := by
  have h := primary_loop_published cfg k s
  have hu := (published_update cfg k s).2
  have hp := published_publish cfg k (Primary.update cfg k s).1
  rw [hu] at hp
  rw [h.1, h.2]
  exact hp

theorem primary_run_cursor {D : Type} (cfg : Config D) (ticks : List (Primary.Tick D))
    (s : Primary.State) (hs : s.idx < cfg.sensor_count) :
    published (Primary.run cfg s ticks).effects =
      roundRobin cfg.sensor_count s.idx (published (Primary.run cfg s ticks).effects).length ∧
    (Primary.run cfg s ticks).state.idx =
      (s.idx + (published (Primary.run cfg s ticks).effects).length) % cfg.sensor_count := by
  have hn : 0 < cfg.sensor_count := Nat.lt_of_le_of_lt (Nat.zero_le _) hs
  induction ticks generalizing s with
  | nil =>
    simp only [Primary.run, published, List.length_nil, roundRobin, Nat.add_zero]
    exact ⟨trivial, (Nat.mod_eq_of_lt hs).symm⟩
  | cons k ks ih =>
    have hc := primary_loop_cursor cfg k s
    by_cases ho : (Primary.loop cfg k s).outcome = Outcome.running
    · simp only [Primary.run, if_pos ho, published_append]
      rcases hc with ⟨h1, h2⟩ | ⟨h1, h2⟩
      · have hi := ih (Primary.loop cfg k s).state (by rw [h2]; exact hs)
        rw [h2] at hi
        rw [h1, List.nil_append]
        exact hi
      · have hi := ih (Primary.loop cfg k s).state (by rw [h2]; exact Nat.mod_lt _ hn)
        rw [h2] at hi
        rw [h1, List.singleton_append, List.length_cons]
        constructor
        · simp only [roundRobin]
          exact congrArg _ hi.1
        · rw [hi.2, Nat.mod_add_mod]
          congr 1
          omega
    · simp only [Primary.run, if_neg ho]
      rcases hc with ⟨h1, h2⟩ | ⟨h1, h2⟩
      · rw [h1, h2]
        exact ⟨rfl, (Nat.mod_eq_of_lt hs).symm⟩
      · rw [h1, h2]
        exact ⟨rfl, rfl⟩

theorem primary_setup_idx {D : Type} (cfg : Config D) (mem : Mem) (begin_result : Int)
    (t : Nat) :
    (Primary.setup cfg mem begin_result t).state.idx = 0 ∧
    published (Primary.setup cfg mem begin_result t).effects = [] := by
  simp only [Primary.setup]
  split_ifs
  · constructor
    · rfl
    · unfold setup_ethernet
      split_ifs <;> rfl
  · constructor
    · rfl
    · unfold setup_ethernet
      split_ifs <;>
        simp [Primary.request_temperatures, published_append, published_requests, published]

/-- C11: the publish cursor stays below `sensor_count`; an iteration either publishes
nothing and leaves the cursor, or publishes the sensor under the cursor and moves the
cursor to its successor modulo `sensor_count`; so the sensors published in a run from
any such cursor are in round-robin order, and every window of `sensor_count`
consecutive publish events is one full round: every sensor index exactly once, in
increasing order with wrap-around. -/
theorem publish_cursor_round_robin {D : Type} (cfg : Config D)
    (ticks : List (Primary.Tick D)) (s : Primary.State) (hs : s.idx < cfg.sensor_count) :
    (∀ mem begin_result t ks,
      (Primary.execution cfg mem begin_result t ks).state.idx < cfg.sensor_count) ∧
    (∀ k, (published (Primary.loop cfg k s).effects = [] ∧
        (Primary.loop cfg k s).state.idx = s.idx) ∨
      (published (Primary.loop cfg k s).effects = [s.idx] ∧
        (Primary.loop cfg k s).state.idx = (s.idx + 1) % cfg.sensor_count)) ∧
    (Primary.run cfg s ticks).state.idx < cfg.sensor_count ∧
    published (Primary.run cfg s ticks).effects =
      roundRobin cfg.sensor_count s.idx (published (Primary.run cfg s ticks).effects).length ∧
    (∀ start, start + cfg.sensor_count ≤ (published (Primary.run cfg s ticks).effects).length →
      ((published (Primary.run cfg s ticks).effects).drop start).take cfg.sensor_count =
        roundRobin cfg.sensor_count ((s.idx + start) % cfg.sensor_count) cfg.sensor_count ∧
      (((published (Primary.run cfg s ticks).effects).drop start).take cfg.sensor_count).Perm
        (List.range cfg.sensor_count)) := by
  have hn : 0 < cfg.sensor_count := Nat.lt_of_le_of_lt (Nat.zero_le _) hs
  have hr := primary_run_cursor cfg ticks s hs
  refine ⟨?_, fun k => primary_loop_cursor cfg k s, ?_, hr.1, ?_⟩
  · intro mem begin_result t ks
    have h0 := primary_setup_idx cfg mem begin_result t
    simp only [Primary.execution]
    split_ifs
    · have hq := (primary_run_cursor cfg ks (Primary.setup cfg mem begin_result t).state
        (by rw [h0.1]; exact hn)).2
      simp only [hq]
      exact Nat.mod_lt _ hn
    · rw [h0.1]; exact hn
  · rw [hr.2]; exact Nat.mod_lt _ hn
  · intro start hw
    have hwin : ((published (Primary.run cfg s ticks).effects).drop start).take
        cfg.sensor_count =
        roundRobin cfg.sensor_count ((s.idx + start) % cfg.sensor_count) cfg.sensor_count := by
      rw [hr.1]
      exact roundRobin_window _ _ _ _ hs hw
    refine ⟨hwin, ?_⟩
    rw [hwin]
    exact roundRobin_perm _ _ (Nat.mod_lt _ hn)

/-- C11, witness: two sensors and four iterations two seconds apart; the last three
publish the sensors 0, 1, 0, and the window of the last two is a full round. -/
theorem publish_cursor_round_robin_witness :
    (⟨0, none, 0, dirty⟩ : Primary.State).idx < (sampleConfig ["A", "B"]).sensor_count ∧
    published (Primary.run (sampleConfig ["A", "B"]) ⟨0, none, 0, dirty⟩
      [Primary.sampleTick 2000 none, Primary.sampleTick 4000 none,
        Primary.sampleTick 6000 none, Primary.sampleTick 8000 none]).effects = [0, 1, 0] ∧
    (((published (Primary.run (sampleConfig ["A", "B"]) ⟨0, none, 0, dirty⟩
      [Primary.sampleTick 2000 none, Primary.sampleTick 4000 none,
        Primary.sampleTick 6000 none, Primary.sampleTick 8000 none]).effects).drop 1).take
        (sampleConfig ["A", "B"]).sensor_count).Perm
      (List.range (sampleConfig ["A", "B"]).sensor_count) :=
  ⟨by decide, by decide,
    ((publish_cursor_round_robin (sampleConfig ["A", "B"])
      [Primary.sampleTick 2000 none, Primary.sampleTick 4000 none,
        Primary.sampleTick 6000 none, Primary.sampleTick 8000 none]
      ⟨0, none, 0, dirty⟩ (by decide)).2.2.2.2 1 (by decide)).2⟩

/-! ## C12: the gate of the telemetry block -/

theorem sub32_millis (a b : Nat) (h : b ≤ a) : sub32 (millis a) (millis b) = (a - b) % 2 ^ 32 := by
  unfold sub32 millis
  norm_num
  omega

theorem sub32_le_elapsed (a b : Nat) (h : b ≤ a) : sub32 (millis a) (millis b) ≤ a - b := by
  rw [sub32_millis a b h]
  exact Nat.mod_le _ _

theorem datagrams_append {D : Type} (a b : List (Effect D)) :
    datagrams (a ++ b) = datagrams a + datagrams b := by
  induction a with
  | nil => simp [datagrams]
  | cons e es ih =>
    cases e <;> simp only [List.cons_append, List.append_eq, datagrams, ih]
    omega

theorem datagrams_http {D : Type} (l : List (Event D)) :
    datagrams (l.map Effect.http) = 0 := by
  induction l with
  | nil => rfl
  | cons e es ih => simpa [datagrams] using ih

theorem datagrams_requests {D : Type} (l : List Nat) :
    datagrams (l.map (fun i => (Effect.ev (Event.request_temperature i) : Effect D))) = 0 := by
  induction l with
  | nil => rfl
  | cons e es ih => simpa [datagrams] using ih

theorem datagrams_update {D : Type} (cfg : Config D) (k : Primary.Tick D) (s : Primary.State) :
    datagrams (Primary.update cfg k s).2 = 0 := by
  unfold Primary.update
  split_ifs
  · simp [Primary.request_temperatures, datagrams_append, datagrams_requests, datagrams]
  · rfl

theorem datagrams_check_link {D : Type} (link_on : Bool) :
    datagrams (check_link link_on : List (Effect D) × Outcome).1 = 0 := by
  cases link_on <;> rfl

theorem datagrams_handle_dhcp {D : Type} (maintain : Int) :
    datagrams (handle_dhcp maintain : List (Effect D) × Outcome).1 = 0 := by
  unfold handle_dhcp
  split_ifs <;> rfl

theorem primary_loop_datagrams {D : Type} (cfg : Config D) (k : Primary.Tick D)
    (s : Primary.State) :
    datagrams (Primary.loop cfg k s).effects =
      datagrams (Primary.publish cfg k (Primary.update cfg k s).1).2 := by
  have hu := datagrams_update cfg k s
  have hl := datagrams_check_link (D := D) k.link_on
  have hd := datagrams_handle_dhcp (D := D) k.maintain
  simp only [Primary.loop]
  split_ifs <;>
    simp [datagrams_append, datagrams_http, hu, hl, hd, datagrams]

theorem rounds_append {D : Type} (a b : List (Effect D)) :
    rounds (a ++ b) = rounds a + rounds b := by
  induction a with
  | nil => simp [rounds]
  | cons e es ih =>
    cases e <;> simp only [List.cons_append, List.append_eq, rounds, ih]
    omega

theorem rounds_http {D : Type} (l : List (Event D)) :
    rounds (l.map Effect.http) = 0 := by
  induction l with
  | nil => rfl
  | cons e es ih => simpa [rounds] using ih

theorem rounds_requests {D : Type} (l : List Nat) :
    rounds (l.map (fun i => (Effect.ev (Event.request_temperature i) : Effect D))) = 0 := by
  induction l with
  | nil => rfl
  | cons e es ih => simpa [rounds] using ih

theorem rounds_request_temperatures {D : Type} (cfg : Config D) (t : Nat)
    (s : Primary.State) :
    rounds (Primary.request_temperatures cfg t s).2 = 1 ∧
    (Primary.request_temperatures cfg t s).1.last_reading_update = millis t := by
  constructor
  · simp [Primary.request_temperatures, rounds, rounds_requests]
  · rfl

theorem rounds_update {D : Type} (cfg : Config D) (k : Primary.Tick D) (s : Primary.State) :
    (Primary.READING_UPDATE_INTERVAL ≤ sub32 (millis k.millis_update) s.last_reading_update →
      rounds (Primary.update cfg k s).2 = 1 ∧
      (Primary.update cfg k s).1.last_reading_update = millis k.millis_request) ∧
    (¬ Primary.READING_UPDATE_INTERVAL ≤
        sub32 (millis k.millis_update) s.last_reading_update →
      rounds (Primary.update cfg k s).2 = 0 ∧
      (Primary.update cfg k s).1.last_reading_update = s.last_reading_update) := by
  constructor
  · intro h
    simp only [Primary.update, if_pos h]
    exact rounds_request_temperatures cfg _ s
  · intro h
    simp only [Primary.update, if_neg h]
    exact ⟨rfl, trivial⟩

theorem rounds_publish {D : Type} (cfg : Config D) (k : Primary.Tick D) (s : Primary.State) :
    rounds (Primary.publish cfg k s).2 = 0 ∧
    (Primary.publish cfg k s).1.last_reading_update = s.last_reading_update := by
  simp only [Primary.publish]
  split_ifs <;> exact ⟨rfl, rfl⟩

theorem rounds_check_link {D : Type} (link_on : Bool) :
    rounds (check_link link_on : List (Effect D) × Outcome).1 = 0 := by
  cases link_on <;> simp [check_link, rounds]

theorem rounds_handle_dhcp {D : Type} (maintain : Int) :
    rounds (handle_dhcp maintain : List (Effect D) × Outcome).1 = 0 := by
  unfold handle_dhcp
  split_ifs <;> simp [rounds]

theorem primary_loop_rounds {D : Type} (cfg : Config D) (k : Primary.Tick D)
    (s : Primary.State) :
    rounds (Primary.loop cfg k s).effects = rounds (Primary.update cfg k s).2 ∧
    (Primary.loop cfg k s).state.last_reading_update =
      (Primary.update cfg k s).1.last_reading_update := by
  have hp := rounds_publish cfg k (Primary.update cfg k s).1
  have hl := rounds_check_link (D := D) k.link_on
  have hd := rounds_handle_dhcp (D := D) k.maintain
  simp only [Primary.loop]
  split_ifs <;>
    simp [rounds_append, rounds_http, hp.1, hp.2, hl, hd, rounds]

theorem primary_loop_round {D : Type} (cfg : Config D) (k : Primary.Tick D)
    (s : Primary.State) :
    (rounds (Primary.loop cfg k s).effects = 1 ↔
      Primary.READING_UPDATE_INTERVAL ≤
        sub32 (millis k.millis_update) s.last_reading_update) ∧
    (rounds (Primary.loop cfg k s).effects = 0 ↔
      ¬ Primary.READING_UPDATE_INTERVAL ≤
        sub32 (millis k.millis_update) s.last_reading_update) ∧
    (Primary.loop cfg k s).state.last_reading_update =
      (if rounds (Primary.loop cfg k s).effects = 0 then s.last_reading_update
       else millis k.millis_request) := by
  have hl := primary_loop_rounds cfg k s
  have hu := rounds_update cfg k s
  rw [hl.1, hl.2]
  by_cases h : Primary.READING_UPDATE_INTERVAL ≤
      sub32 (millis k.millis_update) s.last_reading_update
  · rw [(hu.1 h).1, (hu.1 h).2]
    simp [h]
  · rw [(hu.2 h).1, (hu.2 h).2]
    simp [h]

theorem primary_setup_round {D : Type} (cfg : Config D) (mem : Mem) (begin_result : Int)
    (t : Nat) (ho : (Primary.setup cfg mem begin_result t).outcome = Outcome.running) :
    rounds (Primary.setup cfg mem begin_result t).effects = 1 ∧
    (Primary.setup cfg mem begin_result t).state.last_reading_update = millis t := by
  simp only [Primary.setup] at ho ⊢
  split_ifs at ho ⊢ with h1
  · exact absurd ho h1
  · constructor
    · simp only [setup_ethernet]
      split_ifs <;>
        simp [rounds_append, rounds_requests, Primary.request_temperatures, rounds,
          Primary.SERVER_NAME]
    · rfl

theorem primary_run_round {D : Type} (cfg : Config D) (ticks : List (Primary.Tick D))
    (s : Primary.State) (started : Nat) (hs : s.last_reading_update = millis started) :
    (Primary.run cfg s ticks).state.last_reading_update =
      millis (Primary.roundStart cfg s started ticks) := by
  induction ticks generalizing s started with
  | nil => exact hs
  | cons k ks ih =>
    have hr := (primary_loop_round cfg k s).2.2
    have hst : (Primary.loop cfg k s).state.last_reading_update =
        millis (if rounds (Primary.loop cfg k s).effects = 0 then started
          else k.millis_request) := by
      rw [hr]
      split_ifs
      · exact hs
      · rfl
    by_cases ho : (Primary.loop cfg k s).outcome = Outcome.running
    · simp only [Primary.run, Primary.roundStart, if_pos ho]
      exact ih _ _ hst
    · simp only [Primary.run, Primary.roundStart, if_neg ho]
      exact hst

theorem primary_execution_round {D : Type} (cfg : Config D) (mem : Mem)
    (begin_result : Int) (t : Nat) (ticks : List (Primary.Tick D))
    (ho : (Primary.execution cfg mem begin_result t ticks).outcome = Outcome.running) :
    (Primary.execution cfg mem begin_result t ticks).state.last_reading_update =
      millis (Primary.roundStart cfg (Primary.setup cfg mem begin_result t).state t ticks) := by
  by_cases hs : (Primary.setup cfg mem begin_result t).outcome = Outcome.running
  · simp only [Primary.execution, if_pos hs]
    exact primary_run_round cfg ticks _ t (primary_setup_round cfg mem begin_result t hs).2
  · simp only [Primary.execution, if_neg hs] at ho
    exact absurd ho hs

/-- C12: the telemetry block fires exactly when `millis() - last_publish`, taken
modulo `2 ^ 32`, is at least `READING_PUBLISH_INTERVAL / sensor_count` (375 for eight
sensors) and `millis() - last_reading_update` is at least the conversion delay. When
it fires it sends the one datagram of the sensor under the cursor and stores the time
in `last_publish`; otherwise it sends nothing and leaves `last_publish` and the cursor.
An iteration of `loop` sends at most one datagram, and when one is sent at least one
conversion delay has passed since the time stored in `last_reading_update`. That time
is the one of the latest conversion round: `request_temperatures` stores the time of
its `millis()` call, `setup` calls it, an iteration calls it exactly when the update
interval has passed and otherwise leaves the field, so after every execution the field
holds the time of the latest `request_temperatures` call; hence whenever the iteration
after an execution sends a datagram, at least one conversion delay has passed since
the latest call of `request_temperatures`, the one of this iteration included. -/
theorem telemetry_gate {D : Type} (cfg : Config D) (k : Primary.Tick D) (s : Primary.State) :
    Primary.READING_PUBLISH_INTERVAL / 8 = 375 ∧
    ((Primary.READING_PUBLISH_INTERVAL / cfg.sensor_count ≤
          sub32 (millis k.millis_interval) (s.last_publish.getD (millis k.millis_init)) ∧
        cfg.DS18B20_CONVERSION_DELAY_MS ≤
          sub32 (millis k.millis_conversion) s.last_reading_update) →
      Primary.publish cfg k s =
        ({ s with last_publish := some (millis k.millis_published),
                  idx := (s.idx + 1) % cfg.sensor_count },
          Primary.datagram cfg s.idx (k.read_publish s.idx)) ∧
      datagrams (Primary.publish cfg k s).2 = 1) ∧
    (¬ (Primary.READING_PUBLISH_INTERVAL / cfg.sensor_count ≤
          sub32 (millis k.millis_interval) (s.last_publish.getD (millis k.millis_init)) ∧
        cfg.DS18B20_CONVERSION_DELAY_MS ≤
          sub32 (millis k.millis_conversion) s.last_reading_update) →
      Primary.publish cfg k s =
        ({ s with last_publish := some (s.last_publish.getD (millis k.millis_init)) }, []) ∧
      datagrams (Primary.publish cfg k s).2 = 0 ∧
      (Primary.publish cfg k s).1.idx = s.idx) ∧
    datagrams (Primary.loop cfg k s).effects ≤ 1 ∧
    (datagrams (Primary.loop cfg k s).effects = 1 ↔
      (Primary.READING_PUBLISH_INTERVAL / cfg.sensor_count ≤
          sub32 (millis k.millis_interval)
            ((Primary.update cfg k s).1.last_publish.getD (millis k.millis_init)) ∧
        cfg.DS18B20_CONVERSION_DELAY_MS ≤
          sub32 (millis k.millis_conversion) (Primary.update cfg k s).1.last_reading_update)) ∧
    (∀ started, started ≤ k.millis_conversion → s.last_reading_update = millis started →
      datagrams (Primary.publish cfg k s).2 = 1 →
      cfg.DS18B20_CONVERSION_DELAY_MS ≤ k.millis_conversion - started) ∧
    (∀ t0 s0, rounds (Primary.request_temperatures cfg t0 s0).2 = 1 ∧
      (Primary.request_temperatures cfg t0 s0).1.last_reading_update = millis t0) ∧
    (∀ mem begin_result t,
      (Primary.setup cfg mem begin_result t).outcome = Outcome.running →
      rounds (Primary.setup cfg mem begin_result t).effects = 1 ∧
      (Primary.setup cfg mem begin_result t).state.last_reading_update = millis t) ∧
    ((rounds (Primary.loop cfg k s).effects = 1 ↔
        Primary.READING_UPDATE_INTERVAL ≤
          sub32 (millis k.millis_update) s.last_reading_update) ∧
      (rounds (Primary.loop cfg k s).effects = 0 ↔
        ¬ Primary.READING_UPDATE_INTERVAL ≤
          sub32 (millis k.millis_update) s.last_reading_update) ∧
      (Primary.loop cfg k s).state.last_reading_update =
        (if rounds (Primary.loop cfg k s).effects = 0 then s.last_reading_update
         else millis k.millis_request)) ∧
    (∀ mem begin_result t pre,
      (Primary.execution cfg mem begin_result t pre).outcome = Outcome.running →
      (Primary.execution cfg mem begin_result t pre).state.last_reading_update =
        millis (Primary.roundStart cfg (Primary.setup cfg mem begin_result t).state t pre) ∧
      (datagrams (Primary.loop cfg k
          (Primary.execution cfg mem begin_result t pre).state).effects = 1 →
        (if rounds (Primary.loop cfg k
            (Primary.execution cfg mem begin_result t pre).state).effects = 0
          then Primary.roundStart cfg (Primary.setup cfg mem begin_result t).state t pre
          else k.millis_request) ≤ k.millis_conversion →
        cfg.DS18B20_CONVERSION_DELAY_MS ≤ k.millis_conversion -
          (if rounds (Primary.loop cfg k
              (Primary.execution cfg mem begin_result t pre).state).effects = 0
            then Primary.roundStart cfg (Primary.setup cfg mem begin_result t).state t pre
            else k.millis_request))) := by
  have hfire : (Primary.READING_PUBLISH_INTERVAL / cfg.sensor_count ≤
          sub32 (millis k.millis_interval) (s.last_publish.getD (millis k.millis_init)) ∧
        cfg.DS18B20_CONVERSION_DELAY_MS ≤
          sub32 (millis k.millis_conversion) s.last_reading_update) →
      Primary.publish cfg k s =
        ({ s with last_publish := some (millis k.millis_published),
                  idx := (s.idx + 1) % cfg.sensor_count },
          Primary.datagram cfg s.idx (k.read_publish s.idx)) := by
    intro h
    simp only [Primary.publish, if_pos h]
  have hskip : ¬ (Primary.READING_PUBLISH_INTERVAL / cfg.sensor_count ≤
          sub32 (millis k.millis_interval) (s.last_publish.getD (millis k.millis_init)) ∧
        cfg.DS18B20_CONVERSION_DELAY_MS ≤
          sub32 (millis k.millis_conversion) s.last_reading_update) →
      Primary.publish cfg k s =
        ({ s with last_publish := some (s.last_publish.getD (millis k.millis_init)) }, []) := by
    intro h
    simp only [Primary.publish, if_neg h]
  refine ⟨by decide, fun h => ⟨hfire h, by rw [hfire h]; rfl⟩,
    fun h => ⟨hskip h, by rw [hskip h]; rfl, by rw [hskip h]⟩, ?_, ?_, ?_,
    fun t0 s0 => rounds_request_temperatures cfg t0 s0,
    fun mem begin_result t ho => primary_setup_round cfg mem begin_result t ho,
    primary_loop_round cfg k s, ?_⟩
  · rw [primary_loop_datagrams]
    simp only [Primary.publish]
    split_ifs
    · exact Nat.le_refl _
    · exact Nat.zero_le _
  · rw [primary_loop_datagrams]
    simp only [Primary.publish]
    split_ifs with h
    · exact ⟨fun _ => h, fun _ => rfl⟩
    · exact ⟨fun e => absurd e (Nat.zero_ne_one), fun e => absurd e h⟩
  · intro started hle hst hd
    by_cases h : (Primary.READING_PUBLISH_INTERVAL / cfg.sensor_count ≤
          sub32 (millis k.millis_interval) (s.last_publish.getD (millis k.millis_init)) ∧
        cfg.DS18B20_CONVERSION_DELAY_MS ≤
          sub32 (millis k.millis_conversion) s.last_reading_update)
    · have h2 := h.2
      rw [hst] at h2
      exact Nat.le_trans h2 (sub32_le_elapsed _ _ hle)
    · rw [hskip h] at hd
      exact absurd hd (Nat.zero_ne_one)
  · intro mem begin_result t pre ho
    have he := primary_execution_round cfg mem begin_result t pre ho
    refine ⟨he, ?_⟩
    intro hd hle
    have hr := (primary_loop_round cfg k
      (Primary.execution cfg mem begin_result t pre).state).2.2
    have hu := (primary_loop_rounds cfg k
      (Primary.execution cfg mem begin_result t pre).state).2
    have hst : (Primary.update cfg k
        (Primary.execution cfg mem begin_result t pre).state).1.last_reading_update =
        millis (if rounds (Primary.loop cfg k
            (Primary.execution cfg mem begin_result t pre).state).effects = 0
          then Primary.roundStart cfg (Primary.setup cfg mem begin_result t).state t pre
          else k.millis_request) := by
      rw [← hu, hr]
      split_ifs
      · exact he
      · rfl
    rw [primary_loop_datagrams] at hd
    simp only [Primary.publish] at hd
    split_ifs at hd with h
    · have h2 := h.2
      rw [hst] at h2
      exact Nat.le_trans h2 (sub32_le_elapsed _ _ hle)
    · exact absurd hd (Nat.zero_ne_one)

/-! ## C13: the datagram -/

/-- C13: for every cursor value and every reading the telemetry block, when it sends,
sends one datagram to 224.0.1.80 port 1880 whose payload is the byte 80, the topic
`celsius/celsius/<display name>/temperature`, one zero byte and the printed reading,
with nothing before or after; the display name and the reading are those of the same
sensor, the one under the cursor. -/
theorem datagram_payload {D : Type} (cfg : Config D) (k : Primary.Tick D) (s : Primary.State)
    (idx : Nat) (t : D) :
    destinations (Primary.datagram cfg idx t) = [([224, 0, 1, 80], 1880)] ∧
    payload cfg.print_double (Primary.datagram cfg idx t) =
      some ([80] ++ cbytes "celsius/celsius/" ++ cfg.sensor_names idx ++
        cbytes "/temperature" ++ [0] ++ cfg.print_double t) ∧
    (Primary.datagram cfg idx t).head? = some (Effect.udp_beginPacket [224, 0, 1, 80] 1880) ∧
    (Primary.datagram cfg idx t).getLast? = some Effect.udp_endPacket ∧
    datagrams (Primary.datagram cfg idx t) = 1 ∧
    published (Primary.datagram cfg idx t) = [idx] ∧
    ((Primary.publish cfg k s).2 = [] ∨
      (Primary.publish cfg k s).2 = Primary.datagram cfg s.idx (k.read_publish s.idx)) := by
  have hp : cbytes Primary.PICOMQ_TOPIC_PREFIX = cbytes "celsius/celsius/" := by decide
  refine ⟨rfl, ?_, rfl, rfl, rfl, rfl, ?_⟩
  · simp only [Primary.datagram, payload, Data.text, hp, Primary.PICOMQ_TOPIC_SUFFIX,
      List.append_assoc, List.singleton_append, List.cons_append, List.nil_append,
      List.append_nil]
  · simp only [Primary.publish]
    split_ifs
    · exact Or.inr rfl
    · exact Or.inl rfl

/-! ## C14: the link supervisor -/

theorem restarts_append {D : Type} (a b : List (Effect D)) :
    restarts (a ++ b) = restarts a + restarts b := by
  induction a with
  | nil => simp [restarts]
  | cons e es ih =>
    cases e <;> simp only [List.cons_append, List.append_eq, restarts, ih]
    omega

theorem restarts_http {D : Type} (l : List (Event D)) :
    restarts (l.map Effect.http) = 0 := by
  induction l with
  | nil => rfl
  | cons e es ih => simpa [restarts] using ih

theorem restarts_requests {D : Type} (l : List Nat) :
    restarts (l.map (fun i => (Effect.ev (Event.request_temperature i) : Effect D))) = 0 := by
  induction l with
  | nil => rfl
  | cons e es ih => simpa [restarts] using ih

theorem restarts_update {D : Type} (cfg : Config D) (k : Primary.Tick D) (s : Primary.State) :
    restarts (Primary.update cfg k s).2 = 0 := by
  unfold Primary.update
  split_ifs
  · simp [Primary.request_temperatures, restarts_append, restarts_requests, restarts]
  · rfl

theorem restarts_publish {D : Type} (cfg : Config D) (k : Primary.Tick D) (s : Primary.State) :
    restarts (Primary.publish cfg k s).2 = 0 := by
  simp only [Primary.publish]
  split_ifs <;> rfl

theorem check_link_cases {D : Type} (link_on : Bool) :
    (link_on = false →
      (check_link link_on : List (Effect D) × Outcome) =
        ([Effect.log "Conn lost", Effect.reset], Outcome.restarted)) ∧
    (link_on = true →
      (check_link link_on : List (Effect D) × Outcome) = ([], Outcome.running)) := by
  cases link_on <;> simp [check_link]

theorem handle_dhcp_cases {D : Type} (maintain : Int) :
    (maintain = 1 →
      (handle_dhcp maintain : List (Effect D) × Outcome) =
        ([Effect.log "Renew fail", Effect.reset], Outcome.restarted)) ∧
    (maintain = 3 →
      (handle_dhcp maintain : List (Effect D) × Outcome) =
        ([Effect.log "Rebind fail", Effect.reset], Outcome.restarted)) ∧
    (maintain = 2 ∨ maintain = 4 →
      (handle_dhcp maintain : List (Effect D) × Outcome) =
        ([Effect.print_ip], Outcome.running)) ∧
    (maintain ≠ 1 → maintain ≠ 2 → maintain ≠ 3 → maintain ≠ 4 →
      (handle_dhcp maintain : List (Effect D) × Outcome) = ([], Outcome.running)) := by
  refine ⟨?_, ?_, ?_, ?_⟩
  · intro h; subst h; rfl
  · intro h; subst h; rfl
  · intro h; rcases h with h | h <;> subst h <;> rfl
  · intro h1 h2 h3 h4
    simp only [handle_dhcp, if_neg h1, if_neg h2, if_neg h3, if_neg h4]

theorem handle_dhcp_running {D : Type} (maintain : Int) (h1 : maintain ≠ 1) (h3 : maintain ≠ 3) :
    (handle_dhcp maintain : List (Effect D) × Outcome).2 = Outcome.running ∧
    restarts (handle_dhcp maintain : List (Effect D) × Outcome).1 = 0 := by
  simp only [handle_dhcp, if_neg h1, if_neg h3]
  split_ifs <;> exact ⟨rfl, rfl⟩

theorem primary_loop_link_down {D : Type} (cfg : Config D) (k : Primary.Tick D)
    (s : Primary.State) (h : k.link_on = false) :
    (Primary.loop cfg k s).effects =
      [Effect.wdt_reset] ++ (Primary.update cfg k s).2 ++
        (Primary.publish cfg k (Primary.update cfg k s).1).2 ++
        [Effect.log "Conn lost", Effect.reset] ∧
    (Primary.loop cfg k s).outcome = Outcome.restarted := by
  have hl := (check_link_cases (D := D) k.link_on).1 h
  simp only [Primary.loop, hl]
  exact ⟨rfl, rfl⟩

theorem primary_loop_lease_failed {D : Type} (cfg : Config D) (k : Primary.Tick D)
    (s : Primary.State) (h : k.link_on = true) (hm : k.maintain = 1 ∨ k.maintain = 3) :
    (Primary.loop cfg k s).effects =
      [Effect.wdt_reset] ++ (Primary.update cfg k s).2 ++
        (Primary.publish cfg k (Primary.update cfg k s).1).2 ++
        [Effect.log (if k.maintain = 1 then "Renew fail" else "Rebind fail"), Effect.reset] ∧
    (Primary.loop cfg k s).outcome = Outcome.restarted := by
  have hl := (check_link_cases (D := D) k.link_on).2 h
  rcases hm with hm | hm
  · have hd := (handle_dhcp_cases (D := D) k.maintain).1 hm
    simp only [Primary.loop, hl, hd]
    simp [hm]
  · have hd := (handle_dhcp_cases (D := D) k.maintain).2.1 hm
    simp only [Primary.loop, hl, hd]
    simp [hm]

theorem primary_loop_no_restart {D : Type} (cfg : Config D) (k : Primary.Tick D)
    (s : Primary.State) (h : k.link_on = true) (h1 : k.maintain ≠ 1) (h3 : k.maintain ≠ 3) :
    restarts (Primary.loop cfg k s).effects = 0 ∧
    (Primary.loop cfg k s).outcome = Outcome.running := by
  have hl := (check_link_cases (D := D) k.link_on).2 h
  have hd := handle_dhcp_running (D := D) k.maintain h1 h3
  have hu := restarts_update cfg k s
  have hp := restarts_publish cfg k (Primary.update cfg k s).1
  simp only [Primary.loop, hl, hd.1]
  simp [restarts_append, restarts_http, hu, hp, hd.2, restarts]

theorem pir_loop_link_down {D : Type} (cfg : Config D) (k : Pir.Tick D)
    (s : Pir.State) (h : k.link_on = false) :
    (Pir.loop cfg k s).effects = [Effect.wdt_reset, Effect.log "Conn lost", Effect.reset] ∧
    (Pir.loop cfg k s).outcome = Outcome.restarted := by
  have hl := (check_link_cases (D := D) k.link_on).1 h
  simp only [Pir.loop, hl]
  exact ⟨rfl, rfl⟩

theorem pir_loop_lease_failed {D : Type} (cfg : Config D) (k : Pir.Tick D)
    (s : Pir.State) (h : k.link_on = true) (hm : k.maintain = 1 ∨ k.maintain = 3) :
    (Pir.loop cfg k s).effects =
      [Effect.wdt_reset,
        Effect.log (if k.maintain = 1 then "Renew fail" else "Rebind fail"), Effect.reset] ∧
    (Pir.loop cfg k s).outcome = Outcome.restarted := by
  have hl := (check_link_cases (D := D) k.link_on).2 h
  rcases hm with hm | hm
  · have hd := (handle_dhcp_cases (D := D) k.maintain).1 hm
    simp only [Pir.loop, hl, hd]
    simp [hm]
  · have hd := (handle_dhcp_cases (D := D) k.maintain).2.1 hm
    simp only [Pir.loop, hl, hd]
    simp [hm]

theorem pir_loop_no_restart {D : Type} (cfg : Config D) (k : Pir.Tick D)
    (s : Pir.State) (h : k.link_on = true) (h1 : k.maintain ≠ 1) (h3 : k.maintain ≠ 3) :
    restarts (Pir.loop cfg k s).effects = 0 ∧
    (Pir.loop cfg k s).outcome ≠ Outcome.restarted := by
  have hl := (check_link_cases (D := D) k.link_on).2 h
  have hd := handle_dhcp_running (D := D) k.maintain h1 h3
  simp only [Pir.loop, hl, hd.1]
  constructor
  · simp only [ne_eq, not_true_eq_false, if_false, restarts_append, restarts_http, hd.2]
    split_ifs <;> rfl
  · simp only [ne_eq, not_true_eq_false, if_false, Pir.liveness]
    split_ifs <;> decide

theorem primary_run_stops {D : Type} (cfg : Config D) (k : Primary.Tick D)
    (ks : List (Primary.Tick D)) (s : Primary.State)
    (h : (Primary.loop cfg k s).outcome ≠ Outcome.running) :
    Primary.run cfg s (k :: ks) = Primary.loop cfg k s := by
  simp only [Primary.run, if_neg h]

theorem pir_run_stops {D : Type} (cfg : Config D) (k : Pir.Tick D)
    (ks : List (Pir.Tick D)) (s : Pir.State)
    (h : (Pir.loop cfg k s).outcome ≠ Outcome.running) :
    Pir.run cfg s (k :: ks) = Pir.loop cfg k s := by
  simp only [Pir.run, if_neg h]

theorem restarts_snoc_reset {D : Type} (a : List (Effect D)) (m : String) :
    (a ++ [Effect.log m, Effect.reset]).getLast? = some Effect.reset ∧
    restarts (a ++ [Effect.log m, Effect.reset]) = restarts a + 1 := by
  constructor
  · rw [List.getLast?_append]
    rfl
  · rw [restarts_append]
    rfl

/-- C14: `handle_dhcp` restarts, once, exactly for the results 1 (renew failed) and 3
(rebind failed), only logs the address for 2 and 4 and does nothing otherwise;
`check_link` restarts, once, exactly when the link is not up. In both variants an
iteration of `loop` whose link is down or whose lease maintenance failed ends with
the one `reset()` call as its last effect, and the run ends with that iteration; an
iteration with the link up and no failed lease result invokes no restart. -/
theorem link_supervisor_restarts {D : Type} (cfg : Config D) (maintain : Int) (link_on : Bool)
    (kp : Primary.Tick D) (sp : Primary.State) (ksp : List (Primary.Tick D))
    (kq : Pir.Tick D) (sq : Pir.State) (ksq : List (Pir.Tick D)) :
    ((maintain = 1 →
        (handle_dhcp maintain : List (Effect D) × Outcome) =
          ([Effect.log "Renew fail", Effect.reset], Outcome.restarted)) ∧
      (maintain = 3 →
        (handle_dhcp maintain : List (Effect D) × Outcome) =
          ([Effect.log "Rebind fail", Effect.reset], Outcome.restarted)) ∧
      (maintain = 2 ∨ maintain = 4 →
        (handle_dhcp maintain : List (Effect D) × Outcome) =
          ([Effect.print_ip], Outcome.running)) ∧
      (maintain ≠ 1 → maintain ≠ 2 → maintain ≠ 3 → maintain ≠ 4 →
        (handle_dhcp maintain : List (Effect D) × Outcome) = ([], Outcome.running))) ∧
    (restarts (handle_dhcp maintain : List (Effect D) × Outcome).1 =
      if maintain = 1 ∨ maintain = 3 then 1 else 0) ∧
    ((check_link link_on : List (Effect D) × Outcome) =
      if link_on = true then ([], Outcome.running)
      else ([Effect.log "Conn lost", Effect.reset], Outcome.restarted)) ∧
    (restarts (check_link link_on : List (Effect D) × Outcome).1 =
      if link_on = true then 0 else 1) ∧
    ((kp.link_on = false ∨ kp.maintain = 1 ∨ kp.maintain = 3) →
      (Primary.loop cfg kp sp).effects.getLast? = some Effect.reset ∧
      restarts (Primary.loop cfg kp sp).effects = 1 ∧
      (Primary.loop cfg kp sp).outcome = Outcome.restarted ∧
      Primary.run cfg sp (kp :: ksp) = Primary.loop cfg kp sp) ∧
    (kp.link_on = true → kp.maintain ≠ 1 → kp.maintain ≠ 3 →
      restarts (Primary.loop cfg kp sp).effects = 0 ∧
      (Primary.loop cfg kp sp).outcome = Outcome.running) ∧
    ((kq.link_on = false ∨ kq.maintain = 1 ∨ kq.maintain = 3) →
      (Pir.loop cfg kq sq).effects.getLast? = some Effect.reset ∧
      restarts (Pir.loop cfg kq sq).effects = 1 ∧
      (Pir.loop cfg kq sq).outcome = Outcome.restarted ∧
      Pir.run cfg sq (kq :: ksq) = Pir.loop cfg kq sq) ∧
    (kq.link_on = true → kq.maintain ≠ 1 → kq.maintain ≠ 3 →
      restarts (Pir.loop cfg kq sq).effects = 0 ∧
      (Pir.loop cfg kq sq).outcome ≠ Outcome.restarted) := by
  refine ⟨handle_dhcp_cases maintain, ?_, ?_, ?_, ?_,
    fun h h1 h3 => primary_loop_no_restart cfg kp sp h h1 h3, ?_,
    fun h h1 h3 => pir_loop_no_restart cfg kq sq h h1 h3⟩
  · by_cases h1 : maintain = 1
    · rw [(handle_dhcp_cases (D := D) maintain).1 h1, if_pos (Or.inl h1)]; rfl
    by_cases h3 : maintain = 3
    · rw [(handle_dhcp_cases (D := D) maintain).2.1 h3, if_pos (Or.inr h3)]; rfl
    rw [(handle_dhcp_running (D := D) maintain h1 h3).2, if_neg (by tauto)]
  · cases link_on <;> rfl
  · cases link_on <;> rfl
  · intro h
    have hu := restarts_update cfg kp sp
    have hp := restarts_publish cfg kp (Primary.update cfg kp sp).1
    have key : ∃ m, (Primary.loop cfg kp sp).effects =
        ([Effect.wdt_reset] ++ (Primary.update cfg kp sp).2 ++
          (Primary.publish cfg kp (Primary.update cfg kp sp).1).2) ++
          [Effect.log m, Effect.reset] ∧
        (Primary.loop cfg kp sp).outcome = Outcome.restarted := by
      by_cases hl : kp.link_on = false
      · exact ⟨_, primary_loop_link_down cfg kp sp hl⟩
      · have hl : kp.link_on = true := by simpa using hl
        have hm : kp.maintain = 1 ∨ kp.maintain = 3 := by
          rcases h with h | h
          · rw [hl] at h; exact absurd h (by decide)
          · exact h
        exact ⟨_, primary_loop_lease_failed cfg kp sp hl hm⟩
    obtain ⟨m, he, ho⟩ := key
    refine ⟨?_, ?_, ho, primary_run_stops cfg kp ksp sp (by rw [ho]; decide)⟩
    · rw [he]; exact (restarts_snoc_reset _ m).1
    · rw [he, (restarts_snoc_reset _ m).2, restarts_append, restarts_append, hu, hp]; rfl
  · intro h
    have key : ∃ m, (Pir.loop cfg kq sq).effects =
        [Effect.wdt_reset] ++ [Effect.log m, Effect.reset] ∧
        (Pir.loop cfg kq sq).outcome = Outcome.restarted := by
      by_cases hl : kq.link_on = false
      · exact ⟨_, pir_loop_link_down cfg kq sq hl⟩
      · have hl : kq.link_on = true := by simpa using hl
        have hm : kq.maintain = 1 ∨ kq.maintain = 3 := by
          rcases h with h | h
          · rw [hl] at h; exact absurd h (by decide)
          · exact h
        exact ⟨_, pir_loop_lease_failed cfg kq sq hl hm⟩
    obtain ⟨m, he, ho⟩ := key
    refine ⟨?_, ?_, ho, pir_run_stops cfg kq ksq sq (by rw [ho]; decide)⟩
    · rw [he]; exact (restarts_snoc_reset _ m).1
    · rw [he, (restarts_snoc_reset _ m).2]; rfl

/-! ## C15: the liveness timeout -/

theorem presence_keeps {D : Type} (k : Pir.Tick D) (s : Pir.State) :
    (Pir.presence k s).last_http_client = s.last_http_client ∧
    (Pir.presence k s).buffer = s.buffer := by
  unfold Pir.presence
  split_ifs <;> exact ⟨rfl, rfl⟩

theorem pir_handle_http_ret {D : Type} (cfg : Config D) (pir_status : Bool) (read : Nat → D)
    (available : Option (List Int)) (mem : Mem) :
    (Pir.handle_http cfg pir_status read available mem).ret = available.isSome := by
  cases available <;> rfl

theorem primary_handle_http_ret {D : Type} (cfg : Config D) (now last : Nat) (read : Nat → D)
    (available : Option (List Int)) (mem : Mem) :
    (Primary.handle_http cfg now last read available mem).ret = available.isSome := by
  cases available <;> rfl

/-- An iteration of the PIR `loop` that is not cut short by a restart: its outcome and
its `last_http_client` are those of the liveness block. -/
theorem pir_loop_liveness {D : Type} (cfg : Config D) (k : Pir.Tick D) (s : Pir.State)
    (hl : k.link_on = true) (h1 : k.maintain ≠ 1) (h3 : k.maintain ≠ 3) :
    (Pir.loop cfg k s).outcome =
      (Pir.liveness k k.available.isSome s.last_http_client).2 ∧
    (Pir.loop cfg k s).state.last_http_client =
      (Pir.liveness k k.available.isSome s.last_http_client).1 ∧
    (Pir.loop cfg k s).effects =
      [Effect.wdt_reset] ++ (handle_dhcp k.maintain : List (Effect D) × Outcome).1 ++
        (Pir.handle_http cfg (Pir.presence k s).pir_status k.read k.available
          s.buffer).events.map Effect.http ++
        (if (Pir.liveness k k.available.isSome s.last_http_client).2 = Outcome.spinning
          then [Effect.spin] else []) := by
  have hc := (check_link_cases (D := D) k.link_on).2 hl
  have hd := handle_dhcp_running (D := D) k.maintain h1 h3
  have hp := presence_keeps k s
  simp only [Pir.loop, hc, hd.1, pir_handle_http_ret, hp.1, hp.2]
  simp

theorem sub32_real_gap (a b : Nat) (h : b ≤ a) (hlt : a - b < 2 ^ 32) :
    sub32 (millis a) (millis b) = a - b := by
  rw [sub32_millis a b h]
  exact Nat.mod_eq_of_lt hlt

/-- C15: in the PIR variant (`REBOOT_TIMEOUT` is 900000 ms), in an iteration of `loop`
that reaches the liveness block: when a client was handled, `last_http_client`
becomes the current time and the loop goes on; otherwise `last_http_client` keeps its
value and the program enters the terminal spin exactly when `millis() -
last_http_client`, modulo `2 ^ 32`, exceeds the timeout. The spin is the last effect
of the run: no further iteration runs and the watchdog is not serviced again. In
terms of the time since the last handled client: no spin while it is at most the
timeout, spin at the first check where it exceeds the timeout (and is below
`2 ^ 32` ms). -/
theorem liveness_timeout {D : Type} (cfg : Config D) (k : Pir.Tick D) (s : Pir.State)
    (ks : List (Pir.Tick D))
    (hl : k.link_on = true) (h1 : k.maintain ≠ 1) (h3 : k.maintain ≠ 3) :
    Pir.REBOOT_TIMEOUT = 15 * 60 * 1000 ∧
    (k.available ≠ none →
      (Pir.loop cfg k s).state.last_http_client = some (millis k.millis_handled) ∧
      (Pir.loop cfg k s).outcome = Outcome.running) ∧
    (k.available = none →
      (Pir.loop cfg k s).state.last_http_client =
        some (s.last_http_client.getD (millis k.millis_init)) ∧
      ((Pir.loop cfg k s).outcome = Outcome.spinning ↔
        Pir.REBOOT_TIMEOUT <
          sub32 (millis k.millis_check) (s.last_http_client.getD (millis k.millis_init))) ∧
      ((Pir.loop cfg k s).outcome ≠ Outcome.spinning →
        (Pir.loop cfg k s).outcome = Outcome.running)) ∧
    ((Pir.loop cfg k s).outcome = Outcome.spinning →
      (Pir.loop cfg k s).effects.getLast? = some Effect.spin ∧
      Pir.run cfg s (k :: ks) = Pir.loop cfg k s) ∧
    (∀ last, s.last_http_client = some (millis last) → last ≤ k.millis_check →
      k.available = none →
      (k.millis_check - last ≤ Pir.REBOOT_TIMEOUT →
        (Pir.loop cfg k s).outcome = Outcome.running) ∧
      (Pir.REBOOT_TIMEOUT < k.millis_check - last → k.millis_check - last < 2 ^ 32 →
        (Pir.loop cfg k s).outcome = Outcome.spinning)) := by
  have hv := pir_loop_liveness cfg k s hl h1 h3
  have hnone : k.available = none →
      (Pir.loop cfg k s).state.last_http_client =
        some (s.last_http_client.getD (millis k.millis_init)) ∧
      ((Pir.loop cfg k s).outcome = Outcome.spinning ↔
        Pir.REBOOT_TIMEOUT <
          sub32 (millis k.millis_check) (s.last_http_client.getD (millis k.millis_init))) ∧
      ((Pir.loop cfg k s).outcome ≠ Outcome.spinning →
        (Pir.loop cfg k s).outcome = Outcome.running) := by
    intro ha
    rw [hv.1, hv.2.1, ha]
    simp only [Pir.liveness, Option.isSome_none, Bool.false_eq_true, if_false]
    split_ifs with hc
    · exact ⟨rfl, ⟨fun _ => hc, fun _ => rfl⟩, fun h => absurd rfl h⟩
    · exact ⟨rfl, ⟨fun h => absurd h (by decide), fun h => absurd h hc⟩, fun _ => rfl⟩
  refine ⟨rfl, ?_, hnone, ?_, ?_⟩
  · intro ha
    obtain ⟨c, hc⟩ := Option.ne_none_iff_exists'.mp ha
    rw [hv.1, hv.2.1, hc]
    simp [Pir.liveness]
  · intro hs
    refine ⟨?_, pir_run_stops cfg k ks s (by rw [hs]; decide)⟩
    rw [hv.2.2, if_pos (by rw [← hv.1]; exact hs), List.getLast?_append]
    rfl
  · intro last hlast hle ha
    have hn := hnone ha
    rw [hlast, Option.getD_some] at hn
    constructor
    · intro hgap
      apply hn.2.2
      intro hs
      have := hn.2.1.mp hs
      have hb := sub32_le_elapsed _ _ hle
      omega
    · intro hgap hlt
      apply hn.2.1.mpr
      rw [sub32_real_gap _ _ hle hlt]
      exact hgap

/-- C15, witness: no client for 900001 ms after the last one at 1000 ms. -/
theorem liveness_timeout_witness :
    (Pir.sampleTick 901001 false none).link_on = true ∧
    (Pir.sampleTick 901001 false none).maintain ≠ 1 ∧
    (Pir.sampleTick 901001 false none).maintain ≠ 3 ∧
    (Pir.loop (sampleConfig ["A", "B"]) (Pir.sampleTick 901001 false none)
      ⟨false, 0, some 1000, dirty⟩).outcome = Outcome.spinning ∧
    (Pir.loop (sampleConfig ["A", "B"]) (Pir.sampleTick 901000 false none)
      ⟨false, 0, some 1000, dirty⟩).outcome = Outcome.running :=
  ⟨by decide, by decide, by decide,
    ((liveness_timeout (sampleConfig ["A", "B"]) (Pir.sampleTick 901001 false none)
      ⟨false, 0, some 1000, dirty⟩ [] (by decide) (by decide) (by decide)).2.2.1
        (by decide)).2.1.mpr (by decide),
    by decide⟩

/-! ## C16: the delay of the primary JSON route -/

theorem delays_append {D : Type} (a b : List (Event D)) :
    delays (a ++ b) = delays a ++ delays b := by
  induction a with
  | nil => rfl
  | cons e es ih => cases e <;> simp [delays, ih]

theorem reads_append {D : Type} (a b : List (Event D)) :
    reads (a ++ b) = reads a ++ reads b := by
  induction a with
  | nil => rfl
  | cons e es ih => cases e <;> simp [reads, ih]

theorem delays_send_headers {D : Type} (server_name : String) (code : Nat)
    (content_type : Option (List Nat)) :
    delays (send_headers server_name code content_type : List (Event D)) = [] ∧
    reads (send_headers server_name code content_type : List (Event D)) = [] := by
  cases content_type <;> by_cases h : code < 300 <;>
    simp [send_headers, send_F, send_data, delays, reads, h]

theorem delays_json_entries {D : Type} (cfg : Config D) (read : Nat → D) (n : Nat) :
    delays ((List.range n).flatMap (Primary.json_entry cfg read)) = [] ∧
    reads ((List.range n).flatMap (Primary.json_entry cfg read)) = List.range n := by
  induction n with
  | zero => exact ⟨rfl, rfl⟩
  | succ n ih =>
    rw [List.range_succ, List.flatMap_append, delays_append, reads_append, ih.1, ih.2,
      List.flatMap_singleton]
    constructor
    · by_cases h : n > 0 <;> by_cases c : cfg.isnan (read n) = true <;>
        simp [Primary.json_entry, send_F, send_data, delays, h, c]
    · by_cases h : n > 0 <;> by_cases c : cfg.isnan (read n) = true <;>
        simp [Primary.json_entry, send_F, send_data, reads, h, c]

/-- C16: with `elapsed` the value of `millis() - last_reading_update` modulo `2 ^ 32`,
the primary `serve_measurements_json` requests one delay of `D - elapsed` ms when
`elapsed < D` and none otherwise, always before the first sensor is read; the delay
never exceeds `D`; and when the clock at a read is at least the clock of the
`millis()` call plus the requested delay, at least `D` ms have passed since the start
of the conversion round. -/
theorem json_conversion_delay {D : Type} (cfg : Config D) (now last : Nat) (read : Nat → D) :
    (sub32 now last < cfg.DS18B20_CONVERSION_DELAY_MS →
      delays (Primary.serve_measurements_json cfg now last read) =
        [cfg.DS18B20_CONVERSION_DELAY_MS - sub32 now last]) ∧
    (cfg.DS18B20_CONVERSION_DELAY_MS ≤ sub32 now last →
      delays (Primary.serve_measurements_json cfg now last read) = []) ∧
    (∀ d ∈ delays (Primary.serve_measurements_json cfg now last read),
      0 < d ∧ d ≤ cfg.DS18B20_CONVERSION_DELAY_MS) ∧
    (∃ pre post, Primary.serve_measurements_json cfg now last read =
        pre ++
          (if sub32 now last < cfg.DS18B20_CONVERSION_DELAY_MS
           then [Event.delay (cfg.DS18B20_CONVERSION_DELAY_MS - sub32 now last)] else []) ++
          post ∧
      reads pre = [] ∧ delays pre = [] ∧ delays post = [] ∧
      reads post = List.range cfg.sensor_count) ∧
    (∀ started t_now t_read, started ≤ t_now → last = millis started → now = millis t_now →
      t_now ≤ t_read →
      (∀ d ∈ delays (Primary.serve_measurements_json cfg now last read), t_now + d ≤ t_read) →
      cfg.DS18B20_CONVERSION_DELAY_MS ≤ t_read - started) := by
  have hh := delays_send_headers (D := D) Primary.SERVER_NAME 200
    (some (cbytes "application/json"))
  have he := delays_json_entries cfg read cfg.sensor_count
  have hd : delays (Primary.serve_measurements_json cfg now last read) =
      if sub32 now last < cfg.DS18B20_CONVERSION_DELAY_MS
      then [cfg.DS18B20_CONVERSION_DELAY_MS - sub32 now last] else [] := by
    simp only [Primary.serve_measurements_json, delays_append, hh.1, he.1]
    split_ifs <;> simp [send_F, send_data, delays]
  refine ⟨fun h => by rw [hd, if_pos h], fun h => by rw [hd, if_neg (Nat.not_lt.mpr h)],
    ?_, ?_, ?_⟩
  · intro d hmem
    rw [hd] at hmem
    split_ifs at hmem with h
    · rw [List.mem_singleton] at hmem
      omega
    · exact absurd hmem (List.not_mem_nil _)
  · refine ⟨send_headers Primary.SERVER_NAME 200 (some (cbytes "application/json")) ++
      send_F "\x7b",
      (List.range cfg.sensor_count).flatMap (Primary.json_entry cfg read) ++ send_F "\x7d",
      ?_, ?_, ?_, ?_, ?_⟩
    · simp only [Primary.serve_measurements_json, List.append_assoc]
    · rw [reads_append, hh.2]; rfl
    · rw [delays_append, hh.1]; rfl
    · rw [delays_append, he.1]; rfl
    · rw [reads_append, he.2]; simp [send_F, send_data, reads]
  · intro started t_now t_read hst hlast hnow hle hwait
    have hb : sub32 now last ≤ t_now - started := by
      rw [hlast, hnow]
      exact sub32_le_elapsed _ _ hst
    by_cases h : sub32 now last < cfg.DS18B20_CONVERSION_DELAY_MS
    · have hw := hwait (cfg.DS18B20_CONVERSION_DELAY_MS - sub32 now last)
        (by rw [hd, if_pos h]; exact List.mem_singleton.mpr rfl)
      omega
    · omega

/-! ## C17: the presence flag -/

theorem pir_loop_presence {D : Type} (cfg : Config D) (k : Pir.Tick D) (s : Pir.State) :
    (Pir.loop cfg k s).state.pir_status = (Pir.presence k s).pir_status ∧
    (Pir.loop cfg k s).state.last_pir_active_time =
      (Pir.presence k s).last_pir_active_time := by
  simp only [Pir.loop]
  split_ifs <;> exact ⟨rfl, rfl⟩

theorem presence_cases {D : Type} (k : Pir.Tick D) (s : Pir.State) :
    (k.pir_low = true →
      (Pir.presence k s).pir_status = true ∧
      (Pir.presence k s).last_pir_active_time = millis k.millis_active) ∧
    (k.pir_low = false → s.pir_status = true →
      Pir.PIR_HOLD_TIME < sub32 (millis k.millis_hold) s.last_pir_active_time →
      (Pir.presence k s).pir_status = false ∧
      (Pir.presence k s).last_pir_active_time = s.last_pir_active_time) ∧
    (k.pir_low = false →
      ¬ (s.pir_status = true ∧
        Pir.PIR_HOLD_TIME < sub32 (millis k.millis_hold) s.last_pir_active_time) →
      Pir.presence k s = s) := by
  refine ⟨?_, ?_, ?_⟩
  · intro h
    simp only [Pir.presence, h, if_true]
    exact ⟨trivial, trivial⟩
  · intro h hs hh
    have hc : s.pir_status = true ∧
        Pir.PIR_HOLD_TIME < sub32 (millis k.millis_hold) s.last_pir_active_time := ⟨hs, hh⟩
    simp only [Pir.presence, h, Bool.false_eq_true, if_false, if_pos hc]
    exact ⟨trivial, trivial⟩
  · intro h hn
    simp only [Pir.presence, h, Bool.false_eq_true, if_false, if_neg hn]

theorem presence_inactive_true {D : Type} (k : Pir.Tick D) (s : Pir.State)
    (h : k.pir_low = false) (ht : (Pir.presence k s).pir_status = true) :
    s.pir_status = true ∧
    (Pir.presence k s).last_pir_active_time = s.last_pir_active_time := by
  by_cases hc : s.pir_status = true ∧
      Pir.PIR_HOLD_TIME < sub32 (millis k.millis_hold) s.last_pir_active_time
  · have := ((presence_cases k s).2.1 h hc.1 hc.2).1
    rw [this] at ht
    exact absurd ht (by decide)
  · have e := (presence_cases k s).2.2 h hc
    rw [e] at ht ⊢
    exact ⟨ht, rfl⟩

theorem pir_run_presence {D : Type} (cfg : Config D) (ticks : List (Pir.Tick D))
    (s : Pir.State) (ht : (Pir.run cfg s ticks).state.pir_status = true) :
    ((∀ q ∈ Pir.executed cfg s ticks, q.pir_low = false) ∧ s.pir_status = true ∧
      (Pir.run cfg s ticks).state.last_pir_active_time = s.last_pir_active_time) ∨
    (∃ pre k post, Pir.executed cfg s ticks = pre ++ k :: post ∧ k.pir_low = true ∧
      (∀ q ∈ post, q.pir_low = false) ∧
      (Pir.run cfg s ticks).state.last_pir_active_time = millis k.millis_active) := by
  induction ticks generalizing s with
  | nil =>
    left
    exact ⟨fun q hq => absurd hq (List.not_mem_nil _), ht, rfl⟩
  | cons k ks ih =>
    have hp := pir_loop_presence cfg k s
    by_cases ho : (Pir.loop cfg k s).outcome = Outcome.running
    · simp only [Pir.run, Pir.executed, if_pos ho] at ht ⊢
      rcases ih (Pir.loop cfg k s).state ht with ⟨hall, hst, hlast⟩ | ⟨pre, k1, post, he, hk, hpost, hlast⟩
      · by_cases hlow : k.pir_low = true
        · right
          refine ⟨[], k, _, rfl, hlow, hall, ?_⟩
          rw [hlast, hp.2]
          exact ((presence_cases k s).1 hlow).2
        · have hlow : k.pir_low = false := by simpa using hlow
          rw [hp.1] at hst
          have hi := presence_inactive_true k s hlow hst
          left
          refine ⟨?_, hi.1, ?_⟩
          · intro q hq
            rcases List.mem_cons.mp hq with rfl | hq
            · exact hlow
            · exact hall q hq
          · rw [hlast, hp.2]
            exact hi.2
      · right
        exact ⟨k :: pre, k1, post, by rw [he]; rfl, hk, hpost, hlast⟩
    · simp only [Pir.run, Pir.executed, if_neg ho] at ht ⊢
      by_cases hlow : k.pir_low = true
      · right
        refine ⟨[], k, [], rfl, hlow, fun q hq => absurd hq (List.not_mem_nil _), ?_⟩
        rw [hp.2]
        exact ((presence_cases k s).1 hlow).2
      · have hlow : k.pir_low = false := by simpa using hlow
        rw [hp.1] at ht
        have hi := presence_inactive_true k s hlow ht
        left
        refine ⟨?_, hi.1, ?_⟩
        · intro q hq
          rw [List.mem_singleton] at hq
          rw [hq]; exact hlow
        · rw [hp.2]
          exact hi.2

/-- C17: `PIR_HOLD_TIME` is 60000 ms and in every iteration of the PIR `loop`: with
the input active the flag becomes true and `last_pir_active_time` the current time;
with the input inactive, the flag set and `millis() - last_pir_active_time`, modulo
`2 ^ 32`, above the hold time, the flag becomes false; otherwise nothing changes. So
the flag never turns true with the input inactive, it turns false only in an
iteration with the input inactive and the hold time exceeded, and whenever it is set
after a run, `last_pir_active_time` is the time of the last executed iteration with
the input active. -/
theorem presence_hold {D : Type} (cfg : Config D) (k : Pir.Tick D) (s : Pir.State)
    (mem : Mem) (begin_result : Int) (ticks : List (Pir.Tick D)) :
    Pir.PIR_HOLD_TIME = 60000 ∧
    (k.pir_low = true →
      (Pir.loop cfg k s).state.pir_status = true ∧
      (Pir.loop cfg k s).state.last_pir_active_time = millis k.millis_active) ∧
    (k.pir_low = false → s.pir_status = true →
      Pir.PIR_HOLD_TIME < sub32 (millis k.millis_hold) s.last_pir_active_time →
      (Pir.loop cfg k s).state.pir_status = false ∧
      (Pir.loop cfg k s).state.last_pir_active_time = s.last_pir_active_time) ∧
    (k.pir_low = false →
      ¬ (s.pir_status = true ∧
        Pir.PIR_HOLD_TIME < sub32 (millis k.millis_hold) s.last_pir_active_time) →
      (Pir.loop cfg k s).state.pir_status = s.pir_status ∧
      (Pir.loop cfg k s).state.last_pir_active_time = s.last_pir_active_time) ∧
    (k.pir_low = false → s.pir_status = false →
      (Pir.loop cfg k s).state.pir_status = false) ∧
    (s.pir_status = true → (Pir.loop cfg k s).state.pir_status = false →
      k.pir_low = false ∧
      Pir.PIR_HOLD_TIME < sub32 (millis k.millis_hold) s.last_pir_active_time) ∧
    ((Pir.execution cfg mem begin_result ticks).state.pir_status = true →
      ∃ pre a post,
        Pir.executed cfg (Pir.setup mem begin_result : Step Pir.State D).state ticks =
          pre ++ a :: post ∧
        a.pir_low = true ∧ (∀ q ∈ post, q.pir_low = false) ∧
        (Pir.execution cfg mem begin_result ticks).state.last_pir_active_time =
          millis a.millis_active) := by
  have hp := pir_loop_presence cfg k s
  have hc := presence_cases k s
  refine ⟨rfl, ?_, ?_, ?_, ?_, ?_, ?_⟩
  · intro h
    rw [hp.1, hp.2]
    exact hc.1 h
  · intro h hs hh
    rw [hp.1, hp.2]
    exact hc.2.1 h hs hh
  · intro h hn
    rw [hp.1, hp.2, hc.2.2 h hn]
    exact ⟨rfl, rfl⟩
  · intro h hs
    rw [hp.1, hc.2.2 h (fun hx => by rw [hs] at hx; exact absurd hx.1 (by decide))]
    exact hs
  · intro hs hf
    rw [hp.1] at hf
    by_cases hlow : k.pir_low = true
    · rw [(hc.1 hlow).1] at hf
      exact absurd hf (by decide)
    · have hlow : k.pir_low = false := by simpa using hlow
      refine ⟨hlow, ?_⟩
      by_contra hn
      rw [hc.2.2 hlow (fun hx => hn hx.2), hs] at hf
      exact absurd hf (by decide)
  · intro ht
    have hs0 : (Pir.setup mem begin_result : Step Pir.State D).state.pir_status = false := by
      simp only [Pir.setup]
      split_ifs <;> rfl
    by_cases ho : (Pir.setup mem begin_result : Step Pir.State D).outcome = Outcome.running
    · simp only [Pir.execution, if_pos ho] at ht ⊢
      rcases pir_run_presence cfg ticks _ ht with ⟨_, hst, _⟩ | h
      · rw [hs0] at hst
        exact absurd hst (by decide)
      · exact h
    · simp only [Pir.execution, if_neg ho] at ht
      rw [hs0] at ht
      exact absurd ht (by decide)

/-! ## C18: every read follows a conversion request -/

theorem readsPrecededFrom_of_all {D : Type} (R : Nat → Prop) (es : List (Effect D))
    (h : ∀ e ∈ es, ∀ i, sensorOp e = some (Event.read i) → R i) :
    readsPrecededFrom R es := by
  intro pre post e i he hr
  left
  exact h e (by rw [he]; simp) i hr

theorem readsPrecededFrom_mono {D : Type} (R S : Nat → Prop) (es : List (Effect D))
    (hRS : ∀ i, R i → S i) (h : readsPrecededFrom R es) : readsPrecededFrom S es := by
  intro pre post e i he hr
  rcases h pre post e i he hr with h1 | h1
  · exact Or.inl (hRS i h1)
  · exact Or.inr h1

theorem readsPrecededFrom_append {D : Type} (R : Nat → Prop) (a b : List (Effect D))
    (ha : readsPrecededFrom R a)
    (hb : readsPrecededFrom
      (fun i => R i ∨ ∃ r ∈ a, sensorOp r = some (Event.request_temperature i)) b) :
    readsPrecededFrom R (a ++ b) := by
  intro pre post e i he hr
  rcases List.append_eq_append_iff.mp he with ⟨a1, h1, h2⟩ | ⟨c1, h1, h2⟩
  · rcases hb a1 post e i h2 hr with (h3 | ⟨r, hra, hrr⟩) | ⟨r, hra, hrr⟩
    · exact Or.inl h3
    · exact Or.inr ⟨r, by rw [h1]; exact List.mem_append_left _ hra, hrr⟩
    · exact Or.inr ⟨r, by rw [h1]; exact List.mem_append_right _ hra, hrr⟩
  · cases c1 with
    | nil =>
      rw [List.append_nil] at h1
      rw [List.nil_append] at h2
      rcases hb [] post e i (by rw [← h2]; rfl) hr with (h3 | ⟨r, hra, hrr⟩) | ⟨r, hra, _⟩
      · exact Or.inl h3
      · exact Or.inr ⟨r, by rw [← h1]; exact hra, hrr⟩
      · exact absurd hra (List.not_mem_nil _)
    | cons x c2 =>
      rw [List.cons_append] at h2
      injection h2 with h3 h4
      exact ha pre c2 e i (by rw [h1, h3]) hr

theorem readsPreceded_iff {D : Type} (es : List (Effect D)) :
    readsPreceded es ↔ readsPrecededFrom (fun _ => False) es := by
  constructor
  · intro h pre post e i he hr
    exact Or.inr (h pre post e i he hr)
  · intro h pre post e i he hr
    rcases h pre post e i he hr with h1 | h1
    · exact absurd h1 id
    · exact h1

theorem read_not_mem_send_headers {D : Type} (server_name : String) (code : Nat)
    (content_type : Option (List Nat)) (i : Nat) :
    (Event.read i : Event D) ∉ send_headers server_name code content_type := by
  cases content_type <;>
    simp only [send_headers, send_F, send_data] <;> split_ifs <;> simp

theorem primary_read_mem_respond {D : Type} (cfg : Config D) (now last : Nat) (read : Nat → D)
    (reply : Primary.Reply) (code i : Nat)
    (h : Event.read i ∈ Primary.respond cfg now last read reply code) :
    i < cfg.sensor_count := by
  cases reply with
  | reply_index =>
    simp only [Primary.respond, serve_html, List.mem_append, send_data, List.mem_singleton] at h
    rcases h with h | h
    · exact absurd h (read_not_mem_send_headers _ _ _ _)
    · exact absurd h (by simp)
  | reply_error =>
    simp only [Primary.respond] at h
    exact absurd h (read_not_mem_send_headers _ _ _ _)
  | reply_json =>
    simp only [Primary.respond, Primary.serve_measurements_json, List.mem_append,
      List.mem_flatMap, List.mem_range] at h
    rcases h with (((h | h) | h) | ⟨j, hj, h⟩) | h
    · exact absurd h (read_not_mem_send_headers _ _ _ _)
    · exact absurd h (by simp [send_F, send_data])
    · split_ifs at h <;> simp at h
    · have : i = j := by
        simp only [Primary.json_entry, send_F, send_data] at h
        split_ifs at h <;> simpa using h
      rw [this]; exact hj
    · exact absurd h (by simp [send_F, send_data])

theorem primary_read_mem_handle_http {D : Type} (cfg : Config D) (now last : Nat)
    (read : Nat → D) (available : Option (List Int)) (mem : Mem) (i : Nat)
    (h : Event.read i ∈ (Primary.handle_http cfg now last read available mem).events) :
    i < cfg.sensor_count := by
  cases available with
  | none => exact absurd h (by simp [Primary.handle_http])
  | some client =>
    simp only [Primary.handle_http, List.mem_append] at h
    rcases h with h | h
    · exact primary_read_mem_respond cfg now last read _ _ i h
    · exact absurd h (by simp [close])

theorem sensorOp_update {D : Type} (cfg : Config D) (k : Primary.Tick D) (s : Primary.State)
    (e : Effect D) (he : e ∈ (Primary.update cfg k s).2) (i : Nat) :
    sensorOp e ≠ some (Event.read i) := by
  simp only [Primary.update, Primary.request_temperatures] at he
  split_ifs at he
  · simp only [List.mem_append, List.mem_singleton, List.mem_map, List.mem_range] at he
    rcases he with he | ⟨j, _, he⟩
    · rw [he]; simp [sensorOp]
    · rw [← he]; simp [sensorOp]
  · exact absurd he (List.not_mem_nil _)

theorem sensorOp_publish {D : Type} (cfg : Config D) (k : Primary.Tick D) (s : Primary.State)
    (e : Effect D) (he : e ∈ (Primary.publish cfg k s).2) (i : Nat)
    (hr : sensorOp e = some (Event.read i)) : i = s.idx := by
  simp only [Primary.publish] at he
  split_ifs at he
  · simp only [Primary.datagram, List.mem_cons, List.mem_singleton] at he
    rcases he with he | he | he | he | he | he | he | he | he | he <;>
      first
      | (rw [he] at hr; simp only [sensorOp, Option.some.injEq, Event.read.injEq] at hr
         exact hr.symm)
      | (rw [he] at hr; simp [sensorOp] at hr)
      | exact absurd he (List.not_mem_nil _)
  · exact absurd he (List.not_mem_nil _)

theorem sensorOp_check_link {D : Type} (link_on : Bool) (e : Effect D)
    (he : e ∈ (check_link link_on : List (Effect D) × Outcome).1) :
    sensorOp e = none := by
  simp only [check_link] at he
  split_ifs at he
  · simp only [List.mem_cons, List.mem_singleton] at he
    rcases he with he | he | he
    · rw [he]; rfl
    · rw [he]; rfl
    · exact absurd he (List.not_mem_nil _)
  · exact absurd he (List.not_mem_nil _)

theorem sensorOp_handle_dhcp {D : Type} (maintain : Int) (e : Effect D)
    (he : e ∈ (handle_dhcp maintain : List (Effect D) × Outcome).1) :
    sensorOp e = none := by
  simp only [handle_dhcp] at he
  split_ifs at he <;> simp only [List.mem_cons, List.mem_singleton] at he <;>
    first
    | exact absurd he (List.not_mem_nil _)
    | (rcases he with he | he | he
       · rw [he]; rfl
       · rw [he]; rfl
       · exact absurd he (List.not_mem_nil _))
    | (rcases he with he | he
       · rw [he]; rfl
       · exact absurd he (List.not_mem_nil _))

theorem sensorOp_http {D : Type} (events : List (Event D)) (e : Effect D)
    (he : e ∈ events.map Effect.http) (x : Event D) (hx : sensorOp e = some x) :
    x ∈ events := by
  rcases List.mem_map.mp he with ⟨y, hy, rfl⟩
  simp only [sensorOp, Option.some.injEq] at hx
  rw [← hx]; exact hy

theorem primary_loop_reads {D : Type} (cfg : Config D) (k : Primary.Tick D)
    (s : Primary.State) (hs : s.idx < cfg.sensor_count) :
    (∀ e ∈ (Primary.loop cfg k s).effects, ∀ i, sensorOp e = some (Event.read i) →
      i < cfg.sensor_count) ∧
    (Primary.loop cfg k s).state.idx < cfg.sensor_count := by
  have hn : 0 < cfg.sensor_count := Nat.lt_of_le_of_lt (Nat.zero_le _) hs
  constructor
  · have hu := sensorOp_update cfg k s
    have hui := (published_update cfg k s).2
    have hp := sensorOp_publish cfg k (Primary.update cfg k s).1
    have hl := sensorOp_check_link (D := D) k.link_on
    have hd := sensorOp_handle_dhcp (D := D) k.maintain
    have key : ∀ e : Effect D,
        (e = Effect.wdt_reset ∨ e ∈ (Primary.update cfg k s).2 ∨
          e ∈ (Primary.publish cfg k (Primary.update cfg k s).1).2 ∨
          e ∈ (check_link k.link_on : List (Effect D) × Outcome).1 ∨
          e ∈ (handle_dhcp k.maintain : List (Effect D) × Outcome).1 ∨
          e ∈ (Primary.handle_http cfg k.millis_json
            (Primary.publish cfg k (Primary.update cfg k s).1).1.last_reading_update k.read
            k.available (Primary.publish cfg k (Primary.update cfg k s).1).1.buffer).events.map
              Effect.http) →
        ∀ i, sensorOp e = some (Event.read i) → i < cfg.sensor_count := by
      intro e he i hr
      rcases he with he | he | he | he | he | he
      · rw [he] at hr; simp [sensorOp] at hr
      · exact absurd hr (hu e he i)
      · rw [hp e he i hr, hui]; exact hs
      · rw [hl e he] at hr; simp at hr
      · rw [hd e he] at hr; simp at hr
      · exact primary_read_mem_handle_http cfg _ _ _ _ _ i (sensorOp_http _ e he _ hr)
    intro e he
    apply key e
    simp only [Primary.loop] at he
    split_ifs at he <;>
      simp only [List.mem_append, List.mem_singleton] at he <;> tauto
  · rcases primary_loop_cursor cfg k s with ⟨_, h⟩ | ⟨_, h⟩
    · rw [h]; exact hs
    · rw [h]; exact Nat.mod_lt _ hn

theorem primary_run_reads {D : Type} (cfg : Config D) (ticks : List (Primary.Tick D))
    (s : Primary.State) (hs : s.idx < cfg.sensor_count) :
    ∀ e ∈ (Primary.run cfg s ticks).effects, ∀ i, sensorOp e = some (Event.read i) →
      i < cfg.sensor_count := by
  induction ticks generalizing s with
  | nil =>
    intro e he
    exact absurd he (List.not_mem_nil _)
  | cons k ks ih =>
    have hl := primary_loop_reads cfg k s hs
    by_cases ho : (Primary.loop cfg k s).outcome = Outcome.running
    · simp only [Primary.run, if_pos ho]
      intro e he
      rcases List.mem_append.mp he with he | he
      · exact hl.1 e he
      · exact ih _ hl.2 e he
    · simp only [Primary.run, if_neg ho]
      exact hl.1

theorem primary_setup_requests {D : Type} (cfg : Config D) (mem : Mem) (begin_result : Int)
    (t : Nat) :
    (∀ e ∈ (Primary.setup cfg mem begin_result t).effects, ∀ i,
      sensorOp e ≠ some (Event.read i)) ∧
    ((Primary.setup cfg mem begin_result t).outcome = Outcome.running →
      ∀ i, i < cfg.sensor_count → ∃ r ∈ (Primary.setup cfg mem begin_result t).effects,
        sensorOp r = some (Event.request_temperature i)) := by
  constructor
  · simp only [Primary.setup, setup_ethernet, Primary.request_temperatures]
    split_ifs <;> simp [sensorOp] <;> rintro a (⟨j, _, rfl⟩ | rfl) i <;> simp
  · intro ho i hi
    simp only [Primary.setup] at ho ⊢
    split_ifs at ho ⊢ with h1
    · exact absurd ho h1
    · refine ⟨Effect.ev (Event.request_temperature i), ?_, rfl⟩
      simp only [Primary.request_temperatures, List.mem_append, List.mem_map, List.mem_range]
      exact Or.inl (Or.inr (Or.inr ⟨i, hi, rfl⟩))

theorem readsPrecededFrom_of_none {D : Type} (R : Nat → Prop) (es : List (Effect D))
    (h : ∀ e ∈ es, ∀ i, sensorOp e ≠ some (Event.read i)) : readsPrecededFrom R es := by
  intro pre post e i he hr
  exact absurd hr (h e (by rw [he]; simp) i)

theorem readsPrecededFrom_append_any {D : Type} (a b : List (Effect D))
    (ha : ∀ R, readsPrecededFrom R a) (hb : ∀ R, readsPrecededFrom R b) (R : Nat → Prop) :
    readsPrecededFrom R (a ++ b) :=
  readsPrecededFrom_append R a b (ha R) (hb _)

theorem primary_execution_preceded {D : Type} (cfg : Config D) (mem : Mem)
    (begin_result : Int) (t : Nat) (ticks : List (Primary.Tick D))
    (hn : 0 < cfg.sensor_count) :
    readsPreceded (Primary.execution cfg mem begin_result t ticks).effects := by
  rw [readsPreceded_iff]
  have hs := primary_setup_requests cfg mem begin_result t
  by_cases ho : (Primary.setup cfg mem begin_result t).outcome = Outcome.running
  · simp only [Primary.execution, if_pos ho]
    apply readsPrecededFrom_append
    · exact readsPrecededFrom_of_none _ _ hs.1
    · apply readsPrecededFrom_of_all
      intro e he i hr
      right
      have hi := primary_run_reads cfg ticks (Primary.setup cfg mem begin_result t).state
        (by rw [(primary_setup_idx cfg mem begin_result t).1]; exact hn) e he i hr
      exact hs.2 ho i hi
  · simp only [Primary.execution, if_neg ho]
    exact readsPrecededFrom_of_none _ _ hs.1

theorem reads_entries {D : Type} (cfg : Config D) (read : Nat → D)
    (ns ne sep : List Nat) (n : Nat) :
    delays ((List.range n).flatMap (Pir.entry cfg read ns ne sep)) = [] ∧
    reads ((List.range n).flatMap (Pir.entry cfg read ns ne sep)) = List.range n := by
  induction n with
  | zero => exact ⟨rfl, rfl⟩
  | succ n ih =>
    rw [List.range_succ, List.flatMap_append, delays_append, reads_append, ih.1, ih.2,
      List.flatMap_singleton]
    constructor
    · by_cases h : n > 0 <;> simp [Pir.entry, send_data, delays, h]
    · by_cases h : n > 0 <;> simp [Pir.entry, send_data, reads, h]

theorem reads_requests {D : Type} (l : List Nat) :
    delays (l.map Event.request_temperature : List (Event D)) = [] ∧
    reads (l.map Event.request_temperature : List (Event D)) = [] := by
  induction l with
  | nil => exact ⟨rfl, rfl⟩
  | cons x xs ih => exact ⟨ih.1, ih.2⟩

theorem mem_reads {D : Type} (es : List (Event D)) (i : Nat) :
    Event.read i ∈ es ↔ i ∈ reads es := by
  induction es with
  | nil => simp [reads]
  | cons e es ih => cases e <;> simp [reads, ih]

theorem pir_serve_measurements_split {D : Type} (cfg : Config D) (pir_status : Bool)
    (read : Nat → D) (ct ph th ns ne sep ft : List Nat) :
    Pir.serve_measurements cfg pir_status read ct ph th ns ne sep ft =
      (send_headers Pir.SERVER_NAME 200 (some ct) ++ send_data (Data.flash ph) ++
        send_data (Data.bool pir_status) ++ send_data (Data.flash th)) ++
      (List.range cfg.sensor_count).map Event.request_temperature ++
      [Event.delay cfg.DS18B20_CONVERSION_DELAY_MS] ++
      ((List.range cfg.sensor_count).flatMap (Pir.entry cfg read ns ne sep) ++
        send_data (Data.flash ft)) ∧
    reads (send_headers Pir.SERVER_NAME 200 (some ct) ++ send_data (Data.flash ph) ++
        send_data (Data.bool pir_status) ++ send_data (Data.flash th) : List (Event D)) = [] ∧
    delays (send_headers Pir.SERVER_NAME 200 (some ct) ++ send_data (Data.flash ph) ++
        send_data (Data.bool pir_status) ++ send_data (Data.flash th) : List (Event D)) = [] ∧
    reads ((List.range cfg.sensor_count).flatMap (Pir.entry cfg read ns ne sep) ++
        send_data (Data.flash ft)) = List.range cfg.sensor_count ∧
    delays ((List.range cfg.sensor_count).flatMap (Pir.entry cfg read ns ne sep) ++
        send_data (Data.flash ft)) = [] := by
  have hh := delays_send_headers (D := D) Pir.SERVER_NAME 200 (some ct)
  have he := reads_entries cfg read ns ne sep cfg.sensor_count
  refine ⟨?_, ?_, ?_, ?_, ?_⟩
  · simp only [Pir.serve_measurements, List.append_assoc]
  · simp only [reads_append, hh.2]; rfl
  · simp only [delays_append, hh.1]; rfl
  · rw [reads_append, he.2]; simp [send_data, reads]
  · rw [delays_append, he.1]; rfl

theorem pir_serve_measurements_preceded {D : Type} (cfg : Config D) (pir_status : Bool)
    (read : Nat → D) (ct ph th ns ne sep ft : List Nat) (R : Nat → Prop) :
    readsPrecededFrom R
      ((Pir.serve_measurements cfg pir_status read ct ph th ns ne sep ft).map Effect.http) := by
  have hs := pir_serve_measurements_split cfg pir_status read ct ph th ns ne sep ft
  have hq := reads_requests (D := D) (List.range cfg.sensor_count)
  rw [hs.1, List.map_append]
  apply readsPrecededFrom_append
  · apply readsPrecededFrom_of_none
    intro e he i hr
    have hm := (mem_reads _ i).mp (sensorOp_http _ e he _ hr)
    rw [reads_append, reads_append, hs.2.1, hq.2] at hm
    simp [reads] at hm
  · apply readsPrecededFrom_of_all
    intro e he i hr
    have hm := (mem_reads _ i).mp (sensorOp_http _ e he _ hr)
    rw [hs.2.2.2.1, List.mem_range] at hm
    right
    refine ⟨Effect.http (Event.request_temperature i), ?_, rfl⟩
    apply List.mem_map_of_mem
    apply List.mem_append_left
    apply List.mem_append_right
    exact List.mem_map_of_mem _ (List.mem_range.mpr hm)

theorem no_reads_http {D : Type} (events : List (Event D)) (h : reads events = []) :
    ∀ e ∈ events.map Effect.http, ∀ i, sensorOp e ≠ some (Event.read i) := by
  intro e he i hr
  have hm := (mem_reads _ i).mp (sensorOp_http _ e he _ hr)
  rw [h] at hm
  exact absurd hm (List.not_mem_nil _)

theorem pir_handle_http_preceded {D : Type} (cfg : Config D) (pir_status : Bool)
    (read : Nat → D) (available : Option (List Int)) (mem : Mem) (R : Nat → Prop) :
    readsPrecededFrom R
      ((Pir.handle_http cfg pir_status read available mem).events.map Effect.http) := by
  cases available with
  | none =>
    exact readsPrecededFrom_of_none _ _ (fun e he => absurd he (List.not_mem_nil _))
  | some client =>
    simp only [Pir.handle_http, List.map_append]
    refine readsPrecededFrom_append_any _ _ ?_ ?_ R
    · intro R1
      cases (Pir.parse_request client mem).1 with
      | reply_index =>
        apply readsPrecededFrom_of_none
        apply no_reads_http
        simp only [Pir.respond, serve_html, reads_append,
          (delays_send_headers Pir.SERVER_NAME 200 (some (cbytes "text/html"))).2]
        rfl
      | reply_error =>
        apply readsPrecededFrom_of_none
        apply no_reads_http
        simp only [Pir.respond, (delays_send_headers Pir.SERVER_NAME _ none).2]
      | reply_json => exact pir_serve_measurements_preceded cfg pir_status read _ _ _ _ _ _ _ R1
      | reply_prometheus =>
        exact pir_serve_measurements_preceded cfg pir_status read _ _ _ _ _ _ _ R1
    · intro R1
      exact readsPrecededFrom_of_none _ _ (no_reads_http _ rfl)

theorem pir_loop_preceded {D : Type} (cfg : Config D) (k : Pir.Tick D) (s : Pir.State)
    (R : Nat → Prop) : readsPrecededFrom R (Pir.loop cfg k s).effects := by
  have hw : ∀ R1, readsPrecededFrom R1 ([Effect.wdt_reset] : List (Effect D)) := fun R1 =>
    readsPrecededFrom_of_none _ _ (by simp [sensorOp])
  have hl : ∀ R1, readsPrecededFrom R1 (check_link k.link_on : List (Effect D) × Outcome).1 :=
    fun R1 => readsPrecededFrom_of_none _ _ (fun e he i hr => by
      rw [sensorOp_check_link _ e he] at hr; exact absurd hr (by simp))
  have hd : ∀ R1,
      readsPrecededFrom R1 (handle_dhcp k.maintain : List (Effect D) × Outcome).1 :=
    fun R1 => readsPrecededFrom_of_none _ _ (fun e he i hr => by
      rw [sensorOp_handle_dhcp _ e he] at hr; exact absurd hr (by simp))
  simp only [Pir.loop]
  split_ifs
  · exact readsPrecededFrom_append_any _ _ hw hl R
  · exact readsPrecededFrom_append_any _ _ (readsPrecededFrom_append_any _ _ hw hl) hd R
  · refine readsPrecededFrom_append_any _ _ (readsPrecededFrom_append_any _ _
      (readsPrecededFrom_append_any _ _ (readsPrecededFrom_append_any _ _ hw hl) hd)
      (pir_handle_http_preceded cfg _ _ _ _)) ?_ R
    intro R1
    exact readsPrecededFrom_of_none _ _ (by simp [sensorOp])
  · refine readsPrecededFrom_append_any _ _ (readsPrecededFrom_append_any _ _
      (readsPrecededFrom_append_any _ _ (readsPrecededFrom_append_any _ _ hw hl) hd)
      (pir_handle_http_preceded cfg _ _ _ _)) ?_ R
    intro R1
    exact readsPrecededFrom_of_none _ _ (fun e he => absurd he (List.not_mem_nil _))

theorem pir_run_preceded {D : Type} (cfg : Config D) (ticks : List (Pir.Tick D))
    (s : Pir.State) (R : Nat → Prop) : readsPrecededFrom R (Pir.run cfg s ticks).effects := by
  induction ticks generalizing s R with
  | nil => exact readsPrecededFrom_of_none _ _ (fun e he => absurd he (List.not_mem_nil _))
  | cons k ks ih =>
    by_cases ho : (Pir.loop cfg k s).outcome = Outcome.running
    · simp only [Pir.run, if_pos ho]
      exact readsPrecededFrom_append _ _ _ (pir_loop_preceded cfg k s R) (ih _ _)
    · simp only [Pir.run, if_neg ho]
      exact pir_loop_preceded cfg k s R

theorem pir_execution_preceded {D : Type} (cfg : Config D) (mem : Mem)
    (begin_result : Int) (ticks : List (Pir.Tick D)) :
    readsPreceded (Pir.execution cfg mem begin_result ticks).effects := by
  rw [readsPreceded_iff]
  have hs : ∀ R, readsPrecededFrom R (Pir.setup mem begin_result : Step Pir.State D).effects := by
    intro R
    apply readsPrecededFrom_of_none
    simp only [Pir.setup, setup_ethernet]
    split_ifs <;> simp [sensorOp]
  by_cases ho : (Pir.setup mem begin_result : Step Pir.State D).outcome = Outcome.running
  · simp only [Pir.execution, if_pos ho]
    exact readsPrecededFrom_append _ _ _ (hs _) (pir_run_preceded cfg ticks _ _)
  · simp only [Pir.execution, if_neg ho]
    exact hs _

/-- C18: in every execution (`setup`, then any number of `loop` iterations) of the
primary variant with at least one sensor and of the PIR variant, every read of a
sensor comes after a conversion request for the same sensor; and in the PIR variant
the JSON and the Prometheus response both consist of a part without sensor reads
and without delays, then the conversion requests for all sensors in bank order, then
one delay of `DS18B20_CONVERSION_DELAY_MS`, whatever the state, and only then the
part that reads the sensors, in bank order starting with the first. -/
theorem reads_follow_requests {D : Type} (cfg : Config D) (mem : Mem) (begin_result : Int)
    (t : Nat) (pticks : List (Primary.Tick D)) (qticks : List (Pir.Tick D))
    (pir_status : Bool) (read : Nat → D) (code : Nat) (hn : 0 < cfg.sensor_count) :
    readsPreceded (Primary.execution cfg mem begin_result t pticks).effects ∧
    readsPreceded (Pir.execution cfg mem begin_result qticks).effects ∧
    (∀ reply, reply = Pir.Reply.reply_json ∨ reply = Pir.Reply.reply_prometheus →
      ∃ pre post, Pir.respond cfg pir_status read reply code =
          pre ++ (List.range cfg.sensor_count).map Event.request_temperature ++
            [Event.delay cfg.DS18B20_CONVERSION_DELAY_MS] ++ post ∧
        reads pre = [] ∧ delays pre = [] ∧
        reads post = List.range cfg.sensor_count ∧ delays post = []) := by
  refine ⟨primary_execution_preceded cfg mem begin_result t pticks hn,
    pir_execution_preceded cfg mem begin_result qticks, ?_⟩
  intro reply hr
  rcases hr with hr | hr
  · rw [hr]
    have hs := pir_serve_measurements_split cfg pir_status read (cbytes "application/json")
      (cbytes "\x7b\"presence\":") (cbytes ",\"temperature\":\x7b") (cbytes "\"")
      (cbytes "\":") (cbytes ",") (cbytes "\x7d\x7d")
    exact ⟨_, _, hs.1, hs.2.1, hs.2.2.1, hs.2.2.2.1, hs.2.2.2.2⟩
  · rw [hr]
    have hs := pir_serve_measurements_split cfg pir_status read (cbytes "text/plain")
      (cbytes "# HELP presence PIR presence sensor activated\n# TYPE presence gauge\npresence ")
      (cbytes "\n# HELP temperature Temperature in degrees Celsius\n# TYPE temperature gauge\n")
      (cbytes "temperature\x7bsensor=\"") (cbytes "\"\x7d ") (cbytes "\n") (cbytes "\n")
    exact ⟨_, _, hs.1, hs.2.1, hs.2.2.1, hs.2.2.2.1, hs.2.2.2.2⟩

/-- C18, witness: two sensors; the primary variant serves `GET /temperature.json` in
its first iteration and reads both sensors, which `setup` has requested; the PIR
variant serves `GET /metrics` in its first iteration. -/
theorem reads_follow_requests_witness :
    0 < (sampleConfig ["A", "B"]).sensor_count ∧
    Effect.http (Event.read 1) ∈ (Primary.execution (sampleConfig ["A", "B"]) dirty 1 0
      [Primary.sampleTick 2000 (some (request "GET /temperature.json HTTP/1.1\r\n\r\n"))]).effects ∧
    readsPreceded (Primary.execution (sampleConfig ["A", "B"]) dirty 1 0
      [Primary.sampleTick 2000 (some (request "GET /temperature.json HTTP/1.1\r\n\r\n"))]).effects ∧
    Effect.http (Event.read 1) ∈ (Pir.execution (sampleConfig ["A", "B"]) dirty 1
      [Pir.sampleTick 2000 false (some (request "GET /metrics HTTP/1.1\r\n\r\n"))]).effects ∧
    readsPreceded (Pir.execution (sampleConfig ["A", "B"]) dirty 1
      [Pir.sampleTick 2000 false (some (request "GET /metrics HTTP/1.1\r\n\r\n"))]).effects :=
  ⟨by decide, by decide,
    (reads_follow_requests (sampleConfig ["A", "B"]) dirty 1 0
      [Primary.sampleTick 2000 (some (request "GET /temperature.json HTTP/1.1\r\n\r\n"))]
      [Pir.sampleTick 2000 false (some (request "GET /metrics HTTP/1.1\r\n\r\n"))]
      false (sampleRead []) 200 (by decide)).1,
    by decide,
    (reads_follow_requests (sampleConfig ["A", "B"]) dirty 1 0
      [Primary.sampleTick 2000 (some (request "GET /temperature.json HTTP/1.1\r\n\r\n"))]
      [Pir.sampleTick 2000 false (some (request "GET /metrics HTTP/1.1\r\n\r\n"))]
      false (sampleRead []) 200 (by decide)).2.1⟩

/-! ## C19: the return value of `handle_http` -/

/-- C19: in both variants `handle_http` returns false exactly when no client is
pending, and then it has no effect and leaves the buffer as it was; it returns true
for every accepted connection, whatever the peer sent and whatever the response. So
in every iteration of the PIR `loop` that reaches the liveness block with an accepted
connection, `last_http_client` becomes the current time and the loop goes on; with
no connection it keeps its value. -/
theorem handle_http_return {D : Type} (cfg : Config D) (now last : Nat) (pir_status : Bool)
    (read : Nat → D) (available : Option (List Int)) (mem : Mem) (k : Pir.Tick D)
    (s : Pir.State) :
    ((Primary.handle_http cfg now last read available mem).ret = false ↔ available = none) ∧
    ((Pir.handle_http cfg pir_status read available mem).ret = false ↔ available = none) ∧
    ((Primary.handle_http cfg now last read none mem).events = [] ∧
      (Primary.handle_http cfg now last read none mem).mem = mem) ∧
    ((Pir.handle_http cfg pir_status read none mem).events = [] ∧
      (Pir.handle_http cfg pir_status read none mem).mem = mem) ∧
    (∀ client, (Primary.handle_http cfg now last read (some client) mem).ret = true ∧
      (Pir.handle_http cfg pir_status read (some client) mem).ret = true) ∧
    (k.link_on = true → k.maintain ≠ 1 → k.maintain ≠ 3 →
      (∀ client, k.available = some client →
        (Pir.loop cfg k s).state.last_http_client = some (millis k.millis_handled) ∧
        (Pir.loop cfg k s).outcome = Outcome.running) ∧
      (k.available = none →
        (Pir.loop cfg k s).state.last_http_client =
          some (s.last_http_client.getD (millis k.millis_init)))) := by
  refine ⟨?_, ?_, ⟨rfl, rfl⟩, ⟨rfl, rfl⟩, fun client => ⟨rfl, rfl⟩, ?_⟩
  · rw [primary_handle_http_ret]
    cases available <;> simp
  · rw [pir_handle_http_ret]
    cases available <;> simp
  · intro hl h1 h3
    have h := pir_loop_liveness cfg k s hl h1 h3
    constructor
    · intro client hc
      rw [h.1, h.2.1, hc]
      simp [Pir.liveness]
    · intro hc
      rw [h.2.1, hc]
      simp only [Pir.liveness, Option.isSome_none]
      split_ifs <;> first | rfl | contradiction

/-! ## C20: the 16-byte name buffer of the PIR variant -/

/-- C20: every round of the rendering loop of the PIR `serve_measurements` sends the
16-byte array left by `strncpy_P(name, sensor_names[i], 16)`. For a display name (a C
string) of at most 15 bytes the array holds a terminator and the text sent is the
display name exactly; for a display name of 16 bytes or more the array is the first
16 bytes of the name and holds no terminator, so the text sent is not determined by
the array. -/
theorem name_buffer_copy {D : Type} (cfg : Config D) (read : Nat → D)
    (name_start name_end sep : List Nat) (i : Nat) (h0 : 0 ∉ cfg.sensor_names i) :
    Data.cstr (Pir.strncpy_P (cfg.sensor_names i) 16) ∈
      sent (Pir.entry cfg read name_start name_end sep i) ∧
    (∀ a, Data.cstr a ∈ sent (Pir.entry cfg read name_start name_end sep i) →
      a = Pir.strncpy_P (cfg.sensor_names i) 16) ∧
    (Pir.strncpy_P (cfg.sensor_names i) 16).length = 16 ∧
    ((cfg.sensor_names i).length ≤ 15 →
      0 ∈ Pir.strncpy_P (cfg.sensor_names i) 16 ∧
      (Data.cstr (Pir.strncpy_P (cfg.sensor_names i) 16) : Data D).text cfg.print_double =
        some (cfg.sensor_names i)) ∧
    (16 ≤ (cfg.sensor_names i).length →
      Pir.strncpy_P (cfg.sensor_names i) 16 = (cfg.sensor_names i).take 16 ∧
      0 ∉ Pir.strncpy_P (cfg.sensor_names i) 16 ∧
      (Data.cstr (Pir.strncpy_P (cfg.sensor_names i) 16) : Data D).text cfg.print_double =
        none) := by
  have hs := pir_sent_entry cfg read name_start name_end sep i
  refine ⟨?_, ?_, ?_, ?_, ?_⟩
  · rw [hs]
    simp [Pir.entryData]
  · intro a ha
    rw [hs] at ha
    simp only [Pir.entryData] at ha
    split_ifs at ha <;> simpa using ha
  · simp only [Pir.strncpy_P, List.length_append, List.length_take, List.length_replicate]
    omega
  · intro hlen
    have ht := strncpy_P_text cfg.print_double (cfg.sensor_names i) hlen h0
    refine ⟨?_, ht⟩
    by_contra hm
    simp only [Data.text, if_neg hm] at ht
    exact absurd ht (by simp)
  · intro hlen
    have ht := strncpy_P_no_text cfg.print_double (cfg.sensor_names i) hlen h0
    refine ⟨?_, ?_, ht⟩
    · have : 16 - (cfg.sensor_names i).length = 0 := by omega
      simp only [Pir.strncpy_P, this, List.replicate_zero, List.append_nil]
    · intro hm
      simp only [Data.text, if_pos hm] at ht
      exact absurd ht (by simp)

/-- C20, witness: the name `kitchen` is sent as configured; of the 17-byte name
`living-room-north` the buffer holds the first 16 bytes and no terminator. -/
theorem name_buffer_copy_witness :
    0 ∉ (sampleConfig ["kitchen", "living-room-north"]).sensor_names 0 ∧
    (Data.cstr (Pir.strncpy_P ((sampleConfig ["kitchen", "living-room-north"]).sensor_names 0)
      16) : Data Reading).text (sampleConfig ["kitchen", "living-room-north"]).print_double =
        some (cbytes "kitchen") ∧
    0 ∉ (sampleConfig ["kitchen", "living-room-north"]).sensor_names 1 ∧
    Pir.strncpy_P ((sampleConfig ["kitchen", "living-room-north"]).sensor_names 1) 16 =
      cbytes "living-room-nort" ∧
    (Data.cstr (Pir.strncpy_P ((sampleConfig ["kitchen", "living-room-north"]).sensor_names 1)
      16) : Data Reading).text (sampleConfig ["kitchen", "living-room-north"]).print_double =
        none :=
  ⟨by decide,
    ((name_buffer_copy (sampleConfig ["kitchen", "living-room-north"]) (sampleRead []) [] [] []
      0 (by decide)).2.2.2.1 (by decide)).2,
    by decide, by decide,
    ((name_buffer_copy (sampleConfig ["kitchen", "living-room-north"]) (sampleRead []) [] [] []
      1 (by decide)).2.2.2.2 (by decide)).2.2⟩

end Celsius
